import Mathlib

/-!
# Pelakoor: history store, geocoding gateway, configuration store

A shallow embedding of `src/utils/historyManager.js`, `src/services/geocodingService.js`,
`src/config/apiManager.js` and of the configuration menu, the polygon perimeter, the
coordinate formats, the point prompts and the two geocoding flows of `src/bin/index.js`.

Conventions of the embedding:

* JavaScript values are the inductive `JsVal`; objects are association lists in insertion
  order, keyed by ordinary property names.
* A thrown exception is the `Except.error` branch, tagged by the site that raises it
  (`JsError`).
* The outside world is explicit: the process environment is a function `Env`, the upstream
  services are a function `Upstream` from the request issued to its answer, a file is a
  `FileState`, the clock is an argument, the answers of the user to the prompts are
  arguments.  File writes are taken to succeed.
* Numbers are rationals.  Where the source does arithmetic on decimal fractions (the
  coordinate formats), each operation returns `fl` of its exact result, where `fl` is the
  rounding of the engine, a parameter held to the error bound of binary64 (`Rounding`).
  `Math.floor`, `Math.abs`, `%` and `toFixed` are exact on their operand.
-/

namespace Pelakoor

/-! ## Values and errors -/

/-- JavaScript values handled by the program: JSON data plus `undefined`. -/
inductive JsVal where
  | undefined
  | null
  | bool (b : Bool)
  | num (x : Rat)
  | str (s : String)
  | arr (items : List JsVal)
  | obj (fields : List (String × JsVal))

/-- Exceptions, by origin: `error` is `throw new Error(message)` in the source, `typeError`
is raised by the runtime when a property of `undefined`/`null` is read or a non-function is
called (the payload names the property), `referenceError` is the use of an unbound
identifier, `upstream` is a rejection coming from the HTTP client or the geocoder library. -/
inductive JsError where
  | error (message : String)
  | typeError (property : String)
  | referenceError (identifier : String)
  | upstream (message : String)
  deriving DecidableEq

/-- Contents of a JSON file on disk, as `fs.pathExists` and `fs.readJson` see it. -/
inductive FileState where
  | missing
  | corrupt
  | holds (value : JsVal)

/-! ## History store (`src/utils/historyManager.js`) -/

/-- The `HistoryManager` object: `this.history` and the file at `this.historyPath`. -/
structure HistoryManager where
  history : List JsVal
  disk : FileState

/-- Arguments of one `addEntry(type, input, output, provider)` call together with the two
clock readings it takes (`Date.now()` and the formatted `moment()`). -/
structure AddCall where
  now : Nat
  stamp : String
  type : JsVal
  input : JsVal
  output : JsVal
  provider : JsVal

/-- The object literal built at the top of `addEntry`. -/
def AddCall.entry (c : AddCall) : JsVal :=
  .obj [("id", .num c.now), ("timestamp", .str c.stamp), ("type", c.type),
        ("input", c.input), ("output", c.output), ("provider", c.provider)]

namespace HistoryManager

/-- `saveHistory`: `fs.writeJson(this.historyPath, this.history)`. -/
def saveHistory (m : HistoryManager) : HistoryManager :=
  { m with disk := .holds (.arr m.history) }

/-- `addEntry`: `unshift` the new entry, cut to the first 100 when longer, save. -/
def addEntry (c : AddCall) (m : HistoryManager) : HistoryManager :=
  let unshifted := c.entry :: m.history
  let kept := if unshifted.length > 100 then unshifted.take 100 else unshifted
  saveHistory { m with history := kept }

/-- `getHistory(limit = 10)`: `this.history.slice(0, limit)` for a limit `≥ 0`. -/
def getHistory (m : HistoryManager) (limit : Option Nat) : List JsVal :=
  m.history.take (limit.getD 10)

/-- `clearHistory`: empty the list, save. -/
def clearHistory (m : HistoryManager) : HistoryManager :=
  saveHistory { m with history := [] }

/-- A history manager holding no entries, over any file state. -/
def empty (disk : FileState) : HistoryManager :=
  { history := [], disk := disk }

/-- The two mutating calls. -/
inductive Op where
  | add (c : AddCall)
  | clear

/-- One mutating call. -/
def step (m : HistoryManager) : Op → HistoryManager
  | .add c => addEntry c m
  | .clear => clearHistory m

/-- A sequence of mutating calls, first call first. -/
def run (m : HistoryManager) (ops : List Op) : HistoryManager :=
  ops.foldl step m

/-- Appending with `addEntry`, first call first. -/
def addAll (m : HistoryManager) (cs : List AddCall) : HistoryManager :=
  cs.foldl (fun acc c => addEntry c acc) m

end HistoryManager

/-! ## Decimal numerals -/

/-- The number that a text of decimal digits denotes, read left to right. -/
def digitsValue (cs : List Char) : Nat :=
  cs.foldl (fun a c => 10 * a + (c.toNat - 48)) 0

/-! ## Property access on values -/

namespace JsVal

/-- The values `undefined` and `null`, whose properties cannot be read. -/
def isNullish : JsVal → Bool
  | .undefined => true
  | .null => true
  | _ => false

/-- What names the property `k` of a value that is not `undefined`/`null`, for the property
names the program reads (none of which is a built-in property of a string, number, boolean
or array): the stored value on an object that has the key, `undefined` otherwise. -/
def field (v : JsVal) (k : String) : JsVal :=
  match v with
  | .obj fields => (fields.lookup k).getD .undefined
  | _ => .undefined

/-- What the literal index `i` selects in a value that is not `undefined`/`null`: the
element (or `undefined` past the end) of an array, the one-character string of a string,
the property named by the index of an object, `undefined` otherwise. -/
def item (v : JsVal) (i : Nat) : JsVal :=
  match v with
  | .arr items => items.getD i .undefined
  | .str s => ((s.toList.get? i).map fun c => JsVal.str (String.mk [c])).getD .undefined
  | .obj fields => (fields.lookup (toString i)).getD .undefined
  | _ => .undefined

/-- Property read `v.k`: a `TypeError` on `undefined` and `null`. -/
def getProp (v : JsVal) (k : String) : Except JsError JsVal :=
  if v.isNullish then .error (.typeError k) else .ok (v.field k)

/-- Indexing `v[i]`: a `TypeError` on `undefined` and `null`. -/
def getIndex (v : JsVal) (i : Nat) : Except JsError JsVal :=
  if v.isNullish then .error (.typeError (toString i)) else .ok (v.item i)

/-- Optional chaining `v?.k`: `undefined` when `v` is `undefined` or `null`. -/
def optField (v : JsVal) (k : String) : JsVal :=
  if v.isNullish then .undefined else v.field k

/-- The callback of `Array.prototype.map` run over the elements in order; the first
exception thrown by the callback ends the loop. -/
def mapItems (f : JsVal → Except JsError JsVal) : List JsVal → Except JsError (List JsVal)
  | [] => .ok []
  | x :: xs =>
    match f x with
    | .error e => .error e
    | .ok y =>
      match mapItems f xs with
      | .error e => .error e
      | .ok ys => .ok (y :: ys)

/-- Method call `v.map(f)`: defined on arrays; reading `map` off `undefined`/`null` and
calling the missing `map` of any other value are both `TypeError`s. -/
def map (v : JsVal) (f : JsVal → Except JsError JsVal) : Except JsError JsVal :=
  match v with
  | .arr items =>
    match mapItems f items with
    | .error e => .error e
    | .ok ys => .ok (.arr ys)
  | _ => .error (.typeError "map")

/-- Truthiness of a value in a condition: `undefined`, `null`, `false`, `0` and the empty
string are the falsy ones. -/
def truthy : JsVal → Bool
  | .undefined => false
  | .null => false
  | .bool b => b
  | .num x => decide (x ≠ 0)
  | .str s => decide (s ≠ "")
  | .arr _ => true
  | .obj _ => true

/-- The array index that a property name is, if it is one: the name is the decimal numeral
of a whole number below `2^32 - 1`, that is, decimal digits without a leading zero (the
name `0` apart). -/
def arrayIndex (k : String) : Option Nat :=
  if k.data ≠ [] ∧ k.data.all Char.isDigit = true ∧
      (k.data.head? ≠ some '0' ∨ k.data.length = 1) ∧ digitsValue k.data < 4294967295 then
    some (digitsValue k.data)
  else none

/-- The own properties of a plain object in the order in which the engine enumerates them:
first the properties whose name is an array index, by ascending index, then the other
properties in the order of their creation, which is the order of the association list. -/
def ownEntries (fields : List (String × JsVal)) : List (String × JsVal) :=
  (fields.filter fun e => (arrayIndex e.1).isSome).insertionSort
      (fun a b => (arrayIndex a.1).getD 0 ≤ (arrayIndex b.1).getD 0)
    ++ fields.filter fun e => (arrayIndex e.1).isNone

/-- The own enumerable properties of a value, as `Object.keys` and `Object.entries` list
them: the properties of an object in enumeration order, the indexed elements of an array
or string, none for a number or boolean; `Object.keys` of `undefined`/`null` is a
`TypeError`. -/
def entries : JsVal → Except JsError (List (String × JsVal))
  | .undefined => .error (.typeError "keys")
  | .null => .error (.typeError "keys")
  | .obj fields => .ok (ownEntries fields)
  | .arr items => .ok (items.enum.map fun p => (toString p.1, p.2))
  | .str s => .ok (s.toList.enum.map fun p => (toString p.1, JsVal.str (String.mk [p.2])))
  | _ => .ok []

/-- The callback of `Array.prototype.filter` run over a list of keys in order; the first
exception thrown by the callback ends the loop. -/
def filterKeys (p : String → Except JsError Bool) : List String → Except JsError (List String)
  | [] => .ok []
  | k :: ks =>
    match p k with
    | .error e => .error e
    | .ok keep =>
      match filterKeys p ks with
      | .error e => .error e
      | .ok rest => .ok (if keep then k :: rest else rest)

/-- The own property `k` takes the value `v`: an existing key keeps its place in the order
of creation, a new key goes last. -/
def defineOwn : List (String × JsVal) → String → JsVal → List (String × JsVal)
  | [], k, v => [(k, v)]
  | (k0, v0) :: rest, k, v =>
    if k0 = k then (k, v) :: rest else (k0, v0) :: defineOwn rest k v

/-- Assignment `acc[k] = v` on the own properties of a plain object.  The name `__proto__`,
unless the object has it as an own key, reaches the accessor of `Object.prototype`: the
assignment then sets the prototype (for an object or `null`) or does nothing, and creates
no own property.  Every other name is an own property after the assignment.  The prototype
is no part of the embedding: what is enumerated, printed and stored are own properties. -/
def setProp (fields : List (String × JsVal)) (k : String) (v : JsVal) :
    List (String × JsVal) :=
  if k = "__proto__" ∧ k ∉ fields.map Prod.fst then fields else defineOwn fields k v

/-- Assignment `target[k] = v` in module (strict) code, returning the target after it:
an object takes the property; `undefined`, `null` and the primitives are a `TypeError`.
A named property on an array is outside JSON data and is reported like a primitive. -/
def assign (target : JsVal) (k : String) (v : JsVal) : Except JsError JsVal :=
  match target with
  | .obj fields => .ok (.obj (setProp fields k v))
  | _ => .error (.typeError k)

/-- The container `v` after the member it holds under the key `k` has become `x`: the
field of an object, the element of an array whose index prints as `k`. -/
def withMember (v : JsVal) (k : String) (x : JsVal) : JsVal :=
  match v with
  | .obj fields => .obj (fields.map fun p => if p.1 = k then (p.1, x) else p)
  | .arr items => .arr (items.enum.map fun p => if toString p.1 = k then x else p.2)
  | w => w

end JsVal

/-! ## Text lines -/

/-- `String.prototype.toUpperCase` on the ASCII range, which the provider ids are made
of; characters outside it are left as they are. -/
def toUpperCase (s : String) : String :=
  String.mk (s.data.map Char.toUpper)

/-- The pieces of a text between line feeds: one piece more than there are line feeds. -/
def splitChars : List Char → List (List Char)
  | [] => [[]]
  | c :: cs =>
    if c = '\n' then [] :: splitChars cs
    else
      match splitChars cs with
      | [] => [[c]]
      | l :: ls => (c :: l) :: ls

/-- `content.split('\n')`. -/
def splitLines (content : String) : List String :=
  (splitChars content.data).map String.mk

/-- The pieces put together again with a line feed between neighbours. -/
def joinChars : List (List Char) → List Char
  | [] => []
  | [l] => l
  | l :: ls => l ++ '\n' :: joinChars ls

/-- `lines.join('\n')`. -/
def joinLines (lines : List String) : String :=
  String.mk (joinChars (lines.map String.data))

/-- `line.startsWith(start)`. -/
def startsWith (line start : String) : Bool :=
  start.data.isPrefixOf line.data

/-- The `for` loop of `setApiKey`: the first line that starts with `start` becomes
`newLine` and the loop ends; `none` when no line starts with it (`keyUpdated` stays
`false`). -/
def rewriteFirst (start newLine : String) : List String → Option (List String)
  | [] => none
  | l :: ls =>
    if startsWith l start then some (newLine :: ls)
    else (rewriteFirst start newLine ls).map fun rest => l :: rest

/-- The lines of the credentials file after the loop and the `if (!keyUpdated)` of
`setApiKey`. -/
def updateLines (keyName key : String) (lines : List String) : List String :=
  match rewriteFirst (keyName ++ "=") (keyName ++ "=" ++ key) lines with
  | some rewritten => rewritten
  | none => lines ++ [keyName ++ "=" ++ key]

/-! ## Geocoding gateway (`src/services/geocodingService.js`) -/

/-- The process environment `process.env`. -/
abbrev Env := String → Option String

/-- The outbound calls of the gateway, one constructor per call site, carrying what the
call site puts into the request:
`osmSearch`: GET nominatim `/search` (`q`, `format=json`, `limit=5`, `addressdetails=1`);
`osmReverse`: GET nominatim `/reverse` (`lat`, `lon`, `format=json`, `addressdetails=1`);
`googleGeocode`, `googleReverse`: `geocode` and `reverse` of the `node-geocoder` google
geocoder built with the key;
`mapboxForward`: GET `mapbox.places/<address>.json` (`access_token`, `limit=5`);
`mapboxReverse`: GET `mapbox.places/<lon>,<lat>.json` (`access_token`);
`hereGeocode`: GET `/v1/geocode` (`q`, `apiKey`, `limit=5`);
`hereReverse`: GET `/v1/revgeocode` (`at=<lat>,<lon>`, `apiKey`). -/
inductive Request where
  | osmSearch (q : String)
  | osmReverse (lat lon : Rat)
  | googleGeocode (apiKey : String) (address : String)
  | googleReverse (apiKey : String) (lat lon : Rat)
  | mapboxForward (apiKey : String) (address : String)
  | mapboxReverse (apiKey : String) (lat lon : Rat)
  | hereGeocode (apiKey : String) (q : String)
  | hereReverse (apiKey : String) (lat lon : Rat)
  deriving DecidableEq

/-- The upstream services: the answer to a request is either a rejection with a message or
the payload (`response.data` of the HTTP client, the result array of the geocoder). -/
abbrev Upstream := Request → Except String JsVal

/-- What a gateway call does: the outbound requests it issued, in order, and the value it
returns or the exception it throws. -/
structure Outcome where
  requests : List Request
  result : Except JsError JsVal

namespace GeocodingService

/-- The statement `await <request>` followed by the rest of the function body. -/
def fetch (up : Upstream) (req : Request) (rest : JsVal → Except JsError JsVal) : Outcome :=
  { requests := [req]
    result :=
      match up req with
      | .error message => .error (.upstream message)
      | .ok payload => rest payload }

/-- The guard `const apiKey = process.env[name]; if (!apiKey) throw new Error(message)`
followed by the rest of the function body: an unset variable and the empty string are the
falsy cases. -/
def withKey (env : Env) (name message : String) (rest : String → Outcome) : Outcome :=
  match env name with
  | none => { requests := [], result := .error (.error message) }
  | some apiKey =>
    if apiKey = "" then { requests := [], result := .error (.error message) }
    else rest apiKey

/-- The callback of `geocodeWithOSM`. -/
def osmHit (parseFloat : JsVal → JsVal) (result : JsVal) : Except JsError JsVal := do
  let lat ← result.getProp "lat"
  let lon ← result.getProp "lon"
  let displayName ← result.getProp "display_name"
  let address ← result.getProp "address"
  let boundingbox ← result.getProp "boundingbox"
  pure (.obj [("lat", parseFloat lat), ("lon", parseFloat lon), ("address", displayName),
    ("details", address), ("boundingBox", boundingbox), ("provider", .str "OpenStreetMap")])

/-- `geocodeWithOSM`. -/
def geocodeWithOSM (parseFloat : JsVal → JsVal) (up : Upstream) (address : String) : Outcome :=
  fetch up (.osmSearch address) fun data => data.map (osmHit parseFloat)

/-- `reverseGeocodeWithOSM`. -/
def reverseGeocodeWithOSM (up : Upstream) (lat lon : Rat) : Outcome :=
  fetch up (.osmReverse lat lon) fun data => do
    let displayName ← data.getProp "display_name"
    let address ← data.getProp "address"
    pure (.obj [("address", displayName), ("details", address),
      ("provider", .str "OpenStreetMap")])

/-- The callback of `geocodeWithGoogle`. -/
def googleHit (result : JsVal) : Except JsError JsVal := do
  let lat ← result.getProp "latitude"
  let lon ← result.getProp "longitude"
  let address ← result.getProp "formattedAddress"
  let streetNumber ← result.getProp "streetNumber"
  let streetName ← result.getProp "streetName"
  let city ← result.getProp "city"
  let levels ← result.getProp "administrativeLevels"
  let state := levels.optField "level1long"
  let country ← result.getProp "country"
  let countryCode ← result.getProp "countryCode"
  let zipcode ← result.getProp "zipcode"
  pure (.obj [("lat", lat), ("lon", lon), ("address", address),
    ("details", .obj [("streetNumber", streetNumber), ("streetName", streetName),
      ("city", city), ("state", state), ("country", country),
      ("countryCode", countryCode), ("zipcode", zipcode)]),
    ("provider", .str "Google Maps")])

/-- `geocodeWithGoogle`. -/
def geocodeWithGoogle (env : Env) (up : Upstream) (address : String) : Outcome :=
  withKey env "GOOGLE_API_KEY" "Google API key not configured" fun apiKey =>
    fetch up (.googleGeocode apiKey address) fun results => results.map googleHit

/-- `reverseGeocodeWithGoogle`. -/
def reverseGeocodeWithGoogle (env : Env) (up : Upstream) (lat lon : Rat) : Outcome :=
  withKey env "GOOGLE_API_KEY" "Google API key not configured" fun apiKey =>
    fetch up (.googleReverse apiKey lat lon) fun results => do
      let result ← results.getIndex 0
      let address ← result.getProp "formattedAddress"
      let streetNumber ← result.getProp "streetNumber"
      let streetName ← result.getProp "streetName"
      let city ← result.getProp "city"
      let levels ← result.getProp "administrativeLevels"
      let state := levels.optField "level1long"
      let country ← result.getProp "country"
      let zipcode ← result.getProp "zipcode"
      pure (.obj [("address", address),
        ("details", .obj [("streetNumber", streetNumber), ("streetName", streetName),
          ("city", city), ("state", state), ("country", country), ("zipcode", zipcode)]),
        ("provider", .str "Google Maps")])

/-- The first piece of `id.split('.')`: the text before the first dot, the whole text when
there is no dot. -/
def splitHead (id : String) : String :=
  String.mk (id.toList.takeWhile fun c => c != '.')

/-- The callback of the `reduce` over a Mapbox context array:
`const [type] = ctx.id.split('.'); acc[type] = ctx.text; return acc`.  Calling `split` on
anything but a string is a `TypeError`. -/
def contextStep (acc : List (String × JsVal)) (ctx : JsVal) :
    Except JsError (List (String × JsVal)) := do
  let id ← ctx.getProp "id"
  match id with
  | .str s => do
    let text ← ctx.getProp "text"
    pure (JsVal.setProp acc (splitHead s) text)
  | _ => .error (.typeError "split")

/-- The loop of `Array.prototype.reduce` with `contextStep`, from the accumulator `acc`. -/
def reduceContext (acc : List (String × JsVal)) : List JsVal →
    Except JsError (List (String × JsVal))
  | [] => .ok acc
  | ctx :: rest =>
    match contextStep acc ctx with
    | .error e => .error e
    | .ok next => reduceContext next rest

/-- The expression `feature.context?.reduce(callback, {})` applied to the value of
`feature.context`. -/
def contextDetails (context : JsVal) : Except JsError JsVal :=
  match context with
  | .undefined => .ok .undefined
  | .null => .ok .undefined
  | .arr ctxs =>
    match reduceContext [] ctxs with
    | .error e => .error e
    | .ok fields => .ok (.obj fields)
  | _ => .error (.typeError "reduce")

/-- The callback of `geocodeWithMapbox`. -/
def mapboxHit (feature : JsVal) : Except JsError JsVal := do
  let center ← feature.getProp "center"
  let lat ← center.getIndex 1
  let lon ← center.getIndex 0
  let placeName ← feature.getProp "place_name"
  let context ← feature.getProp "context"
  let details ← contextDetails context
  pure (.obj [("lat", lat), ("lon", lon), ("address", placeName), ("details", details),
    ("provider", .str "Mapbox")])

/-- `geocodeWithMapbox`. -/
def geocodeWithMapbox (env : Env) (up : Upstream) (address : String) : Outcome :=
  withKey env "MAPBOX_API_KEY" "Mapbox API key not configured" fun apiKey =>
    fetch up (.mapboxForward apiKey address) fun data => do
      let features ← data.getProp "features"
      features.map mapboxHit

/-- `reverseGeocodeWithMapbox`. -/
def reverseGeocodeWithMapbox (env : Env) (up : Upstream) (lat lon : Rat) : Outcome :=
  withKey env "MAPBOX_API_KEY" "Mapbox API key not configured" fun apiKey =>
    fetch up (.mapboxReverse apiKey lat lon) fun data => do
      let features ← data.getProp "features"
      let feature ← features.getIndex 0
      let placeName ← feature.getProp "place_name"
      let context ← feature.getProp "context"
      let details ← contextDetails context
      pure (.obj [("address", placeName), ("details", details), ("provider", .str "Mapbox")])

/-- The callback of `geocodeWithHere`. -/
def hereHit (item : JsVal) : Except JsError JsVal := do
  let position ← item.getProp "position"
  let lat ← position.getProp "lat"
  let lon ← position.getProp "lng"
  let title ← item.getProp "title"
  let address ← item.getProp "address"
  pure (.obj [("lat", lat), ("lon", lon), ("address", title), ("details", address),
    ("provider", .str "HERE")])

/-- `geocodeWithHere`. -/
def geocodeWithHere (env : Env) (up : Upstream) (address : String) : Outcome :=
  withKey env "HERE_API_KEY" "HERE API key not configured" fun apiKey =>
    fetch up (.hereGeocode apiKey address) fun data => do
      let items ← data.getProp "items"
      items.map hereHit

/-- `reverseGeocodeWithHere`. -/
def reverseGeocodeWithHere (env : Env) (up : Upstream) (lat lon : Rat) : Outcome :=
  withKey env "HERE_API_KEY" "HERE API key not configured" fun apiKey =>
    fetch up (.hereReverse apiKey lat lon) fun data => do
      let items ← data.getProp "items"
      let item ← items.getIndex 0
      let title ← item.getProp "title"
      let address ← item.getProp "address"
      pure (.obj [("address", title), ("details", address), ("provider", .str "HERE")])

/-- The `default` branch of both dispatchers. -/
def unsupported (provider : String) : Outcome :=
  { requests := [], result := .error (.error ("Unsupported provider: " ++ provider)) }

/-- `geocodeAddress(address, provider = 'osm')`; `none` is the omitted argument. -/
def geocodeAddress (parseFloat : JsVal → JsVal) (env : Env) (up : Upstream)
    (address : String) (provider : Option String) : Outcome :=
  let p := provider.getD "osm"
  if p = "osm" then geocodeWithOSM parseFloat up address
  else if p = "google" then geocodeWithGoogle env up address
  else if p = "mapbox" then geocodeWithMapbox env up address
  else if p = "here" then geocodeWithHere env up address
  else unsupported p

/-- `reverseGeocode(lat, lon, provider = 'osm')`; `none` is the omitted argument. -/
def reverseGeocode (env : Env) (up : Upstream) (lat lon : Rat)
    (provider : Option String) : Outcome :=
  let p := provider.getD "osm"
  if p = "osm" then reverseGeocodeWithOSM up lat lon
  else if p = "google" then reverseGeocodeWithGoogle env up lat lon
  else if p = "mapbox" then reverseGeocodeWithMapbox env up lat lon
  else if p = "here" then reverseGeocodeWithHere env up lat lon
  else unsupported p

/-- The four provider ids of the dispatchers. -/
def knownProviders : List String := ["osm", "google", "mapbox", "here"]

end GeocodingService

/-! ## Configuration store (`src/config/apiManager.js`) -/

/-- The `ApiManager` object and the part of the world it touches: `this.config`
(`undefined` until loaded), the file at `this.configPath`, the text of the file at
`this.envPath` (`none` when there is no such file) and `process.env`. -/
structure ApiManager where
  config : JsVal
  configFile : FileState
  envFile : Option String
  env : Env

/-- How the identifier `require` resolves in the scope of `apiManager.js`.  The file is
written with `import` and `export default`, which Node accepts only in an ECMAScript
module, and there `require` is not defined: `unbound`.  `bound load` is a scope that does
define it (a CommonJS build of the file), `load` being what `require('dotenv').config()`
then does to the process environment, given the text of `.env`. -/
inductive RequireBinding where
  | unbound
  | bound (load : String → Env → Env)

namespace ApiManager

/-- `getDefaultConfig`. -/
def getDefaultConfig : JsVal :=
  .obj [("defaultProvider", .str "osm"),
    ("providers", .obj [
      ("osm", .obj [("name", .str "OpenStreetMap (Nominatim)"),
        ("requiresKey", .bool false), ("active", .bool true)]),
      ("google", .obj [("name", .str "Google Maps API"),
        ("requiresKey", .bool true), ("active", .bool false)]),
      ("mapbox", .obj [("name", .str "Mapbox API"),
        ("requiresKey", .bool true), ("active", .bool false)]),
      ("here", .obj [("name", .str "HERE API"),
        ("requiresKey", .bool true), ("active", .bool false)])]),
    ("features", .obj [("autoSave", .bool true), ("showProgress", .bool true),
      ("colorOutput", .bool true), ("saveHistory", .bool true)])]

/-- `saveConfig`: `fs.writeJson(this.configPath, this.config)`. -/
def saveConfig (m : ApiManager) : ApiManager :=
  { m with configFile := .holds m.config }

/-- The first statement of `loadConfig`:
`if (await fs.pathExists(this.envPath)) { require('dotenv').config(); }`. -/
def loadEnv (binding : RequireBinding) (m : ApiManager) : Except JsError ApiManager :=
  match m.envFile with
  | none => .ok m
  | some text =>
    match binding with
    | .unbound => .error (.referenceError "require")
    | .bound load => .ok { m with env := load text m.env }

/-- `loadConfig`: load the environment file when there is one, then read the config file,
falling back to the saved defaults when it is missing or `fs.readJson` throws. -/
def loadConfig (binding : RequireBinding) (m : ApiManager) : Except JsError ApiManager :=
  match loadEnv binding m with
  | .error e => .error e
  | .ok m1 =>
    match m1.configFile with
    | .holds value => .ok { m1 with config := value }
    | .corrupt => .ok (saveConfig { m1 with config := getDefaultConfig })
    | .missing => .ok (saveConfig { m1 with config := getDefaultConfig })

/-- `getActiveProviders`:
`Object.keys(this.config.providers).filter(provider => this.config.providers[provider].active)`. -/
def getActiveProviders (m : ApiManager) : Except JsError (List String) :=
  match m.config.getProp "providers" with
  | .error e => .error e
  | .ok providers =>
    match providers.entries with
    | .error e => .error e
    | .ok es =>
      JsVal.filterKeys (fun provider =>
        match ((es.lookup provider).getD .undefined).getProp "active" with
        | .error e => .error e
        | .ok active => .ok active.truthy) (es.map Prod.fst)

/-- `getEnvContent`: the text of the credentials file, the empty string without one. -/
def getEnvContent (m : ApiManager) : String :=
  m.envFile.getD ""

/-- The name of the environment variable of a provider:
the template `${provider.toUpperCase()}_API_KEY`. -/
def keyName (provider : String) : String :=
  toUpperCase provider ++ "_API_KEY"

/-- `setApiKey`: rewrite or append the line of the key in the credentials file, write the
file, set the variable in `process.env`. -/
def setApiKey (provider key : String) (m : ApiManager) : ApiManager :=
  let lines := splitLines (getEnvContent m)
  { m with
    envFile := some (joinLines (updateLines (keyName provider) key lines))
    env := fun name => if name = keyName provider then some key else m.env name }

/-- The outcome of an operation that can throw after it has changed the state: the state
it leaves and the exception, if any. -/
structure Effect where
  state : ApiManager
  thrown : Option JsError

/-- The answers of the user to the prompts that `setupApiKeys` shows for one provider:
the confirmation to update an existing key (asked only when a key is set), the key typed
at the password prompt, the confirmation to activate. -/
structure SetupAnswer where
  updateKey : Bool
  apiKey : String
  activate : Bool

/-- The statement `this.config.providers[provider].active = activate`. -/
def setActive (config : JsVal) (provider : String) (activate : Bool) : Except JsError JsVal :=
  match config.getProp "providers" with
  | .error e => .error e
  | .ok providers =>
    match providers.entries with
    | .error e => .error e
    | .ok es =>
      match ((es.lookup provider).getD .undefined).assign "active" (.bool activate) with
      | .error e => .error e
      | .ok entry =>
        match config.assign "providers" (providers.withMember provider entry) with
        | .error e => .error e
        | .ok updated => .ok updated

/-- The body of the `for` loop of `setupApiKeys` for one provider. -/
def setupProvider (ask : String → SetupAnswer) (m : ApiManager) (provider : String) :
    Except JsError ApiManager :=
  match m.config.getProp "providers" with
  | .error e => .error e
  | .ok providers =>
    match providers.entries with
    | .error e => .error e
    | .ok es =>
      match ((es.lookup provider).getD .undefined).getProp "requiresKey" with
      | .error e => .error e
      | .ok requiresKey =>
        if requiresKey.truthy then
          let currentKey := m.env (keyName provider)
          if (currentKey.getD "" ≠ "") ∧ (ask provider).updateKey = false then .ok m
          else if (ask provider).apiKey ≠ "" then
            let keyed := setApiKey provider (ask provider).apiKey m
            match setActive keyed.config provider (ask provider).activate with
            | .error e => .error e
            | .ok config => .ok { keyed with config := config }
          else .ok m
        else .ok m

/-- The `for` loop of `setupApiKeys` over the keys taken before the loop; an exception
ends it, leaving the state reached so far. -/
def setupLoop (ask : String → SetupAnswer) : List String → ApiManager → Effect
  | [], m => { state := m, thrown := none }
  | provider :: rest, m =>
    match setupProvider ask m provider with
    | .error e => { state := m, thrown := some e }
    | .ok next => setupLoop ask rest next

/-- `setupApiKeys`: the loop over `Object.keys(this.config.providers)`, then `saveConfig`. -/
def setupApiKeys (ask : String → SetupAnswer) (m : ApiManager) : Effect :=
  match m.config.getProp "providers" with
  | .error e => { state := m, thrown := some e }
  | .ok providers =>
    match providers.entries with
    | .error e => { state := m, thrown := some e }
    | .ok es =>
      match setupLoop ask (es.map Prod.fst) m with
      | { state := after, thrown := none } => { state := saveConfig after, thrown := none }
      | stopped => stopped

/-- One entry of the choice list of a `list` prompt. -/
structure Choice where
  name : JsVal
  value : String

/-- A `list` prompt of `inquirer`: given the choices and the default it resolves to the
value of the choice the user picks, or rejects; `picks` says that a value it resolves to
is the value of one of the choices shown. -/
structure ListPrompt where
  ask : List Choice → JsVal → Except JsError String
  picks : ∀ choices fallback value, ask choices fallback = .ok value →
    value ∈ choices.map Choice.value

/-- The `map` that builds the choice list in `selectProvider` and `setDefaultProvider`:
`{ name: this.config.providers[provider].name, value: provider }`. -/
def providerChoices (es : List (String × JsVal)) : List String → Except JsError (List Choice)
  | [] => .ok []
  | provider :: rest =>
    match ((es.lookup provider).getD .undefined).getProp "name" with
    | .error e => .error e
    | .ok name =>
      match providerChoices es rest with
      | .error e => .error e
      | .ok choices => .ok ({ name := name, value := provider } :: choices)

/-- The choice list over the active providers of a configuration. -/
def activeChoices (m : ApiManager) (activeProviders : List String) :
    Except JsError (List Choice) :=
  match m.config.getProp "providers" with
  | .error e => .error e
  | .ok providers =>
    match providers.entries with
    | .error e => .error e
    | .ok es => providerChoices es activeProviders

/-- The expression `this.config.providers[provider].name`. -/
def providerName (config : JsVal) (provider : String) : Except JsError JsVal :=
  match config.getProp "providers" with
  | .error e => .error e
  | .ok providers =>
    match providers.entries with
    | .error e => .error e
    | .ok es => ((es.lookup provider).getD .undefined).getProp "name"

/-- `selectProvider`: the only active provider when there is exactly one, otherwise the
answer to a `list` prompt over the active providers. -/
def selectProvider (prompt : ListPrompt) (m : ApiManager) : Except JsError String :=
  match getActiveProviders m with
  | .error e => .error e
  | .ok activeProviders =>
    match activeProviders with
    | [only] => .ok only
    | _ =>
      match activeChoices m activeProviders with
      | .error e => .error e
      | .ok choices => prompt.ask choices (m.config.field "defaultProvider")

end ApiManager

/-! ## Application (`src/bin/index.js`): configuration menu -/

namespace PelakoorAdvanced

open ApiManager

/-- `setDefaultProvider`: nothing to do with at most one active provider; otherwise the
answer to a `list` prompt over the active providers becomes `config.defaultProvider`, the
configuration is saved and the name of the new default is printed. -/
def setDefaultProvider (prompt : ListPrompt) (m : ApiManager) : Effect :=
  match getActiveProviders m with
  | .error e => { state := m, thrown := some e }
  | .ok activeProviders =>
    if activeProviders.length ≤ 1 then { state := m, thrown := none }
    else
      match activeChoices m activeProviders with
      | .error e => { state := m, thrown := some e }
      | .ok choices =>
        match prompt.ask choices (m.config.field "defaultProvider") with
        | .error e => { state := m, thrown := some e }
        | .ok newDefault =>
          match m.config.assign "defaultProvider" (.str newDefault) with
          | .error e => { state := m, thrown := some e }
          | .ok config =>
            let saved := saveConfig { m with config := config }
            match providerName config newDefault with
            | .error e => { state := saved, thrown := some e }
            | .ok _ => { state := saved, thrown := none }

/-- The three assignments of `applicationSettings` on `config.features`. -/
def assignFeatures (features : JsVal) (newSettings : List String) : Except JsError JsVal :=
  match features.assign "saveHistory" (.bool (newSettings.contains "saveHistory")) with
  | .error e => .error e
  | .ok f1 =>
    match f1.assign "showProgress" (.bool (newSettings.contains "showProgress")) with
    | .error e => .error e
    | .ok f2 => f2.assign "colorOutput" (.bool (newSettings.contains "colorOutput"))

/-- `applicationSettings`, `newSettings` being the boxes the user ticks: the three feature
flags are set from it and the configuration is saved; the call
`this.historyManager.setSaveEnabled(...)` that follows names a method `HistoryManager`
does not have, which is a `TypeError`. -/
def applicationSettings (newSettings : List String) (m : ApiManager) : Effect :=
  match m.config.getProp "features" with
  | .error e => { state := m, thrown := some e }
  | .ok features =>
    match features.getProp "saveHistory" with
    | .error e => { state := m, thrown := some e }
    | .ok _ =>
      match assignFeatures features newSettings with
      | .error e => { state := m, thrown := some e }
      | .ok updated =>
        match m.config.assign "features" updated with
        | .error e => { state := m, thrown := some e }
        | .ok config =>
          { state := saveConfig { m with config := config }
            thrown := some (.typeError "setSaveEnabled") }

/-- The operations of the application that change the configuration, with the answers of
the user. -/
inductive ConfigOp where
  | setupApiKeys (ask : String → SetupAnswer)
  | setDefaultProvider (prompt : ListPrompt)
  | applicationSettings (newSettings : List String)

/-- The state one operation leaves, whether it returns or throws. -/
def configStep (m : ApiManager) : ConfigOp → ApiManager
  | .setupApiKeys ask => (ApiManager.setupApiKeys ask m).state
  | .setDefaultProvider prompt => (setDefaultProvider prompt m).state
  | .applicationSettings newSettings => (applicationSettings newSettings m).state

/-- The state after a sequence of operations, first operation first. -/
def configRun (m : ApiManager) (ops : List ConfigOp) : ApiManager :=
  ops.foldl configStep m

end PelakoorAdvanced

/-! ## Application (`src/bin/index.js`): geometry and coordinate formats -/

/-- A vertex `{ lat, lng }` as the prompts build it. -/
structure Point where
  lat : Rat
  lng : Rat
  deriving DecidableEq

/-- The rounding of the engine's double arithmetic: an arithmetic operation returns `fl` of
its exact result.  `fl` is held to what round-to-nearest gives below the overflow
threshold: a relative error of at most `2^-53` (an absolute error of at most `2^-1075`
among the subnormal numbers), whole numbers up to `2^53` in magnitude unchanged, the sign
kept. -/
structure Rounding where
  fl : Rat → Rat
  close : ∀ x : Rat, |x| ≤ 2 ^ 1023 → |fl x - x| ≤ |x| / 2 ^ 53 + 1 / 2 ^ 1075
  whole : ∀ n : Int, |n| ≤ 2 ^ 53 → fl n = n
  nonneg : ∀ x : Rat, 0 ≤ x → 0 ≤ fl x

namespace PelakoorAdvanced

/-- `calculatePolygonPerimeter`, over `getDistance = geolib.getDistance`.  Called with two
arguments, `geolib.getDistance` rounds to its default accuracy of one metre, so the
distances are whole numbers of metres and the running sum `perimeter += ...` is exact.
Both indices are within the array at every turn of the loop. -/
def calculatePolygonPerimeter (getDistance : Point → Point → Nat)
    (coordinates : List Point) : Nat :=
  (List.range coordinates.length).foldl (fun perimeter i =>
    match coordinates.get? i, coordinates.get? ((i + 1) % coordinates.length) with
    | some a, some b => perimeter + getDistance a b
    | _, _ => perimeter) 0

/-- `Number.prototype.toFixed(digits)`, as the number that is printed: the multiple of
`10^-digits` nearest to `x`, the one of larger magnitude at a tie. -/
def toFixed (x : Rat) (digits : Nat) : Rat :=
  if 0 ≤ x then (⌊x * 10 ^ digits + 1 / 2⌋ : Int) / 10 ^ digits
  else -((⌊-x * 10 ^ digits + 1 / 2⌋ : Int) / 10 ^ digits)

/-- The direction letter of `convertToDMS` and `convertToDM`. -/
def directionOf (decimal : Rat) (type : String) : String :=
  if type = "lat" then (if decimal ≥ 0 then "N" else "S")
  else (if decimal ≥ 0 then "E" else "W")

/-- The values that `convertToDMS` puts into its template: degrees, minutes, the seconds
as `toFixed(2)` prints them, the direction letter. -/
structure DmsFields where
  degrees : Int
  minutes : Int
  seconds : Rat
  direction : String

/-- The values that `convertToDM` puts into its template: degrees, the minutes as
`toFixed(4)` prints them, the direction letter. -/
structure DmFields where
  degrees : Int
  minutes : Rat
  direction : String

/-- The body of `convertToDMS` up to the template; the two subtractions and the two
multiplications are rounded. -/
def dmsFields (r : Rounding) (decimal : Rat) (type : String) : DmsFields :=
  let absolute := |decimal|
  let degrees : Int := ⌊absolute⌋
  let minutesFloat := r.fl (r.fl (absolute - degrees) * 60)
  let minutes : Int := ⌊minutesFloat⌋
  let seconds := r.fl (r.fl (minutesFloat - minutes) * 60)
  { degrees := degrees, minutes := minutes, seconds := toFixed seconds 2,
    direction := directionOf decimal type }

/-- The body of `convertToDM` up to the template; the subtraction and the multiplication
are rounded. -/
def dmFields (r : Rounding) (decimal : Rat) (type : String) : DmFields :=
  let absolute := |decimal|
  let degrees : Int := ⌊absolute⌋
  let minutes := r.fl (r.fl (absolute - degrees) * 60)
  { degrees := degrees, minutes := toFixed minutes 4, direction := directionOf decimal type }

/-- The decimal digits of a number that `toFixed` printed: integer part, point, `digits`
digits. -/
def showFixed (x : Rat) (digits : Nat) : String :=
  let scaled : Nat := (⌊|x| * 10 ^ digits⌋ : Int).toNat
  let whole := toString (scaled / 10 ^ digits)
  let part := toString (scaled % 10 ^ digits)
  let pad := String.mk (List.replicate (digits - part.length) '0')
  (if x < 0 then "-" else "") ++ whole ++ (if digits = 0 then "" else "." ++ pad ++ part)

/-- `convertToDMS`: the template, degree sign, minute mark and second mark included.  A
whole number below `10^21` is printed in plain decimal digits. -/
def convertToDMS (r : Rounding) (decimal : Rat) (type : String) : String :=
  let f := dmsFields r decimal type
  toString f.degrees ++ "° " ++ toString f.minutes ++ String.singleton (Char.ofNat 39)
    ++ " " ++ showFixed f.seconds 2 ++ String.singleton (Char.ofNat 34) ++ " " ++ f.direction

/-- `convertToDM`: the template, degree sign and minute mark included. -/
def convertToDM (r : Rounding) (decimal : Rat) (type : String) : String :=
  let f := dmFields r decimal type
  toString f.degrees ++ "° " ++ showFixed f.minutes 4 ++ String.singleton (Char.ofNat 39)
    ++ " " ++ f.direction

end PelakoorAdvanced

/-! ## History store: loading (`src/utils/historyManager.js`) -/

namespace HistoryManager

/-- `fs.pathExists(this.historyPath)`. -/
def pathExists : FileState → Bool
  | .missing => false
  | .corrupt => true
  | .holds _ => true

/-- `fs.readJson(this.historyPath)`: the parsed content, or a rejection when the file
cannot be read or parsed. -/
def readJson : FileState → Except JsError JsVal
  | .missing => .error (.upstream "ENOENT: no such file or directory")
  | .corrupt => .error (.upstream "Unexpected token in JSON")
  | .holds value => .ok value

/-- `loadHistory`: the value left in `this.history`.  The body sits in a `try` whose
`catch` assigns `[]`; nothing is thrown outside of it. -/
def loadHistory (disk : FileState) : Except JsError JsVal :=
  match (if pathExists disk then readJson disk else .ok (.arr [])) with
  | .ok value => .ok value
  | .error _ => .ok (.arr [])

/-- `addEntry` on whatever value `this.history` holds: only an array has `unshift`. -/
def addEntryOn (c : AddCall) (history : JsVal) (disk : FileState) :
    Except JsError HistoryManager :=
  match history with
  | .arr items => .ok (addEntry c { history := items, disk := disk })
  | _ => .error (.typeError "unshift")

/-- `getHistory` on whatever value `this.history` holds: arrays and strings have `slice`,
nothing else that JSON can produce has. -/
def getHistoryOn (history : JsVal) (limit : Option Nat) : Except JsError JsVal :=
  match history with
  | .arr items => .ok (.arr (items.take (limit.getD 10)))
  | .str s => .ok (.str (String.mk (s.data.take (limit.getD 10))))
  | _ => .error (.typeError "slice")

end HistoryManager

/-! ## Application (`src/bin/index.js`): collecting points -/

/-- What one round of the point prompts resolves to: the point built from the two validated
inputs, and the answer to `Add another point?` if that question is asked. -/
structure PointAnswer where
  point : Point
  addMore : Bool

/-- What `calculateArea` and `findCenterPoint` do after their loop, in order: a message
printed in red, or a call of a geometry routine on the collected list. -/
inductive GeometryStep where
  | report (message : String)
  | getAreaOfPolygon (coordinates : List Point)
  | calculatePolygonPerimeter (coordinates : List Point)
  | getCenter (coordinates : List Point)
  | getCenterOfBounds (coordinates : List Point)
  deriving DecidableEq

namespace PelakoorAdvanced

/-- The value bound to `addMore` by one round of prompts: the confirm question carries a
`when` guard on the number of points collected so far, and a skipped question leaves the
name `undefined`. -/
def addMoreValue (asked : Bool) (answer : PointAnswer) : JsVal :=
  if asked then .bool answer.addMore else .undefined

/-- The `do ... while` loop of `calculateArea`, entered with `coordinates`; `ask n` is what
the user answers to the round that starts with `n` points collected.  One turn: prompt
(the confirm question only `when` two points are there), `push`, `break` on three or more
points without `addMore`, else go round again while
`length < 3 || (length >= 3 && length < 100)`. -/
def collectVertices (ask : Nat → PointAnswer) (coordinates : List Point) : List Point :=
  let answer := ask coordinates.length
  let addMore := addMoreValue (decide (coordinates.length ≥ 2)) answer
  let pushed := coordinates ++ [answer.point]
  if pushed.length ≥ 3 ∧ ¬ addMore.truthy then pushed
  else if pushed.length < 3 ∨ (pushed.length ≥ 3 ∧ pushed.length < 100) then
    collectVertices ask pushed
  else pushed
termination_by 100 - coordinates.length
decreasing_by
  simp_wf
  rename_i h
  have hlen : pushed.length = coordinates.length + 1 := by simp [pushed]
  omega

/-- The `do ... while` loop of `findCenterPoint`: the confirm question is asked `when` one
point is there, `break` on two or more points without `addMore`, else go round again while
`length < 50`. -/
def collectPoints (ask : Nat → PointAnswer) (coordinates : List Point) : List Point :=
  let answer := ask coordinates.length
  let addMore := addMoreValue (decide (coordinates.length ≥ 1)) answer
  let pushed := coordinates ++ [answer.point]
  if pushed.length ≥ 2 ∧ ¬ addMore.truthy then pushed
  else if pushed.length < 50 then collectPoints ask pushed
  else pushed
termination_by 50 - coordinates.length
decreasing_by
  simp_wf
  rename_i h
  have hlen : pushed.length = coordinates.length + 1 := by simp [pushed]
  omega

/-- The part of `calculateArea` that follows the loop: the guard on the number of
vertices, then `geolib.getAreaOfPolygon` and `this.calculatePolygonPerimeter` on the list. -/
def areaSteps (coordinates : List Point) : List GeometryStep :=
  if coordinates.length < 3 then
    [.report "\n❌ Need at least 3 points to calculate area."]
  else
    [.getAreaOfPolygon coordinates, .calculatePolygonPerimeter coordinates]

/-- The part of `findCenterPoint` that follows the loop: the guard on the number of points,
then `geolib.getCenter` and `geolib.getCenterOfBounds` on the list. -/
def centerSteps (coordinates : List Point) : List GeometryStep :=
  if coordinates.length < 2 then
    [.report "\n❌ Need at least 2 points to find center."]
  else
    [.getCenter coordinates, .getCenterOfBounds coordinates]

/-- `calculateArea`: the loop from the empty list, then the rest. -/
def calculateArea (ask : Nat → PointAnswer) : List GeometryStep :=
  areaSteps (collectVertices ask [])

/-- `findCenterPoint`: the loop from the empty list, then the rest. -/
def findCenterPoint (ask : Nat → PointAnswer) : List GeometryStep :=
  centerSteps (collectPoints ask [])

end PelakoorAdvanced

/-! ## Application (`src/bin/index.js`): geocoding flows -/

/-- Whether `error.message` is the empty string: the message of `new Error(m)` and of a
rejection is the text given, a runtime exception carries the non-empty text of the runtime. -/
def JsError.hasEmptyMessage : JsError → Bool
  | .error message => decide (message = "")
  | .upstream message => decide (message = "")
  | .typeError _ => false
  | .referenceError _ => false

/-- One record pushed onto `results` by the loop of `batchGeocode`:
`{ address, success: true, data }` from the `try`, `{ address, success: false, error }` from
the `catch`.  The field `error` holds `error.message`; the record keeps the exception that
this message is read from.  A key that a record does not have reads as `undefined`/`none`. -/
structure BatchRecord where
  address : String
  success : Bool
  data : JsVal
  error : Option JsError

/-- The third column of a row of the batch table: the two coordinates printed with
`toFixed(4)`, or `result.error || 'Not found'`. -/
inductive RowDetail where
  | coordinates (text : String)
  | message (error : JsError)
  | notFound
  deriving DecidableEq

/-- One row pushed onto the batch table. -/
structure BatchRow where
  address : String
  status : String
  detail : RowDetail
  deriving DecidableEq

/-- What `batchGeocode` prints at its end: the refusal of an empty list, or the table
followed by the summary line `successCount/total`, or nothing when the display loop threw. -/
inductive BatchOutput where
  | noAddresses
  | table (rows : List BatchRow) (successCount total : Nat)
  | threw (error : JsError)
  deriving DecidableEq

/-- What `batchGeocode` does: the outbound requests in order, the records collected, what
is printed at the end, and the history store as the call leaves it. -/
structure BatchReport where
  requests : List Request
  results : List BatchRecord
  output : BatchOutput
  history : HistoryManager

/-- One result table of `addressToCoordinate`: its position and `result.provider` (both go
into the title), then the rows `Address`, `Latitude`, `Longitude`, `Coordinates` and one row
per truthy entry of `result.details`.  The two rows holding map links are built by template
strings, which throw nothing, and are not listed. -/
structure ResultTable where
  index : Nat
  provider : JsVal
  rows : List (String × JsVal)

/-- What `addressToCoordinate` prints: the result tables, or `Address not found`, or the
line `Error: <message>` of its `catch`. -/
inductive LookupOutput where
  | shown (tables : List ResultTable)
  | notFound
  | failed (error : JsError)

/-- What `addressToCoordinate` does: the outbound requests, what is printed, and the
history store as the call leaves it. -/
structure LookupReport where
  requests : List Request
  output : LookupOutput
  history : HistoryManager

namespace PelakoorAdvanced

/-- Method call `v.toFixed(digits)` as the text it returns: defined on numbers, a
`TypeError` on every other value.  A negative number keeps its sign when it rounds to
zero. -/
def fixedOf (v : JsVal) (digits : Nat) : Except JsError String :=
  match v with
  | .num x =>
    .ok ((if x < 0 ∧ toFixed x digits = 0 then "-" else "")
      ++ showFixed (toFixed x digits) digits)
  | _ => .error (.typeError "toFixed")

/-- `address.substring(0, n)`, for text in the basic multilingual plane. -/
def substring0 (s : String) (n : Nat) : String :=
  String.mk (s.data.take n)

/-- The expression `result[0] || null` of the loop of `batchGeocode`. -/
def firstOrNull (result : JsVal) : Except JsError JsVal :=
  match result.getIndex 0 with
  | .error e => .error e
  | .ok first => .ok (if first.truthy then first else .null)

/-- The record that one turn of the loop of `batchGeocode` pushes, given what the gateway
call returned or threw: the whole `try` body is covered by the `catch`. -/
def batchRecord (address : String) (answer : Except JsError JsVal) : BatchRecord :=
  match answer with
  | .error e => { address := address, success := false, data := .undefined, error := some e }
  | .ok result =>
    match firstOrNull result with
    | .error e => { address := address, success := false, data := .undefined, error := some e }
    | .ok data => { address := address, success := true, data := data, error := none }

end PelakoorAdvanced

namespace PelakoorAdvanced

/-- One turn of the `for` loop of `batchGeocode` at index `i` on `addresses[i]`: the gateway
call against the upstream services as they answer during that turn, then the `push`. -/
def batchTurn (parseFloat : JsVal → JsVal) (env : Env) (ups : Nat → Upstream)
    (provider : String) (acc : List Request × List BatchRecord) (turn : Nat × String) :
    List Request × List BatchRecord :=
  let o := GeocodingService.geocodeAddress parseFloat env (ups turn.1) turn.2 (some provider)
  (acc.1 ++ o.requests, acc.2 ++ [batchRecord turn.2 o.result])

/-- The `for` loop of `batchGeocode` over the indices of `addresses`, from empty `results`. -/
def batchLoop (parseFloat : JsVal → JsVal) (env : Env) (ups : Nat → Upstream)
    (provider : String) (addresses : List String) : List Request × List BatchRecord :=
  addresses.enum.foldl (batchTurn parseFloat env ups provider) ([], [])

/-- The callback of `results.forEach` in `batchGeocode`: a `Success` row when
`result.success && result.data`, a `Failed` row otherwise. -/
def batchRow (r : BatchRecord) : Except JsError BatchRow :=
  if r.success && r.data.truthy then
    match fixedOf (r.data.field "lat") 4 with
    | .error e => .error e
    | .ok lat =>
      match fixedOf (r.data.field "lon") 4 with
      | .error e => .error e
      | .ok lon =>
        .ok { address := substring0 r.address 38, status := "✅ Success",
              detail := .coordinates (lat ++ ", " ++ lon) }
  else
    .ok { address := substring0 r.address 38, status := "❌ Failed",
          detail :=
            match r.error with
            | some e => if e.hasEmptyMessage then .notFound else .message e
            | none => .notFound }

/-- The loop `results.forEach(...)` that fills the batch table; the first exception thrown
by the callback ends it. -/
def batchTable : List BatchRecord → Except JsError (List BatchRow)
  | [] => .ok []
  | r :: rs =>
    match batchRow r with
    | .error e => .error e
    | .ok row =>
      match batchTable rs with
      | .error e => .error e
      | .ok rows => .ok (row :: rows)

/-- The count `results.filter(r => r.success).length` of the summary line. -/
def successCount (results : List BatchRecord) : Nat :=
  (results.filter fun r => r.success).length

/-- `batchGeocode`, from the addresses that the entry loop collected and the provider that
`selectProvider` returned; `history` is `this.historyManager`. -/
def batchGeocode (parseFloat : JsVal → JsVal) (env : Env) (ups : Nat → Upstream)
    (provider : String) (addresses : List String) (history : HistoryManager) : BatchReport :=
  if addresses.length = 0 then
    { requests := [], results := [], output := .noAddresses, history := history }
  else
    let run := batchLoop parseFloat env ups provider addresses
    { requests := run.1
      results := run.2
      output :=
        match batchTable run.2 with
        | .error e => .threw e
        | .ok rows => .table rows (successCount run.2) run.2.length
      history := history }

/-- The rows that the `details` of a result add to its table: one per entry with a truthy
value, when `result.details` is truthy. -/
def detailRows (details : JsVal) : Except JsError (List (String × JsVal)) :=
  if details.truthy then
    match details.entries with
    | .error e => .error e
    | .ok es => .ok ((es.filter fun p => p.2.truthy).map fun p => ("📄 " ++ p.1, p.2))
  else .ok []

/-- The callback of `resultsToShow.forEach` in `addressToCoordinate`. -/
def resultTable (result : JsVal) (index : Nat) : Except JsError ResultTable := do
  let provider ← result.getProp "provider"
  let address ← result.getProp "address"
  let lat ← fixedOf (result.field "lat") 6
  let lon ← fixedOf (result.field "lon") 6
  let extra ← detailRows (result.field "details")
  pure { index := index, provider := provider,
         rows := [("📍 Address", address), ("🌐 Latitude", .str lat), ("🌐 Longitude", .str lon),
           ("📋 Coordinates", .str (lat ++ ", " ++ lon))] ++ extra }

/-- The loop `resultsToShow.forEach(...)`; the first exception thrown by the callback ends
it. -/
def resultTables : List JsVal → Nat → Except JsError (List ResultTable)
  | [], _ => .ok []
  | r :: rs, index =>
    match resultTable r index with
    | .error e => .error e
    | .ok t =>
      match resultTables rs (index + 1) with
      | .error e => .error e
      | .ok ts => .ok (t :: ts)

/-- `addressToCoordinate`, from the provider that `selectProvider` returned and the two
answers of the prompt; `now` and `stamp` are the clock readings of `addEntry`, `history` is
`this.historyManager`.  The gateway returns an array or throws; the branch for another
value is the `else` of `results.length > 0`. -/
def addressToCoordinate (parseFloat : JsVal → JsVal) (env : Env) (up : Upstream)
    (provider address : String) (showMultiple : Bool) (now : Nat) (stamp : String)
    (history : HistoryManager) : LookupReport :=
  let o := GeocodingService.geocodeAddress parseFloat env up address (some provider)
  match o.result with
  | .error e => { requests := o.requests, output := .failed e, history := history }
  | .ok (.arr (first :: rest)) =>
    let resultsToShow := if showMultiple then first :: rest else [first]
    match resultTables resultsToShow 0 with
    | .error e => { requests := o.requests, output := .failed e, history := history }
    | .ok tables =>
      { requests := o.requests
        output := .shown tables
        history := history.addEntry
          { now := now, stamp := stamp, type := .str "geocode", input := .str address,
            output := first, provider := .str provider } }
  | .ok _ => { requests := o.requests, output := .notFound, history := history }

end PelakoorAdvanced

/-! ## Application (`src/bin/index.js`): the simplified UTM conversion -/

/-- The numbers that `convertToUTM` computes before it prints them: the zone number, the
hemisphere letter, `easting` and `northing`. -/
structure UtmFields where
  zone : Int
  hemisphere : String
  easting : Rat
  northing : Rat

/-- The object that `convertToUTM` returns. -/
structure Utm where
  zone : String
  hemisphere : String
  easting : String
  northing : String
  deriving DecidableEq

namespace PelakoorAdvanced

/-- The operator `%` on numbers, for a divisor other than zero: the remainder takes the
sign of the dividend, the quotient being cut towards zero. -/
def jsMod (a b : Rat) : Rat :=
  a - b * (if 0 ≤ a / b then (⌊a / b⌋ : Int) else (⌈a / b⌉ : Int))

/-- The body of `convertToUTM` up to the object it returns; the sum, the quotient and the
two products are rounded, the remainder `%` is exact. -/
def utmFields (r : Rounding) (lat lon : Rat) : UtmFields :=
  { zone := ⌊r.fl (r.fl (lon + 180) / 6)⌋ + 1
    hemisphere := if lat ≥ 0 then "N" else "S"
    easting := r.fl (jsMod (r.fl (lon + 180)) 6 * 111320)
    northing := r.fl (lat * 111320) }

/-- `convertToUTM`: the zone label and the two lengths printed with `toFixed(0)`. -/
def convertToUTM (r : Rounding) (lat lon : Rat) : Utm :=
  let f := utmFields r lat lon
  { zone := toString f.zone ++ f.hemisphere
    hemisphere := f.hemisphere
    easting := showFixed (toFixed |f.easting| 0) 0 ++ "m E"
    northing := showFixed (toFixed |f.northing| 0) 0 ++ "m N" }

end PelakoorAdvanced

/-! ## Vocabulary of the statements -/

/-- A computation that, when it fails, fails with a runtime `TypeError` (never with an
`Error` thrown by the source, never with an upstream rejection). -/
def OnlyTypeErrors {α : Type} (r : Except JsError α) : Prop :=
  ∀ e, r = .error e → ∃ k, e = .typeError k

/-- The outcome is the exception of the `default` branch of a dispatcher. -/
def Outcome.isUnsupportedProvider (o : Outcome) : Prop :=
  ∃ p, o.result = .error (.error ("Unsupported provider: " ++ p))

/-- The result `r` normalizes the upstream hit `hit`: its coordinates are the values
`lat hit`, `lon hit` and its provider label is `label`. -/
def Normalizes (lat lon : JsVal → JsVal) (label : String) (hit r : JsVal) : Prop :=
  r.field "lat" = lat hit ∧ r.field "lon" = lon hit ∧ r.field "provider" = .str label

/-- Stated from the specification: `key` is the part of `id` before the first dot, the
whole of `id` when it holds no dot. -/
def IdPrefix (id key : String) : Prop :=
  '.' ∉ key.data ∧ (id = key ∨ ∃ rest : String, id = key ++ "." ++ rest)

/-- Stated from the specification: the context element `ctx` contributes the key `key`,
the part of its `id` before the first dot. -/
def Contributes (ctx : JsVal) (key : String) : Prop :=
  ∃ id, ctx.field "id" = .str id ∧ IdPrefix id key

/-- Stated from the specification, with the one name that an assignment does not create:
`fields` is the mapping left by folding the context array `ctxs` left to right, each element
putting its `text` under the key it contributes, a later element overwriting an earlier one
with the same key.  A key is held once; the key `k` holds `v` exactly when `k` is not
`__proto__` and `v` is the `text` of the last element that contributes `k`. -/
def FoldsContext (ctxs : List JsVal) (fields : List (String × JsVal)) : Prop :=
  (fields.map Prod.fst).Nodup ∧
  ∀ k v, (k, v) ∈ fields ↔
    k ≠ "__proto__" ∧ ∃ front c back, ctxs = front ++ c :: back ∧ Contributes c k ∧
      (∀ d ∈ back, ¬ Contributes d k) ∧ v = c.field "text"

/-- The `details` of the result `r` of a Mapbox feature `hit`, as the code leaves it:
`undefined` when the feature has no context (`undefined` or `null`), the fold of the
context when it is an array, the empty mapping for the empty array. -/
def MapboxDetails (hit r : JsVal) : Prop :=
  ((hit.field "context").isNullish = true → r.field "details" = .undefined) ∧
  (∀ ctxs, hit.field "context" = .arr ctxs →
    ∃ fields, r.field "details" = .obj fields ∧ FoldsContext ctxs fields ∧
      (ctxs = [] → fields = []))

/-- The `details` record that `geocodeWithGoogle` builds from a result of the geocoder. -/
def googleDetails (hit : JsVal) : JsVal :=
  .obj [("streetNumber", hit.field "streetNumber"), ("streetName", hit.field "streetName"),
    ("city", hit.field "city"),
    ("state", (hit.field "administrativeLevels").optField "level1long"),
    ("country", hit.field "country"), ("countryCode", hit.field "countryCode"),
    ("zipcode", hit.field "zipcode")]

/-- The entry of `osm` in the default configuration. -/
def osmEntry : JsVal :=
  .obj [("name", .str "OpenStreetMap (Nominatim)"), ("requiresKey", .bool false),
    ("active", .bool true)]

/-- A configuration in the layout of `getDefaultConfig`, with any default provider, any
activation of the three keyed providers and any feature fields. -/
def configWith (defaultProvider : JsVal) (google mapbox here : Bool)
    (features : List (String × JsVal)) : JsVal :=
  .obj [("defaultProvider", defaultProvider),
    ("providers", .obj [
      ("osm", osmEntry),
      ("google", .obj [("name", .str "Google Maps API"),
        ("requiresKey", .bool true), ("active", .bool google)]),
      ("mapbox", .obj [("name", .str "Mapbox API"),
        ("requiresKey", .bool true), ("active", .bool mapbox)]),
      ("here", .obj [("name", .str "HERE API"),
        ("requiresKey", .bool true), ("active", .bool here)])]),
    ("features", .obj features)]

/-- The configurations in the layout of `getDefaultConfig`. -/
def DefaultLayout (config : JsVal) : Prop :=
  ∃ d g m h fs, config = configWith d g m h fs

/-- Stated from the specification: the text `line` starts with the text `start`. -/
def StartsWith (line start : String) : Prop :=
  ∃ rest : String, line = start ++ rest

/-- Stated from the specification: `lines` are the lines of the text `content`, the pieces
between its line feeds: there is at least one, none holds a line feed, and the text is the
lines with a line feed between neighbours. -/
def IsLinesOf (content : String) (lines : List String) : Prop :=
  lines ≠ [] ∧ (∀ l ∈ lines, '\n' ∉ l.data) ∧ content = String.intercalate "\n" lines

/-- Stated from the specification: `upper` is the ASCII text `text` upper-cased: each of
the letters `a`..`z` has become the letter 32 code points below it, every other character
is as it was. -/
def UpperCased (text upper : String) : Prop :=
  List.Forall₂ (fun c d : Char =>
    if 97 ≤ c.toNat ∧ c.toNat ≤ 122 then d.toNat + 32 = c.toNat else d = c) text.data upper.data

/-- Stated from the specification: the edit of `setApiKey` on the lines of the credentials
file: either some line starts with `start`, and then the first such line has become
`newLine`, every other line is where it was and the number of lines is the same; or no line
starts with `start`, and then `newLine` has been put after the last line. -/
def LineEdit (start newLine : String) (before after : List String) : Prop :=
  (∃ front old back, before = front ++ old :: back ∧
    (∀ l ∈ front, ¬ StartsWith l start) ∧ StartsWith old start ∧
    after = front ++ newLine :: back ∧ after.length = before.length) ∨
  ((∀ l ∈ before, ¬ StartsWith l start) ∧ after = before ++ [newLine])

/-- The distance that the loop of `calculatePolygonPerimeter` adds at index `i`: from the
vertex `i` to the vertex `(i + 1) mod n`. -/
def edgeAt (getDistance : Point → Point → Nat) (coordinates : List Point) (i : Nat) : Nat :=
  match coordinates.get? i, coordinates.get? ((i + 1) % coordinates.length) with
  | some a, some b => getDistance a b
  | _, _ => 0

/-- Stated from the specification: the sum over `i` in `0..n-1` of the distance from
`vs[i]` to `vs[(i + 1) mod n]`. -/
def specPerimeter (distance : Point → Point → Nat) (vs : List Point) : Nat :=
  ∑ i : Fin vs.length,
    distance (vs.get i) (vs.get ⟨(i.val + 1) % vs.length, Nat.mod_lt _ (Fin.pos i)⟩)

/-- The sign that a direction letter stands for: `N` and `E` positive, `S` and `W`
negative. -/
def directionSign (direction : String) : Rat :=
  if direction = "N" ∨ direction = "E" then 1 else -1

/-- Stated from the language specification: an integer-like property name, the decimal
numeral of a whole number below `2^32 - 1`. -/
def IntegerLike (k : String) : Prop :=
  ∃ n : Nat, n < 4294967295 ∧ k = toString n

/-- Stated from the language specification: in the enumeration of the keys of an object
whose keys were declared in the order `declared`, the key `p` comes before the key `q`.
Integer-like keys come first, by ascending value; the other keys follow in the order of
their declaration. -/
def KeyBefore (declared : List String) (p q : String) : Prop :=
  (∃ i j : Nat, i < j ∧ j < 4294967295 ∧ p = toString i ∧ q = toString j) ∨
  (IntegerLike p ∧ ¬ IntegerLike q) ∨
  (¬ IntegerLike p ∧ ¬ IntegerLike q ∧ [p, q].Sublist declared)

/-- Stated from the specification: `text` is a decimal numeral of the whole number `n`:
decimal digits, at least one, that read as `n`. -/
def Numeral (text : String) (n : Nat) : Prop :=
  text.data ≠ [] ∧ text.data.all Char.isDigit = true ∧ digitsValue text.data = n

/-- Stated from the specification: `text` is a decimal numeral with `digits` decimals of
the number `x`: a numeral, a point, and a numeral of exactly `digits` digits. -/
def FixedNumeral (text : String) (digits : Nat) (x : Rat) : Prop :=
  ∃ (whole frac : String) (w f : Nat), text = whole ++ "." ++ frac ∧ frac.length = digits ∧
    Numeral whole w ∧ Numeral frac f ∧ x = w + (f : Rat) / 10 ^ digits

/-- Stated from the specification: `text` prints the degrees, the minutes, the seconds
with two decimals and the direction letter in the layout of `convertToDMS`: degrees, degree
sign, blank, minutes, minute mark, blank, seconds, second mark, blank, letter. -/
def ReadsDMS (text : String) (degrees minutes : Nat) (seconds : Rat) (letter : String) :
    Prop :=
  ∃ d m s : String,
    text = d ++ "° " ++ m ++ String.singleton (Char.ofNat 39) ++ " " ++ s
      ++ String.singleton (Char.ofNat 34) ++ " " ++ letter ∧
    Numeral d degrees ∧ Numeral m minutes ∧ FixedNumeral s 2 seconds

/-- Stated from the specification: `text` prints the degrees, the minutes with four
decimals and the direction letter in the layout of `convertToDM`: degrees, degree sign,
blank, minutes, minute mark, blank, letter. -/
def ReadsDM (text : String) (degrees : Nat) (minutes : Rat) (letter : String) : Prop :=
  ∃ d m : String,
    text = d ++ "° " ++ m ++ String.singleton (Char.ofNat 39) ++ " " ++ letter ∧
    Numeral d degrees ∧ FixedNumeral m 4 minutes

/-! ## Sample worlds -/

/-- Arithmetic without rounding error, as on numbers whose results are all representable. -/
def exactArithmetic : Rounding where
  fl := fun x => x
  close := fun x _ => by
    rw [sub_self, abs_zero]
    exact add_nonneg (div_nonneg (abs_nonneg x) (pow_nonneg (by norm_num) 53))
      (one_div_nonneg.mpr (pow_nonneg (by norm_num) 1075))
  whole := fun _ _ => rfl
  nonneg := fun _ h => h

/-- A process environment in which no variable is set. -/
def emptyEnv : Env := fun _ => none

/-- A process environment holding the three provider keys. -/
def keyedEnv : Env := fun name =>
  if name = "GOOGLE_API_KEY" then some "g-key"
  else if name = "MAPBOX_API_KEY" then some "m-key"
  else if name = "HERE_API_KEY" then some "h-key"
  else none

/-- Upstream services that reject every request. -/
def downUpstream : Upstream := fun _ => .error "Network Error"

/-- Upstream services that answer every request successfully with no match: the empty
array (nominatim search, google), the error object of nominatim reverse, an empty feature
collection (mapbox), an empty item list (here). -/
def noMatchUpstream : Upstream
  | .osmSearch _ => .ok (.arr [])
  | .osmReverse _ _ => .ok (.obj [("error", .str "Unable to geocode")])
  | .googleGeocode _ _ => .ok (.arr [])
  | .googleReverse _ _ _ => .ok (.arr [])
  | .mapboxForward _ _ => .ok (.obj [("type", .str "FeatureCollection"), ("features", .arr [])])
  | .mapboxReverse _ _ _ => .ok (.obj [("type", .str "FeatureCollection"), ("features", .arr [])])
  | .hereGeocode _ _ => .ok (.obj [("items", .arr [])])
  | .hereReverse _ _ _ => .ok (.obj [("items", .arr [])])

/-- A run of 105 `addEntry` calls, told apart by their clock reading. -/
def sampleCalls : List AddCall :=
  (List.range 105).map fun i =>
    { now := i, stamp := "2024-01-01 00:00:00", type := .str "geocode",
      input := .str "Paris", output := .null, provider := .str "osm" }

/-- A freshly constructed `ApiManager` before `loadConfig`, over the given two files and an
empty process environment. -/
def freshManager (configFile : FileState) (envFile : Option String) : ApiManager :=
  { config := .undefined, configFile := configFile, envFile := envFile, env := emptyEnv }

/-- A `parseFloat` on the two strings of `parisUpstream`, `NaN` being out of the picture. -/
def sampleParseFloat : JsVal → JsVal
  | .str s => if s = "48.8566" then .num 48.8566 else if s = "2.3522" then .num 2.3522
      else .undefined
  | _ => .undefined

/-- The nominatim hits for Paris. -/
def parisOsmHits : List JsVal :=
  [.obj [("lat", .str "48.8566"), ("lon", .str "2.3522"),
    ("display_name", .str "Paris, France"),
    ("address", .obj [("city", .str "Paris"), ("country", .str "France")])]]

/-- The google geocoder results for Paris. -/
def parisGoogleHits : List JsVal :=
  [.obj [("latitude", .num 48.8566), ("longitude", .num 2.3522),
    ("formattedAddress", .str "Paris, France"), ("city", .str "Paris"),
    ("country", .str "France")]]

/-- A context array whose one element has the id-prefix `__proto__`. -/
def protoContext : List JsVal :=
  [.obj [("id", .str "__proto__.1"), ("text", .str "x")]]

/-- The context array of the mapbox feature for Paris. -/
def parisContext : List JsVal :=
  [.obj [("id", .str "region.9999"), ("text", .str "Paris")],
   .obj [("id", .str "country.8781"), ("text", .str "France")]]

/-- The mapbox features for Paris: coordinates as `[lon, lat]`. -/
def parisMapboxHits : List JsVal :=
  [.obj [("center", .arr [.num 2.3522, .num 48.8566]), ("place_name", .str "Paris, France"),
    ("context", .arr parisContext)]]

/-- The here items for Paris. -/
def parisHereHits : List JsVal :=
  [.obj [("position", .obj [("lat", .num 48.8566), ("lng", .num 2.3522)]),
    ("title", .str "Paris, France"), ("address", .obj [("city", .str "Paris")])]]

/-- Upstream services that answer every forward request with one hit for Paris, in the
shape of each provider. -/
def parisUpstream : Upstream
  | .osmSearch _ => .ok (.arr parisOsmHits)
  | .googleGeocode _ _ => .ok (.arr parisGoogleHits)
  | .mapboxForward _ _ => .ok (.obj [("features", .arr parisMapboxHits)])
  | .hereGeocode _ _ => .ok (.obj [("items", .arr parisHereHits)])
  | _ => .error "Network Error"

/-- The mapbox features for Paris when the service sends no context array. -/
def bareMapboxHits : List JsVal :=
  [.obj [("center", .arr [.num 2.3522, .num 48.8566]), ("place_name", .str "Paris, France")]]

/-- The nominatim hits for Paris when the service sends no address object. -/
def bareOsmHits : List JsVal :=
  [.obj [("lat", .str "48.8566"), ("lon", .str "2.3522"),
    ("display_name", .str "Paris, France")]]

/-- The here items for Paris when the service sends no address object. -/
def bareHereHits : List JsVal :=
  [.obj [("position", .obj [("lat", .num 48.8566), ("lng", .num 2.3522)]),
    ("title", .str "Paris, France")]]

/-- Upstream services that answer every forward request with one hit for Paris that
carries coordinates and a name but no components. -/
def bareUpstream : Upstream
  | .osmSearch _ => .ok (.arr bareOsmHits)
  | .mapboxForward _ _ => .ok (.obj [("features", .arr bareMapboxHits)])
  | .hereGeocode _ _ => .ok (.obj [("items", .arr bareHereHits)])
  | _ => .error "Network Error"

/-- What `geocodeAddress` returns for the one hit of `bareMapboxHits`. -/
def bareMapboxResult : JsVal :=
  .obj [("lat", .num 48.8566), ("lon", .num 2.3522), ("address", .str "Paris, France"),
    ("details", .undefined), ("provider", .str "Mapbox")]

/-- A `list` prompt whose user always takes the first choice; with nothing to choose from
it rejects. -/
def firstChoicePrompt : ApiManager.ListPrompt where
  ask := fun choices _ =>
    match choices with
    | [] => .error (.typeError "value")
    | c :: _ => .ok c.value
  picks := by
    intro choices fallback value h
    cases choices with
    | nil => cases h
    | cons c rest =>
      cases h
      exact List.mem_cons_self _ _

/-- A user who, for every provider, types the key `secret` and confirms activation. -/
def eagerAnswers : String → ApiManager.SetupAnswer :=
  fun _ => { updateKey := true, apiKey := "secret", activate := true }

/-- The default configuration with every provider deactivated: `osm.active` is `false`
too. -/
def inactiveConfig : JsVal :=
  .obj [("defaultProvider", .str "osm"),
    ("providers", .obj [
      ("osm", .obj [("name", .str "OpenStreetMap (Nominatim)"),
        ("requiresKey", .bool false), ("active", .bool false)]),
      ("google", .obj [("name", .str "Google Maps API"),
        ("requiresKey", .bool true), ("active", .bool false)]),
      ("mapbox", .obj [("name", .str "Mapbox API"),
        ("requiresKey", .bool true), ("active", .bool false)]),
      ("here", .obj [("name", .str "HERE API"),
        ("requiresKey", .bool true), ("active", .bool false)])]),
    ("features", .obj [("autoSave", .bool true), ("showProgress", .bool true),
      ("colorOutput", .bool true), ("saveHistory", .bool true)])]

/-- An `ApiManager` that has loaded `inactiveConfig`. -/
def inactiveManager : ApiManager :=
  { config := inactiveConfig, configFile := .holds inactiveConfig, envFile := none,
    env := emptyEnv }

/-- An `ApiManager` that has loaded the default configuration on a first run. -/
def defaultManager : ApiManager :=
  { config := ApiManager.getDefaultConfig, configFile := .holds ApiManager.getDefaultConfig,
    envFile := none, env := emptyEnv }

/-- A symmetric distance on the grid of whole degrees, standing in for the great-circle
distance in examples. -/
def gridDistance (a b : Point) : Nat :=
  (⌊|a.lat - b.lat| + |a.lng - b.lng|⌋ : Int).toNat

/-- The number of rows of the batch table that are shown with the `Success` status. -/
def successRows (rows : List BatchRow) : Nat :=
  (rows.filter fun row => row.status = "✅ Success").length

/-- The result that the gateway builds from the nominatim hit of `parisUpstream`, read with
`sampleParseFloat`. -/
def parisOsmResult : JsVal :=
  .obj [("lat", .num 48.8566), ("lon", .num 2.3522), ("address", .str "Paris, France"),
    ("details", .obj [("city", .str "Paris"), ("country", .str "France")]),
    ("boundingBox", .undefined), ("provider", .str "OpenStreetMap")]

/-- A configuration whose providers are declared in the order `b`, `2`, `a`, `10`, `1`, all
of them active but `10`. -/
def numberedConfig : JsVal :=
  .obj [("defaultProvider", .str "b"),
    ("providers", .obj [
      ("b", .obj [("name", .str "B"), ("requiresKey", .bool false), ("active", .bool true)]),
      ("2", .obj [("name", .str "Two"), ("requiresKey", .bool false), ("active", .bool true)]),
      ("a", .obj [("name", .str "A"), ("requiresKey", .bool false), ("active", .bool true)]),
      ("10", .obj [("name", .str "Ten"), ("requiresKey", .bool false),
        ("active", .bool false)]),
      ("1", .obj [("name", .str "One"), ("requiresKey", .bool false),
        ("active", .bool true)])]),
    ("features", .obj [])]

/-- A manager holding `numberedConfig`. -/
def numberedManager : ApiManager :=
  { config := numberedConfig, configFile := .missing, envFile := none, env := emptyEnv }

/-! ## Theorems -/

/-! ### Decimal numerals -/

theorem digitChar_isDigit (d : Nat) (h : d < 10) : (Nat.digitChar d).isDigit = true := by
  interval_cases d <;> rfl

theorem digitChar_value (d : Nat) (h : d < 10) : (Nat.digitChar d).toNat - 48 = d := by
  interval_cases d <;> rfl

theorem digitChar_eq_zero (d : Nat) (h : d < 10) (hz : Nat.digitChar d = '0') : d = 0 := by
  interval_cases d <;> first | rfl | exact absurd hz (by decide)

theorem toDigitsCore_acc :
    ∀ (fuel n : Nat) (acc : List Char), n < fuel →
      Nat.toDigitsCore 10 fuel n acc = Nat.toDigits 10 n ++ acc := by
  intro fuel
  induction fuel using Nat.strong_induction_on with
  | _ fuel ih =>
    intro n acc hn
    cases fuel with
    | zero => omega
    | succ fuel =>
      rw [Nat.toDigits, Nat.toDigitsCore.eq_def, Nat.toDigitsCore.eq_def 10 (n + 1)]
      simp only
      by_cases h0 : n / 10 = 0
      · simp [h0]
      · simp only [h0, if_false]
        have hlt : n / 10 < n := Nat.div_lt_self (by omega) (by norm_num)
        rw [ih fuel (Nat.lt_succ_self _) (n / 10) _ (by omega),
          ih n (by omega) (n / 10) _ hlt]
        simp

theorem toDigits_step (n : Nat) :
    Nat.toDigits 10 n
      = if n / 10 = 0 then [Nat.digitChar (n % 10)]
        else Nat.toDigits 10 (n / 10) ++ [Nat.digitChar (n % 10)] := by
  rw [Nat.toDigits, Nat.toDigitsCore.eq_def]
  simp only
  by_cases h0 : n / 10 = 0
  · simp [h0]
  · simp only [h0, if_false]
    exact toDigitsCore_acc n (n / 10) _ (Nat.div_lt_self (by omega) (by norm_num))

theorem digitsValue_append_singleton (xs : List Char) (c : Char) :
    digitsValue (xs ++ [c]) = 10 * digitsValue xs + (c.toNat - 48) := by
  simp [digitsValue, List.foldl_append]

theorem digitsValue_toDigits (n : Nat) : digitsValue (Nat.toDigits 10 n) = n := by
  induction n using Nat.strong_induction_on with
  | _ n ih =>
    rw [toDigits_step]
    by_cases h0 : n / 10 = 0
    · simp only [h0, if_true]
      have hv := digitChar_value (n % 10) (Nat.mod_lt _ (by norm_num))
      simp only [digitsValue, List.foldl_cons, List.foldl_nil, hv]
      omega
    · simp only [h0, if_false]
      rw [digitsValue_append_singleton, ih (n / 10) (Nat.div_lt_self (by omega) (by norm_num)),
        digitChar_value (n % 10) (Nat.mod_lt _ (by norm_num))]
      omega

theorem toDigits_all_digits (n : Nat) : (Nat.toDigits 10 n).all Char.isDigit = true := by
  induction n using Nat.strong_induction_on with
  | _ n ih =>
    rw [toDigits_step]
    have hd := digitChar_isDigit (n % 10) (Nat.mod_lt _ (by norm_num))
    by_cases h0 : n / 10 = 0
    · simp [h0, hd]
    · simp only [h0, if_false, List.all_append, List.all_cons, List.all_nil, hd,
        ih (n / 10) (Nat.div_lt_self (by omega) (by norm_num))]
      rfl

theorem toDigits_ne_nil (n : Nat) : Nat.toDigits 10 n ≠ [] := by
  rw [toDigits_step]
  split <;> simp

theorem toDigits_head (n : Nat) (h : (Nat.toDigits 10 n).head? = some '0') : n = 0 := by
  induction n using Nat.strong_induction_on with
  | _ n ih =>
    rw [toDigits_step] at h
    by_cases h0 : n / 10 = 0
    · simp only [h0, if_true, List.head?_cons, Option.some.injEq] at h
      have := digitChar_eq_zero (n % 10) (Nat.mod_lt _ (by norm_num)) h
      omega
    · simp only [h0, if_false] at h
      rw [List.head?_append_of_ne_nil _ (toDigits_ne_nil _)] at h
      exact absurd (ih (n / 10) (Nat.div_lt_self (by omega) (by norm_num)) h) h0

theorem toDigits_length_le (d : Nat) :
    ∀ n, n < 10 ^ d → 1 ≤ d → (Nat.toDigits 10 n).length ≤ d := by
  induction d with
  | zero => intro n _ h; omega
  | succ d ih =>
    intro n hn _
    rw [toDigits_step]
    by_cases h0 : n / 10 = 0
    · simp [h0]
    · simp only [h0, if_false, List.length_append, List.length_singleton]
      have hd : 1 ≤ d := by
        rcases Nat.eq_zero_or_pos d with hz | hp
        · subst hz
          have : n < 10 := by simpa using hn
          exact absurd (Nat.div_eq_of_lt this) h0
        · exact hp
      have hlt : n / 10 < 10 ^ d := by
        rw [Nat.div_lt_iff_lt_mul (by norm_num)]
        rw [pow_succ] at hn
        exact hn
      have := ih (n / 10) hlt hd
      omega

theorem digit_of_isDigit (c : Char) (h : c.isDigit = true) :
    c.toNat - 48 < 10 ∧ Nat.digitChar (c.toNat - 48) = c := by
  simp only [Char.isDigit, Bool.and_eq_true, decide_eq_true_eq] at h
  have h1 : 48 ≤ c.toNat := h.1
  have h2 : c.toNat ≤ 57 := h.2
  have hc : c = Char.ofNat c.toNat := (Char.ofNat_toNat c).symm
  generalize c.toNat = n at h1 h2 hc
  subst hc
  interval_cases n <;> exact ⟨by decide, by decide⟩

theorem toDigits_of_canonical (ds : List Char) :
    ds ≠ [] → ds.all Char.isDigit = true → (ds.head? ≠ some '0' ∨ ds.length = 1) →
      Nat.toDigits 10 (digitsValue ds) = ds := by
  induction ds using List.reverseRecOn with
  | nil => intro h; exact absurd rfl h
  | append_singleton init c ih =>
    intro _ hall hcanon
    rw [List.all_append, Bool.and_eq_true] at hall
    have hc : c.isDigit = true := by simpa using hall.2
    obtain ⟨hlt, hchar⟩ := digit_of_isDigit c hc
    rw [digitsValue_append_singleton, toDigits_step]
    have hdiv : (10 * digitsValue init + (c.toNat - 48)) / 10 = digitsValue init := by omega
    have hmod : (10 * digitsValue init + (c.toNat - 48)) % 10 = c.toNat - 48 := by omega
    rw [hdiv, hmod, hchar]
    rcases List.eq_nil_or_concat init with hnil | ⟨front, last, hinit⟩
    · subst hnil
      rfl
    · have hne : init ≠ [] := by rw [hinit]; simp
      have hhead : init.head? ≠ some '0' := by
        rcases hcanon with hh | hl
        · rwa [List.head?_append_of_ne_nil _ hne] at hh
        · rw [hinit] at hl
          simp at hl
      have hrec := ih hne hall.1 (Or.inl hhead)
      have hv : digitsValue init ≠ 0 := by
        intro hz
        rw [hz] at hrec
        rw [← hrec] at hhead
        exact hhead rfl
      rw [if_neg hv, hrec]

theorem repr_data (n : Nat) : (toString n).data = Nat.toDigits 10 n := rfl

theorem digitsValue_toString (n : Nat) : digitsValue (toString n).data = n :=
  digitsValue_toDigits n

namespace JsVal

theorem arrayIndex_eq_some_iff (k : String) (n : Nat) :
    arrayIndex k = some n ↔ n < 4294967295 ∧ k = toString n := by
  unfold arrayIndex
  constructor
  · intro h
    split at h
    · rename_i hc
      obtain ⟨hne, hall, hcanon, hlt⟩ := hc
      cases h
      refine ⟨hlt, ?_⟩
      have := toDigits_of_canonical k.data hne hall hcanon
      show k = String.mk (Nat.toDigits 10 (digitsValue k.data))
      rw [this]
    · cases h
  · rintro ⟨hlt, hk⟩
    subst hk
    have hcanon : (toString n).data.head? ≠ some '0' ∨ (toString n).data.length = 1 := by
      by_cases hh : (toString n).data.head? = some '0'
      · right
        have hz := toDigits_head n hh
        subst hz
        rfl
      · exact Or.inl hh
    rw [if_pos ⟨toDigits_ne_nil n, toDigits_all_digits n, hcanon,
      by rw [digitsValue_toString]; exact hlt⟩, digitsValue_toString]

theorem arrayIndex_isSome_iff (k : String) :
    (arrayIndex k).isSome = true ↔ ∃ n, n < 4294967295 ∧ k = toString n := by
  constructor
  · intro h
    obtain ⟨n, hn⟩ := Option.isSome_iff_exists.mp h
    exact ⟨n, (arrayIndex_eq_some_iff k n).mp hn⟩
  · rintro ⟨n, hn⟩
    rw [(arrayIndex_eq_some_iff k n).mpr hn]
    rfl

end JsVal

namespace HistoryManager

theorem addEntry_history (c : AddCall) (m : HistoryManager) :
    (addEntry c m).history = (c.entry :: m.history).take 100 := by
  simp only [addEntry, saveHistory]
  split
  · rfl
  · rename_i h
    rw [List.take_of_length_le (by omega)]

theorem addEntry_length_le (c : AddCall) (m : HistoryManager) :
    (addEntry c m).history.length ≤ 100 := by
  rw [addEntry_history, List.length_take]
  exact Nat.min_le_left _ _

theorem run_length_le (ops : List Op) (m : HistoryManager) (h : m.history.length ≤ 100) :
    (run m ops).history.length ≤ 100 := by
  induction ops generalizing m with
  | nil => simpa [run] using h
  | cons op ops ih =>
    have hstep : (step m op).history.length ≤ 100 := by
      cases op with
      | add c => exact addEntry_length_le c m
      | clear => simp [step, clearHistory, saveHistory]
    simpa [run] using ih (step m op) hstep

theorem take_append_take {α : Type} (n : Nat) (xs ys : List α) :
    (xs ++ ys.take n).take n = (xs ++ ys).take n := by
  rw [List.take_append_eq_append_take, List.take_append_eq_append_take, List.take_take]
  congr 2
  omega

theorem addAll_history (cs : List AddCall) (m : HistoryManager)
    (h : m.history.length ≤ 100) :
    (addAll m cs).history = ((cs.map AddCall.entry).reverse ++ m.history).take 100 := by
  induction cs generalizing m with
  | nil => simp [addAll, List.take_of_length_le h]
  | cons c cs ih =>
    have hs := ih (addEntry c m) (addEntry_length_le c m)
    simp only [addAll, List.foldl_cons] at hs ⊢
    rw [hs, addEntry_history, take_append_take]
    simp

/-- C1. After `addEntry` the stored sequence has at most 100 entries, whatever the length of
the history before the call; hence every state reached from an empty history by `addEntry`
and `clearHistory` calls stores at most 100 entries. -/
theorem history_length_never_exceeds_100 :
    (∀ (m : HistoryManager) (c : AddCall), (addEntry c m).history.length ≤ 100) ∧
    (∀ (disk : FileState) (ops : List Op), (run (empty disk) ops).history.length ≤ 100) :=
  ⟨fun m c => addEntry_length_le c m,
   fun disk ops => run_length_le ops (empty disk) (by simp [empty])⟩

/-- C2. From an empty history, appending `e1..en` in that order stores exactly the last
`min n 100` of them, newest first; with 105 appended, 100 are stored and they are
`e105, ..., e6`, the five oldest being dropped. -/
theorem history_keeps_newest_100 (disk : FileState) (cs : List AddCall) :
    (addAll (empty disk) cs).history = ((cs.map AddCall.entry).reverse).take 100 ∧
    (addAll (empty disk) cs).history.length = min cs.length 100 ∧
    (addAll (empty disk) cs).history
      = ((cs.drop (cs.length - 100)).map AddCall.entry).reverse ∧
    (cs.length = 105 →
      (addAll (empty disk) cs).history.length = 100 ∧
      (addAll (empty disk) cs).history = ((cs.drop 5).map AddCall.entry).reverse) := by
  have h : (addAll (empty disk) cs).history = ((cs.map AddCall.entry).reverse).take 100 := by
    have h0 := addAll_history cs (empty disk) (by simp [empty])
    rwa [show (empty disk).history = [] from rfl, List.append_nil] at h0
  have hdrop : ((cs.map AddCall.entry).reverse).take 100
      = ((cs.drop (cs.length - 100)).map AddCall.entry).reverse := by
    rw [← List.map_reverse, ← List.map_reverse, ← List.map_take, List.reverse_drop]
    congr 1
    by_cases hle : cs.length ≤ 100
    · rw [List.take_of_length_le (by simpa using hle),
        List.take_of_length_le (by simp only [List.length_reverse]; omega)]
    · congr 1
      omega
  refine ⟨h, ?_, ?_, ?_⟩
  · rw [h]; simp [Nat.min_comm]
  · rw [h, hdrop]
  · intro hn
    rw [h, hdrop, hn]
    simp [hn]

theorem history_keeps_newest_100_witness :
    sampleCalls.length = 105 ∧
    (addAll (empty .missing) sampleCalls).history.length = 100 ∧
    (addAll (empty .missing) sampleCalls).history
      = ((sampleCalls.drop 5).map AddCall.entry).reverse :=
  ⟨by simp [sampleCalls],
   (history_keeps_newest_100 .missing sampleCalls).2.2.2 (by simp [sampleCalls])⟩

end HistoryManager

/-! ### Gateway: closed forms of the callbacks -/

namespace GeocodingService

open JsVal

theorem getProp_onlyTypeErrors (v : JsVal) (k : String) : OnlyTypeErrors (v.getProp k) := by
  intro e h
  unfold JsVal.getProp at h
  split at h
  · exact ⟨k, by cases h; rfl⟩
  · cases h

theorem getIndex_onlyTypeErrors (v : JsVal) (i : Nat) : OnlyTypeErrors (v.getIndex i) := by
  intro e h
  unfold JsVal.getIndex at h
  split at h
  · exact ⟨toString i, by cases h; rfl⟩
  · cases h

theorem mapItems_onlyTypeErrors (f : JsVal → Except JsError JsVal)
    (hf : ∀ x, OnlyTypeErrors (f x)) (xs : List JsVal) :
    OnlyTypeErrors (mapItems f xs) := by
  induction xs with
  | nil => intro e h; cases h
  | cons x xs ih =>
    intro e h
    unfold JsVal.mapItems at h
    cases hx : f x with
    | error e1 =>
      rw [hx] at h
      cases h
      exact hf x _ hx
    | ok y =>
      rw [hx] at h
      cases hxs : mapItems f xs with
      | error e2 =>
        rw [hxs] at h
        cases h
        exact ih _ hxs
      | ok ys => rw [hxs] at h; cases h

theorem map_onlyTypeErrors (v : JsVal) (f : JsVal → Except JsError JsVal)
    (hf : ∀ x, OnlyTypeErrors (f x)) : OnlyTypeErrors (v.map f) := by
  intro e h
  cases v with
  | arr items =>
    unfold JsVal.map at h
    cases hxs : mapItems f items with
    | error e2 =>
      simp only [hxs] at h
      cases h
      exact mapItems_onlyTypeErrors f hf items _ hxs
    | ok ys => simp only [hxs] at h; cases h
  | _ => exact ⟨"map", by unfold JsVal.map at h; cases h; rfl⟩

theorem osmHit_eq (parseFloat : JsVal → JsVal) (r : JsVal) :
    osmHit parseFloat r =
      if r.isNullish then .error (.typeError "lat")
      else .ok (.obj [("lat", parseFloat (r.field "lat")), ("lon", parseFloat (r.field "lon")),
        ("address", r.field "display_name"), ("details", r.field "address"),
        ("boundingBox", r.field "boundingbox"), ("provider", .str "OpenStreetMap")]) := by
  unfold osmHit JsVal.getProp
  cases r.isNullish <;> rfl

theorem googleHit_eq (r : JsVal) :
    googleHit r =
      if r.isNullish then .error (.typeError "latitude")
      else .ok (.obj [("lat", r.field "latitude"), ("lon", r.field "longitude"),
        ("address", r.field "formattedAddress"),
        ("details", .obj [("streetNumber", r.field "streetNumber"),
          ("streetName", r.field "streetName"), ("city", r.field "city"),
          ("state", (r.field "administrativeLevels").optField "level1long"),
          ("country", r.field "country"), ("countryCode", r.field "countryCode"),
          ("zipcode", r.field "zipcode")]),
        ("provider", .str "Google Maps")]) := by
  unfold googleHit JsVal.getProp
  cases r.isNullish <;> rfl

theorem hereHit_eq (r : JsVal) :
    hereHit r =
      if r.isNullish then .error (.typeError "position")
      else if (r.field "position").isNullish then .error (.typeError "lat")
      else .ok (.obj [("lat", (r.field "position").field "lat"),
        ("lon", (r.field "position").field "lng"), ("address", r.field "title"),
        ("details", r.field "address"), ("provider", .str "HERE")]) := by
  unfold hereHit JsVal.getProp
  cases r.isNullish
  · cases h : (r.field "position").isNullish <;>
      simp [bind, Except.bind, pure, Except.pure, h]
  · rfl

theorem contextStep_eq (acc : List (String × JsVal)) (ctx : JsVal) :
    contextStep acc ctx =
      if ctx.isNullish then .error (.typeError "id")
      else match ctx.field "id" with
        | .str s => .ok (JsVal.setProp acc (splitHead s) (ctx.field "text"))
        | _ => .error (.typeError "split") := by
  unfold contextStep JsVal.getProp
  cases h : ctx.isNullish
  · simp only [bind, Except.bind, pure, Except.pure, Bool.false_eq_true, if_false]
  · rfl

theorem contextStep_onlyTypeErrors (acc : List (String × JsVal)) (ctx : JsVal) :
    OnlyTypeErrors (contextStep acc ctx) := by
  intro e h
  rw [contextStep_eq] at h
  split at h
  · exact ⟨"id", by cases h; rfl⟩
  · split at h
    · cases h
    · exact ⟨"split", by cases h; rfl⟩

theorem reduceContext_onlyTypeErrors (ctxs : List JsVal) (acc : List (String × JsVal)) :
    OnlyTypeErrors (reduceContext acc ctxs) := by
  induction ctxs generalizing acc with
  | nil => intro e h; cases h
  | cons ctx rest ih =>
    intro e h
    unfold reduceContext at h
    cases hs : contextStep acc ctx with
    | error e1 =>
      rw [hs] at h
      cases h
      exact contextStep_onlyTypeErrors acc ctx _ hs
    | ok next =>
      rw [hs] at h
      exact ih next _ h

theorem contextDetails_onlyTypeErrors (context : JsVal) :
    OnlyTypeErrors (contextDetails context) := by
  intro e h
  cases context with
  | arr ctxs =>
    unfold contextDetails at h
    cases hr : reduceContext [] ctxs with
    | error e1 =>
      simp only [hr] at h
      cases h
      exact reduceContext_onlyTypeErrors ctxs [] _ hr
    | ok fields => simp only [hr] at h; cases h
  | undefined => cases h
  | null => cases h
  | bool b => exact ⟨"reduce", by cases h; rfl⟩
  | num x => exact ⟨"reduce", by cases h; rfl⟩
  | str x => exact ⟨"reduce", by cases h; rfl⟩
  | obj x => exact ⟨"reduce", by cases h; rfl⟩

theorem mapboxHit_eq (r : JsVal) :
    mapboxHit r =
      if r.isNullish then .error (.typeError "center")
      else if (r.field "center").isNullish then .error (.typeError (toString 1))
      else match contextDetails (r.field "context") with
        | .error e => .error e
        | .ok details => .ok (.obj [("lat", (r.field "center").item 1),
            ("lon", (r.field "center").item 0), ("address", r.field "place_name"),
            ("details", details), ("provider", .str "Mapbox")]) := by
  unfold mapboxHit JsVal.getProp JsVal.getIndex
  cases r.isNullish
  · cases h : (r.field "center").isNullish
    · simp only [bind, Except.bind, pure, Except.pure, h, Bool.false_eq_true, if_false]
      cases contextDetails (r.field "context") <;> rfl
    · simp [bind, Except.bind, h]
  · rfl

theorem osmHit_onlyTypeErrors (parseFloat : JsVal → JsVal) (r : JsVal) :
    OnlyTypeErrors (osmHit parseFloat r) := by
  intro e h
  rw [osmHit_eq] at h
  split at h
  · exact ⟨_, by cases h; rfl⟩
  · cases h

theorem googleHit_onlyTypeErrors (r : JsVal) : OnlyTypeErrors (googleHit r) := by
  intro e h
  rw [googleHit_eq] at h
  split at h
  · exact ⟨_, by cases h; rfl⟩
  · cases h

theorem hereHit_onlyTypeErrors (r : JsVal) : OnlyTypeErrors (hereHit r) := by
  intro e h
  rw [hereHit_eq] at h
  split at h
  · exact ⟨_, by cases h; rfl⟩
  · split at h
    · exact ⟨_, by cases h; rfl⟩
    · cases h

theorem mapboxHit_onlyTypeErrors (r : JsVal) : OnlyTypeErrors (mapboxHit r) := by
  intro e h
  rw [mapboxHit_eq] at h
  split at h
  · exact ⟨_, by cases h; rfl⟩
  · split at h
    · exact ⟨_, by cases h; rfl⟩
    · cases hc : contextDetails (r.field "context") with
      | error e1 =>
        simp only [hc] at h
        cases h
        exact contextDetails_onlyTypeErrors _ _ hc
      | ok d => simp only [hc] at h; cases h

theorem bind_onlyTypeErrors {α β : Type} (x : Except JsError α) (f : α → Except JsError β)
    (hx : OnlyTypeErrors x) (hf : ∀ a, OnlyTypeErrors (f a)) : OnlyTypeErrors (x >>= f) := by
  intro e h
  cases x with
  | error e1 =>
    cases h
    exact hx _ rfl
  | ok a => exact hf a _ h

theorem pure_onlyTypeErrors {α : Type} (a : α) :
    OnlyTypeErrors (pure a : Except JsError α) := by
  intro e h; cases h

/-! ### Gateway: the dispatchers -/

theorem unsupported_message_head (p : String) :
    ("Unsupported provider: " ++ p).data.head? = some 'U' := by
  rw [String.data_append]
  rfl

theorem fetch_not_unsupported (up : Upstream) (req : Request)
    (rest : JsVal → Except JsError JsVal) (h : ∀ payload, OnlyTypeErrors (rest payload)) :
    ¬ (fetch up req rest).isUnsupportedProvider := by
  rintro ⟨p, hp⟩
  unfold fetch at hp
  simp only at hp
  cases hu : up req with
  | error m => rw [hu] at hp; cases hp
  | ok payload =>
    rw [hu] at hp
    obtain ⟨k, hk⟩ := h payload _ hp
    cases hk

theorem withKey_not_unsupported (env : Env) (name message : String) (rest : String → Outcome)
    (hm : message.data.head? ≠ some 'U')
    (h : ∀ key, ¬ (rest key).isUnsupportedProvider) :
    ¬ (withKey env name message rest).isUnsupportedProvider := by
  have hmsg : ¬ (Outcome.isUnsupportedProvider
      { requests := [], result := .error (.error message) }) := by
    rintro ⟨p, hp⟩
    simp only [Except.error.injEq, JsError.error.injEq] at hp
    exact hm (hp ▸ unsupported_message_head p)
  unfold withKey
  cases env name with
  | none => exact hmsg
  | some key =>
    simp only
    split
    · exact hmsg
    · exact h key

theorem withKey_missing (env : Env) (name message : String) (rest : String → Outcome)
    (h : env name = none) :
    withKey env name message rest = { requests := [], result := .error (.error message) } := by
  unfold withKey
  rw [h]

theorem withKey_present (env : Env) (name message key : String) (rest : String → Outcome)
    (h : env name = some key) (hk : key ≠ "") :
    withKey env name message rest = rest key := by
  unfold withKey
  rw [h]
  simp [hk]

theorem geocodeWithOSM_not_unsupported (parseFloat : JsVal → JsVal) (up : Upstream)
    (address : String) : ¬ (geocodeWithOSM parseFloat up address).isUnsupportedProvider :=
  fetch_not_unsupported _ _ _ fun payload =>
    map_onlyTypeErrors payload _ (osmHit_onlyTypeErrors parseFloat)

theorem reverseGeocodeWithOSM_not_unsupported (up : Upstream) (lat lon : Rat) :
    ¬ (reverseGeocodeWithOSM up lat lon).isUnsupportedProvider :=
  fetch_not_unsupported _ _ _ fun _ =>
    bind_onlyTypeErrors _ _ (getProp_onlyTypeErrors _ _) fun _ =>
      bind_onlyTypeErrors _ _ (getProp_onlyTypeErrors _ _) fun _ => pure_onlyTypeErrors _

theorem geocodeWithGoogle_not_unsupported (env : Env) (up : Upstream) (address : String) :
    ¬ (geocodeWithGoogle env up address).isUnsupportedProvider :=
  withKey_not_unsupported _ _ _ _ (by decide) fun _ =>
    fetch_not_unsupported _ _ _ fun payload =>
      map_onlyTypeErrors payload _ googleHit_onlyTypeErrors

theorem reverseGeocodeWithGoogle_not_unsupported (env : Env) (up : Upstream) (lat lon : Rat) :
    ¬ (reverseGeocodeWithGoogle env up lat lon).isUnsupportedProvider :=
  withKey_not_unsupported _ _ _ _ (by decide) fun _ =>
    fetch_not_unsupported _ _ _ fun payload =>
      bind_onlyTypeErrors _ _ (getIndex_onlyTypeErrors _ _) fun _ =>
      bind_onlyTypeErrors _ _ (getProp_onlyTypeErrors _ _) fun _ =>
      bind_onlyTypeErrors _ _ (getProp_onlyTypeErrors _ _) fun _ =>
      bind_onlyTypeErrors _ _ (getProp_onlyTypeErrors _ _) fun _ =>
      bind_onlyTypeErrors _ _ (getProp_onlyTypeErrors _ _) fun _ =>
      bind_onlyTypeErrors _ _ (getProp_onlyTypeErrors _ _) fun _ =>
      bind_onlyTypeErrors _ _ (getProp_onlyTypeErrors _ _) fun _ =>
      bind_onlyTypeErrors _ _ (getProp_onlyTypeErrors _ _) fun _ => pure_onlyTypeErrors _

theorem geocodeWithMapbox_not_unsupported (env : Env) (up : Upstream) (address : String) :
    ¬ (geocodeWithMapbox env up address).isUnsupportedProvider :=
  withKey_not_unsupported _ _ _ _ (by decide) fun _ =>
    fetch_not_unsupported _ _ _ fun _ =>
      bind_onlyTypeErrors _ _ (getProp_onlyTypeErrors _ _) fun features =>
        map_onlyTypeErrors features _ mapboxHit_onlyTypeErrors

theorem reverseGeocodeWithMapbox_not_unsupported (env : Env) (up : Upstream) (lat lon : Rat) :
    ¬ (reverseGeocodeWithMapbox env up lat lon).isUnsupportedProvider :=
  withKey_not_unsupported _ _ _ _ (by decide) fun _ =>
    fetch_not_unsupported _ _ _ fun _ =>
      bind_onlyTypeErrors _ _ (getProp_onlyTypeErrors _ _) fun _ =>
      bind_onlyTypeErrors _ _ (getIndex_onlyTypeErrors _ _) fun _ =>
      bind_onlyTypeErrors _ _ (getProp_onlyTypeErrors _ _) fun _ =>
      bind_onlyTypeErrors _ _ (getProp_onlyTypeErrors _ _) fun _ =>
      bind_onlyTypeErrors _ _ (contextDetails_onlyTypeErrors _) fun _ => pure_onlyTypeErrors _

theorem geocodeWithHere_not_unsupported (env : Env) (up : Upstream) (address : String) :
    ¬ (geocodeWithHere env up address).isUnsupportedProvider :=
  withKey_not_unsupported _ _ _ _ (by decide) fun _ =>
    fetch_not_unsupported _ _ _ fun _ =>
      bind_onlyTypeErrors _ _ (getProp_onlyTypeErrors _ _) fun items =>
        map_onlyTypeErrors items _ hereHit_onlyTypeErrors

theorem reverseGeocodeWithHere_not_unsupported (env : Env) (up : Upstream) (lat lon : Rat) :
    ¬ (reverseGeocodeWithHere env up lat lon).isUnsupportedProvider :=
  withKey_not_unsupported _ _ _ _ (by decide) fun _ =>
    fetch_not_unsupported _ _ _ fun _ =>
      bind_onlyTypeErrors _ _ (getProp_onlyTypeErrors _ _) fun _ =>
      bind_onlyTypeErrors _ _ (getIndex_onlyTypeErrors _ _) fun _ =>
      bind_onlyTypeErrors _ _ (getProp_onlyTypeErrors _ _) fun _ =>
      bind_onlyTypeErrors _ _ (getProp_onlyTypeErrors _ _) fun _ => pure_onlyTypeErrors _

theorem geocodeAddress_unknown (parseFloat : JsVal → JsVal) (env : Env) (up : Upstream)
    (address : String) (provider : Option String)
    (h : provider.getD "osm" ∉ knownProviders) :
    geocodeAddress parseFloat env up address provider = unsupported (provider.getD "osm") := by
  simp only [knownProviders, List.mem_cons, List.mem_singleton, not_or, List.mem_nil_iff,
    or_false] at h
  obtain ⟨h1, h2, h3, h4⟩ := h
  simp only [geocodeAddress, h1, h2, h3, h4, if_false]

theorem reverseGeocode_unknown (env : Env) (up : Upstream) (lat lon : Rat)
    (provider : Option String) (h : provider.getD "osm" ∉ knownProviders) :
    reverseGeocode env up lat lon provider = unsupported (provider.getD "osm") := by
  simp only [knownProviders, List.mem_cons, List.mem_singleton, not_or, List.mem_nil_iff,
    or_false] at h
  obtain ⟨h1, h2, h3, h4⟩ := h
  simp only [reverseGeocode, h1, h2, h3, h4, if_false]

theorem geocodeAddress_known (parseFloat : JsVal → JsVal) (env : Env) (up : Upstream)
    (address : String) (provider : Option String)
    (h : provider.getD "osm" ∈ knownProviders) :
    ¬ (geocodeAddress parseFloat env up address provider).isUnsupportedProvider := by
  unfold geocodeAddress
  simp only
  split
  · exact geocodeWithOSM_not_unsupported _ _ _
  · split
    · exact geocodeWithGoogle_not_unsupported _ _ _
    · split
      · exact geocodeWithMapbox_not_unsupported _ _ _
      · split
        · exact geocodeWithHere_not_unsupported _ _ _
        · rename_i h1 h2 h3 h4
          simp only [knownProviders, List.mem_cons, List.mem_singleton, List.mem_nil_iff,
            or_false] at h
          rcases h with h | h | h | h <;> contradiction

theorem reverseGeocode_known (env : Env) (up : Upstream) (lat lon : Rat)
    (provider : Option String) (h : provider.getD "osm" ∈ knownProviders) :
    ¬ (reverseGeocode env up lat lon provider).isUnsupportedProvider := by
  unfold reverseGeocode
  simp only
  split
  · exact reverseGeocodeWithOSM_not_unsupported _ _ _
  · split
    · exact reverseGeocodeWithGoogle_not_unsupported _ _ _ _
    · split
      · exact reverseGeocodeWithMapbox_not_unsupported _ _ _ _
      · split
        · exact reverseGeocodeWithHere_not_unsupported _ _ _ _
        · rename_i h1 h2 h3 h4
          simp only [knownProviders, List.mem_cons, List.mem_singleton, List.mem_nil_iff,
            or_false] at h
          rcases h with h | h | h | h <;> contradiction

/-- C3. `geocodeAddress` and `reverseGeocode` throw the `Unsupported provider` error exactly
when the provider id (`osm` when omitted) is none of `osm`, `google`, `mapbox`, `here`; in
that case the call is the `default` branch alone: it issues no upstream request and its
outcome does not depend on the environment or on the upstream services. -/
theorem unsupported_provider_iff (parseFloat : JsVal → JsVal) (env : Env) (up : Upstream)
    (address : String) (lat lon : Rat) (provider : Option String) :
    ((geocodeAddress parseFloat env up address provider).isUnsupportedProvider
      ↔ provider.getD "osm" ∉ knownProviders) ∧
    ((reverseGeocode env up lat lon provider).isUnsupportedProvider
      ↔ provider.getD "osm" ∉ knownProviders) ∧
    (provider.getD "osm" ∉ knownProviders →
      geocodeAddress parseFloat env up address provider
        = { requests := [],
            result := .error (.error ("Unsupported provider: " ++ provider.getD "osm")) } ∧
      reverseGeocode env up lat lon provider
        = { requests := [],
            result := .error (.error ("Unsupported provider: " ++ provider.getD "osm")) }) := by
  refine ⟨⟨fun h hk => geocodeAddress_known parseFloat env up address provider hk h,
      fun h => ?_⟩,
    ⟨fun h hk => reverseGeocode_known env up lat lon provider hk h, fun h => ?_⟩,
    fun h => ⟨geocodeAddress_unknown parseFloat env up address provider h,
      reverseGeocode_unknown env up lat lon provider h⟩⟩
  · rw [geocodeAddress_unknown parseFloat env up address provider h]
    exact ⟨_, rfl⟩
  · rw [reverseGeocode_unknown env up lat lon provider h]
    exact ⟨_, rfl⟩

theorem unsupported_provider_iff_witness :
    (some "bing").getD "osm" ∉ knownProviders ∧
    geocodeAddress id emptyEnv downUpstream "Paris" (some "bing")
      = { requests := [],
          result := .error (.error ("Unsupported provider: " ++ (some "bing").getD "osm")) } ∧
    reverseGeocode emptyEnv downUpstream 0 0 (some "bing")
      = { requests := [],
          result := .error (.error ("Unsupported provider: " ++ (some "bing").getD "osm")) } :=
  ⟨by decide,
   (unsupported_provider_iff id emptyEnv downUpstream "Paris" 0 0 (some "bing")).2.2
     (by decide)⟩

/-- C4. With provider `google`, `mapbox` or `here` and the provider's key variable absent
from the environment, `geocodeAddress` and `reverseGeocode` throw that provider's
`API key not configured` error having issued no upstream request; with provider `osm`
(given or defaulted) the outcome is the same in every environment. -/
theorem missing_credential_fails_before_request (parseFloat : JsVal → JsVal) (env : Env)
    (up : Upstream) (address : String) (lat lon : Rat) :
    (env "GOOGLE_API_KEY" = none →
      geocodeAddress parseFloat env up address (some "google")
        = { requests := [], result := .error (.error "Google API key not configured") } ∧
      reverseGeocode env up lat lon (some "google")
        = { requests := [], result := .error (.error "Google API key not configured") }) ∧
    (env "MAPBOX_API_KEY" = none →
      geocodeAddress parseFloat env up address (some "mapbox")
        = { requests := [], result := .error (.error "Mapbox API key not configured") } ∧
      reverseGeocode env up lat lon (some "mapbox")
        = { requests := [], result := .error (.error "Mapbox API key not configured") }) ∧
    (env "HERE_API_KEY" = none →
      geocodeAddress parseFloat env up address (some "here")
        = { requests := [], result := .error (.error "HERE API key not configured") } ∧
      reverseGeocode env up lat lon (some "here")
        = { requests := [], result := .error (.error "HERE API key not configured") }) ∧
    (∀ (other : Env) (provider : Option String), provider.getD "osm" = "osm" →
      geocodeAddress parseFloat other up address provider
        = geocodeAddress parseFloat env up address provider ∧
      reverseGeocode other up lat lon provider = reverseGeocode env up lat lon provider) := by
  refine ⟨fun h => ⟨?_, ?_⟩, fun h => ⟨?_, ?_⟩, fun h => ⟨?_, ?_⟩, fun other provider h => ?_⟩
  · exact withKey_missing env _ _ _ h
  · exact withKey_missing env _ _ _ h
  · exact withKey_missing env _ _ _ h
  · exact withKey_missing env _ _ _ h
  · exact withKey_missing env _ _ _ h
  · exact withKey_missing env _ _ _ h
  · simp only [geocodeAddress, reverseGeocode, h, if_true, and_self]

theorem missing_credential_fails_before_request_witness :
    (emptyEnv "GOOGLE_API_KEY" = none ∧ emptyEnv "MAPBOX_API_KEY" = none ∧
      emptyEnv "HERE_API_KEY" = none) ∧
    (geocodeAddress id emptyEnv noMatchUpstream "Paris" (some "google")
        = { requests := [], result := .error (.error "Google API key not configured") } ∧
      reverseGeocode emptyEnv noMatchUpstream 0 0 (some "google")
        = { requests := [], result := .error (.error "Google API key not configured") }) ∧
    (geocodeAddress id emptyEnv noMatchUpstream "Paris" (some "mapbox")
        = { requests := [], result := .error (.error "Mapbox API key not configured") } ∧
      reverseGeocode emptyEnv noMatchUpstream 0 0 (some "mapbox")
        = { requests := [], result := .error (.error "Mapbox API key not configured") }) ∧
    (geocodeAddress id emptyEnv noMatchUpstream "Paris" (some "here")
        = { requests := [], result := .error (.error "HERE API key not configured") } ∧
      reverseGeocode emptyEnv noMatchUpstream 0 0 (some "here")
        = { requests := [], result := .error (.error "HERE API key not configured") }) :=
  ⟨⟨rfl, rfl, rfl⟩,
   (missing_credential_fails_before_request id emptyEnv noMatchUpstream "Paris" 0 0).1 rfl,
   (missing_credential_fails_before_request id emptyEnv noMatchUpstream "Paris" 0 0).2.1 rfl,
   (missing_credential_fails_before_request id emptyEnv noMatchUpstream "Paris" 0 0).2.2.1 rfl⟩

/-- C5 (the code at a reverse lookup without match). With the keys configured and the
upstream answering with zero matches, `reverseGeocode` throws a `TypeError` for `google`,
`mapbox` and `here` (it reads a property of the missing first element), and for `osm` it
returns an object whose `address` and `details` are `undefined`: in no case `null`. -/
theorem reverseGeocode_zero_matches :
    reverseGeocode keyedEnv noMatchUpstream 0 0 (some "google")
      = { requests := [.googleReverse "g-key" 0 0],
          result := .error (.typeError "formattedAddress") } ∧
    reverseGeocode keyedEnv noMatchUpstream 0 0 (some "mapbox")
      = { requests := [.mapboxReverse "m-key" 0 0],
          result := .error (.typeError "place_name") } ∧
    reverseGeocode keyedEnv noMatchUpstream 0 0 (some "here")
      = { requests := [.hereReverse "h-key" 0 0],
          result := .error (.typeError "title") } ∧
    reverseGeocode keyedEnv noMatchUpstream 0 0 (some "osm")
      = { requests := [.osmReverse 0 0],
          result := .ok (.obj [("address", .undefined), ("details", .undefined),
            ("provider", .str "OpenStreetMap")]) } := by
  refine ⟨?_, ?_, ?_, ?_⟩ <;> rfl

theorem fetch_ok (up : Upstream) (req : Request) (rest : JsVal → Except JsError JsVal)
    (payload : JsVal) (h : up req = .ok payload) :
    fetch up req rest = { requests := [req], result := rest payload } := by
  unfold fetch
  rw [h]

theorem geocodeAddress_osm (parseFloat : JsVal → JsVal) (env : Env) (up : Upstream)
    (address : String) :
    geocodeAddress parseFloat env up address (some "osm")
      = geocodeWithOSM parseFloat up address := rfl

theorem geocodeAddress_google (parseFloat : JsVal → JsVal) (env : Env) (up : Upstream)
    (address : String) :
    geocodeAddress parseFloat env up address (some "google")
      = geocodeWithGoogle env up address := rfl

theorem geocodeAddress_mapbox (parseFloat : JsVal → JsVal) (env : Env) (up : Upstream)
    (address : String) :
    geocodeAddress parseFloat env up address (some "mapbox")
      = geocodeWithMapbox env up address := rfl

theorem geocodeAddress_here (parseFloat : JsVal → JsVal) (env : Env) (up : Upstream)
    (address : String) :
    geocodeAddress parseFloat env up address (some "here")
      = geocodeWithHere env up address := rfl

/-- C6. When the upstream answers a forward request successfully with zero hits (an empty
array for `osm` and `google`, a payload whose `features` resp. `items` is the empty array
for `mapbox` and `here`), and the provider's key is set where one is needed,
`geocodeAddress` issues that one request and returns the empty array. -/
theorem geocodeAddress_zero_hits (parseFloat : JsVal → JsVal) (env : Env) (up : Upstream)
    (address : String) :
    (up (.osmSearch address) = .ok (.arr []) →
      geocodeAddress parseFloat env up address (some "osm")
        = { requests := [.osmSearch address], result := .ok (.arr []) }) ∧
    (∀ key, env "GOOGLE_API_KEY" = some key → key ≠ "" →
      up (.googleGeocode key address) = .ok (.arr []) →
      geocodeAddress parseFloat env up address (some "google")
        = { requests := [.googleGeocode key address], result := .ok (.arr []) }) ∧
    (∀ key payload, env "MAPBOX_API_KEY" = some key → key ≠ "" →
      up (.mapboxForward key address) = .ok payload →
      payload.getProp "features" = .ok (.arr []) →
      geocodeAddress parseFloat env up address (some "mapbox")
        = { requests := [.mapboxForward key address], result := .ok (.arr []) }) ∧
    (∀ key payload, env "HERE_API_KEY" = some key → key ≠ "" →
      up (.hereGeocode key address) = .ok payload →
      payload.getProp "items" = .ok (.arr []) →
      geocodeAddress parseFloat env up address (some "here")
        = { requests := [.hereGeocode key address], result := .ok (.arr []) }) := by
  refine ⟨fun h => ?_, fun key hk hne h => ?_, fun key payload hk hne h hf => ?_,
    fun key payload hk hne h hf => ?_⟩
  · rw [geocodeAddress_osm, geocodeWithOSM, fetch_ok _ _ _ _ h]
    rfl
  · rw [geocodeAddress_google, geocodeWithGoogle, withKey_present _ _ _ _ _ hk hne,
      fetch_ok _ _ _ _ h]
    rfl
  · rw [geocodeAddress_mapbox, geocodeWithMapbox, withKey_present _ _ _ _ _ hk hne,
      fetch_ok _ _ _ _ h]
    simp only [hf]
    rfl
  · rw [geocodeAddress_here, geocodeWithHere, withKey_present _ _ _ _ _ hk hne,
      fetch_ok _ _ _ _ h]
    simp only [hf]
    rfl

theorem geocodeAddress_zero_hits_witness :
    geocodeAddress id keyedEnv noMatchUpstream "Atlantis" (some "osm")
      = { requests := [.osmSearch "Atlantis"], result := .ok (.arr []) } ∧
    geocodeAddress id keyedEnv noMatchUpstream "Atlantis" (some "google")
      = { requests := [.googleGeocode "g-key" "Atlantis"], result := .ok (.arr []) } ∧
    geocodeAddress id keyedEnv noMatchUpstream "Atlantis" (some "mapbox")
      = { requests := [.mapboxForward "m-key" "Atlantis"], result := .ok (.arr []) } ∧
    geocodeAddress id keyedEnv noMatchUpstream "Atlantis" (some "here")
      = { requests := [.hereGeocode "h-key" "Atlantis"], result := .ok (.arr []) } :=
  ⟨(geocodeAddress_zero_hits id keyedEnv noMatchUpstream "Atlantis").1 rfl,
   (geocodeAddress_zero_hits id keyedEnv noMatchUpstream "Atlantis").2.1 "g-key" rfl
     (by decide) rfl,
   (geocodeAddress_zero_hits id keyedEnv noMatchUpstream "Atlantis").2.2.1 "m-key" _ rfl
     (by decide) rfl rfl,
   (geocodeAddress_zero_hits id keyedEnv noMatchUpstream "Atlantis").2.2.2 "h-key" _ rfl
     (by decide) rfl rfl⟩

/-! ### Gateway: one result per hit -/

theorem mapItems_forall₂ (f : JsVal → Except JsError JsVal) (xs : List JsVal)
    (h : ∀ x ∈ xs, ∃ y, f x = .ok y) :
    ∃ ys, mapItems f xs = .ok ys ∧ List.Forall₂ (fun x y => f x = .ok y) xs ys := by
  induction xs with
  | nil => exact ⟨[], rfl, List.Forall₂.nil⟩
  | cons x xs ih =>
    obtain ⟨y, hy⟩ := h x (List.mem_cons_self x xs)
    obtain ⟨ys, hys, hall⟩ := ih fun z hz => h z (List.mem_cons_of_mem x hz)
    refine ⟨y :: ys, ?_, List.Forall₂.cons hy hall⟩
    unfold JsVal.mapItems
    rw [hy]
    simp only [hys]

theorem map_forall₂ (f : JsVal → Except JsError JsVal) (xs : List JsVal)
    (h : ∀ x ∈ xs, ∃ y, f x = .ok y) :
    ∃ ys, (JsVal.arr xs).map f = .ok (.arr ys) ∧
      List.Forall₂ (fun x y => f x = .ok y) xs ys := by
  obtain ⟨ys, hys, hall⟩ := mapItems_forall₂ f xs h
  refine ⟨ys, ?_, hall⟩
  unfold JsVal.map
  simp only [hys]

theorem getProp_ok (v : JsVal) (k : String) (h : v.isNullish = false) :
    v.getProp k = .ok (v.field k) := by
  unfold JsVal.getProp
  rw [h]
  rfl

theorem osm_hits (parseFloat : JsVal → JsVal) (env : Env) (up : Upstream) (address : String)
    (hits : List JsVal) (hup : up (.osmSearch address) = .ok (.arr hits))
    (hshape : ∀ hit ∈ hits, hit.isNullish = false) :
    ∃ rs, geocodeAddress parseFloat env up address (some "osm")
        = { requests := [.osmSearch address], result := .ok (.arr rs) } ∧
      List.Forall₂ (fun hit r => osmHit parseFloat hit = .ok r) hits rs := by
  obtain ⟨rs, hrs, hall⟩ := map_forall₂ (osmHit parseFloat) hits fun hit hm =>
    ⟨_, by rw [osmHit_eq, hshape hit hm]; rfl⟩
  refine ⟨rs, ?_, hall⟩
  rw [geocodeAddress_osm, geocodeWithOSM, fetch_ok _ _ _ _ hup, hrs]

theorem google_hits (parseFloat : JsVal → JsVal) (env : Env) (up : Upstream)
    (address key : String) (hits : List JsVal)
    (hkey : env "GOOGLE_API_KEY" = some key) (hne : key ≠ "")
    (hup : up (.googleGeocode key address) = .ok (.arr hits))
    (hshape : ∀ hit ∈ hits, hit.isNullish = false) :
    ∃ rs, geocodeAddress parseFloat env up address (some "google")
        = { requests := [.googleGeocode key address], result := .ok (.arr rs) } ∧
      List.Forall₂ (fun hit r => googleHit hit = .ok r) hits rs := by
  obtain ⟨rs, hrs, hall⟩ := map_forall₂ googleHit hits fun hit hm =>
    ⟨_, by rw [googleHit_eq, hshape hit hm]; rfl⟩
  refine ⟨rs, ?_, hall⟩
  rw [geocodeAddress_google, geocodeWithGoogle, withKey_present _ _ _ _ _ hkey hne,
    fetch_ok _ _ _ _ hup, hrs]

theorem mapbox_hits (parseFloat : JsVal → JsVal) (env : Env) (up : Upstream)
    (address key : String) (payload : JsVal) (hits : List JsVal)
    (hkey : env "MAPBOX_API_KEY" = some key) (hne : key ≠ "")
    (hup : up (.mapboxForward key address) = .ok payload)
    (hpay : payload.getProp "features" = .ok (.arr hits))
    (hshape : ∀ hit ∈ hits, hit.isNullish = false ∧ (hit.field "center").isNullish = false ∧
      ∃ details, contextDetails (hit.field "context") = .ok details) :
    ∃ rs, geocodeAddress parseFloat env up address (some "mapbox")
        = { requests := [.mapboxForward key address], result := .ok (.arr rs) } ∧
      List.Forall₂ (fun hit r => mapboxHit hit = .ok r) hits rs := by
  obtain ⟨rs, hrs, hall⟩ := map_forall₂ mapboxHit hits fun hit hm => by
    obtain ⟨h1, h2, d, hd⟩ := hshape hit hm
    exact ⟨_, by rw [mapboxHit_eq, h1, h2, hd]; rfl⟩
  refine ⟨rs, ?_, hall⟩
  rw [geocodeAddress_mapbox, geocodeWithMapbox, withKey_present _ _ _ _ _ hkey hne,
    fetch_ok _ _ _ _ hup]
  simp only [hpay]
  exact congrArg _ hrs

theorem here_hits (parseFloat : JsVal → JsVal) (env : Env) (up : Upstream)
    (address key : String) (payload : JsVal) (hits : List JsVal)
    (hkey : env "HERE_API_KEY" = some key) (hne : key ≠ "")
    (hup : up (.hereGeocode key address) = .ok payload)
    (hpay : payload.getProp "items" = .ok (.arr hits))
    (hshape : ∀ hit ∈ hits, hit.isNullish = false ∧ (hit.field "position").isNullish = false) :
    ∃ rs, geocodeAddress parseFloat env up address (some "here")
        = { requests := [.hereGeocode key address], result := .ok (.arr rs) } ∧
      List.Forall₂ (fun hit r => hereHit hit = .ok r) hits rs := by
  obtain ⟨rs, hrs, hall⟩ := map_forall₂ hereHit hits fun hit hm => by
    obtain ⟨h1, h2⟩ := hshape hit hm
    exact ⟨_, by rw [hereHit_eq, h1, h2]; rfl⟩
  refine ⟨rs, ?_, hall⟩
  rw [geocodeAddress_here, geocodeWithHere, withKey_present _ _ _ _ _ hkey hne,
    fetch_ok _ _ _ _ hup]
  simp only [hpay]
  exact congrArg _ hrs

theorem osmHit_normalizes (parseFloat : JsVal → JsVal) (hit r : JsVal)
    (h : osmHit parseFloat hit = .ok r) :
    Normalizes (fun x => parseFloat (x.field "lat")) (fun x => parseFloat (x.field "lon"))
      "OpenStreetMap" hit r := by
  rw [osmHit_eq] at h
  split at h
  · cases h
  · cases h
    exact ⟨rfl, rfl, rfl⟩

theorem googleHit_normalizes (hit r : JsVal) (h : googleHit hit = .ok r) :
    Normalizes (fun x => x.field "latitude") (fun x => x.field "longitude")
      "Google Maps" hit r := by
  rw [googleHit_eq] at h
  split at h
  · cases h
  · cases h
    exact ⟨rfl, rfl, rfl⟩

theorem mapboxHit_normalizes (hit r : JsVal) (h : mapboxHit hit = .ok r) :
    Normalizes (fun x => (x.field "center").item 1) (fun x => (x.field "center").item 0)
      "Mapbox" hit r := by
  rw [mapboxHit_eq] at h
  split at h
  · cases h
  · split at h
    · cases h
    · split at h
      · cases h
      · cases h
        exact ⟨rfl, rfl, rfl⟩

theorem hereHit_normalizes (hit r : JsVal) (h : hereHit hit = .ok r) :
    Normalizes (fun x => (x.field "position").field "lat")
      (fun x => (x.field "position").field "lng") "HERE" hit r := by
  rw [hereHit_eq] at h
  split at h
  · cases h
  · split at h
    · cases h
    · cases h
      exact ⟨rfl, rfl, rfl⟩

/-- C7. When the upstream answers a forward request with the hits `hits` (each an object,
with its `center` resp. `position` present and, for `mapbox`, a context that folds),
`geocodeAddress` returns exactly one result per hit, in upstream order, whose `lat`/`lon`
are: `osm` the parsed floats of `lat`, `lon`; `google` `latitude`, `longitude`; `mapbox`
`center[1]`, `center[0]`; `here` `position.lat`, `position.lng`; and whose provider label
is `OpenStreetMap`, `Google Maps`, `Mapbox`, `HERE`. -/
theorem geocodeAddress_normalizes_hits (parseFloat : JsVal → JsVal) (env : Env)
    (up : Upstream) (address : String) (hits : List JsVal) :
    (up (.osmSearch address) = .ok (.arr hits) → (∀ hit ∈ hits, hit.isNullish = false) →
      ∃ rs, geocodeAddress parseFloat env up address (some "osm")
          = { requests := [.osmSearch address], result := .ok (.arr rs) } ∧
        rs.length = hits.length ∧
        List.Forall₂ (Normalizes (fun x => parseFloat (x.field "lat"))
          (fun x => parseFloat (x.field "lon")) "OpenStreetMap") hits rs) ∧
    (∀ key, env "GOOGLE_API_KEY" = some key → key ≠ "" →
      up (.googleGeocode key address) = .ok (.arr hits) →
      (∀ hit ∈ hits, hit.isNullish = false) →
      ∃ rs, geocodeAddress parseFloat env up address (some "google")
          = { requests := [.googleGeocode key address], result := .ok (.arr rs) } ∧
        rs.length = hits.length ∧
        List.Forall₂ (Normalizes (fun x => x.field "latitude")
          (fun x => x.field "longitude") "Google Maps") hits rs) ∧
    (∀ key payload, env "MAPBOX_API_KEY" = some key → key ≠ "" →
      up (.mapboxForward key address) = .ok payload →
      payload.getProp "features" = .ok (.arr hits) →
      (∀ hit ∈ hits, hit.isNullish = false ∧ (hit.field "center").isNullish = false ∧
        ∃ details, contextDetails (hit.field "context") = .ok details) →
      ∃ rs, geocodeAddress parseFloat env up address (some "mapbox")
          = { requests := [.mapboxForward key address], result := .ok (.arr rs) } ∧
        rs.length = hits.length ∧
        List.Forall₂ (Normalizes (fun x => (x.field "center").item 1)
          (fun x => (x.field "center").item 0) "Mapbox") hits rs) ∧
    (∀ key payload, env "HERE_API_KEY" = some key → key ≠ "" →
      up (.hereGeocode key address) = .ok payload →
      payload.getProp "items" = .ok (.arr hits) →
      (∀ hit ∈ hits, hit.isNullish = false ∧ (hit.field "position").isNullish = false) →
      ∃ rs, geocodeAddress parseFloat env up address (some "here")
          = { requests := [.hereGeocode key address], result := .ok (.arr rs) } ∧
        rs.length = hits.length ∧
        List.Forall₂ (Normalizes (fun x => (x.field "position").field "lat")
          (fun x => (x.field "position").field "lng") "HERE") hits rs) := by
  refine ⟨fun hup hshape => ?_, fun key hkey hne hup hshape => ?_,
    fun key payload hkey hne hup hpay hshape => ?_,
    fun key payload hkey hne hup hpay hshape => ?_⟩
  · obtain ⟨rs, hrs, hall⟩ := osm_hits parseFloat env up address hits hup hshape
    exact ⟨rs, hrs, hall.length_eq.symm,
      hall.imp fun hit r h => osmHit_normalizes parseFloat hit r h⟩
  · obtain ⟨rs, hrs, hall⟩ := google_hits parseFloat env up address key hits hkey hne hup hshape
    exact ⟨rs, hrs, hall.length_eq.symm, hall.imp fun hit r h => googleHit_normalizes hit r h⟩
  · obtain ⟨rs, hrs, hall⟩ :=
      mapbox_hits parseFloat env up address key payload hits hkey hne hup hpay hshape
    exact ⟨rs, hrs, hall.length_eq.symm, hall.imp fun hit r h => mapboxHit_normalizes hit r h⟩
  · obtain ⟨rs, hrs, hall⟩ :=
      here_hits parseFloat env up address key payload hits hkey hne hup hpay hshape
    exact ⟨rs, hrs, hall.length_eq.symm, hall.imp fun hit r h => hereHit_normalizes hit r h⟩

theorem geocodeAddress_normalizes_hits_witness :
    (parisUpstream (.osmSearch "Paris") = .ok (.arr parisOsmHits) ∧
      parisUpstream (.googleGeocode "g-key" "Paris") = .ok (.arr parisGoogleHits) ∧
      parisUpstream (.mapboxForward "m-key" "Paris")
        = .ok (.obj [("features", .arr parisMapboxHits)]) ∧
      parisUpstream (.hereGeocode "h-key" "Paris")
        = .ok (.obj [("items", .arr parisHereHits)])) ∧
    (∃ rs, geocodeAddress sampleParseFloat keyedEnv parisUpstream "Paris" (some "osm")
        = { requests := [.osmSearch "Paris"], result := .ok (.arr rs) } ∧
      rs.length = parisOsmHits.length ∧
      List.Forall₂ (Normalizes (fun x => sampleParseFloat (x.field "lat"))
        (fun x => sampleParseFloat (x.field "lon")) "OpenStreetMap") parisOsmHits rs) ∧
    (∃ rs, geocodeAddress sampleParseFloat keyedEnv parisUpstream "Paris" (some "google")
        = { requests := [.googleGeocode "g-key" "Paris"], result := .ok (.arr rs) } ∧
      rs.length = parisGoogleHits.length ∧
      List.Forall₂ (Normalizes (fun x => x.field "latitude")
        (fun x => x.field "longitude") "Google Maps") parisGoogleHits rs) ∧
    (∃ rs, geocodeAddress sampleParseFloat keyedEnv parisUpstream "Paris" (some "mapbox")
        = { requests := [.mapboxForward "m-key" "Paris"], result := .ok (.arr rs) } ∧
      rs.length = parisMapboxHits.length ∧
      List.Forall₂ (Normalizes (fun x => (x.field "center").item 1)
        (fun x => (x.field "center").item 0) "Mapbox") parisMapboxHits rs) ∧
    (∃ rs, geocodeAddress sampleParseFloat keyedEnv parisUpstream "Paris" (some "here")
        = { requests := [.hereGeocode "h-key" "Paris"], result := .ok (.arr rs) } ∧
      rs.length = parisHereHits.length ∧
      List.Forall₂ (Normalizes (fun x => (x.field "position").field "lat")
        (fun x => (x.field "position").field "lng") "HERE") parisHereHits rs) :=
  ⟨⟨rfl, rfl, rfl, rfl⟩,
   (geocodeAddress_normalizes_hits sampleParseFloat keyedEnv parisUpstream "Paris"
      parisOsmHits).1 rfl (by
        intro hit hm
        simp only [parisOsmHits, List.mem_singleton] at hm
        subst hm
        rfl),
   (geocodeAddress_normalizes_hits sampleParseFloat keyedEnv parisUpstream "Paris"
      parisGoogleHits).2.1 "g-key" rfl (by decide) rfl (by
        intro hit hm
        simp only [parisGoogleHits, List.mem_singleton] at hm
        subst hm
        rfl),
   (geocodeAddress_normalizes_hits sampleParseFloat keyedEnv parisUpstream "Paris"
      parisMapboxHits).2.2.1 "m-key" _ rfl (by decide) rfl rfl (by
        intro hit hm
        simp only [parisMapboxHits, List.mem_singleton] at hm
        subst hm
        exact ⟨rfl, rfl, _, rfl⟩),
   (geocodeAddress_normalizes_hits sampleParseFloat keyedEnv parisUpstream "Paris"
      parisHereHits).2.2.2 "h-key" _ rfl (by decide) rfl rfl (by
        intro hit hm
        simp only [parisHereHits, List.mem_singleton] at hm
        subst hm
        exact ⟨rfl, rfl⟩)⟩

/-! ### Gateway: the fold of a Mapbox context array -/

theorem defineOwn_keys (fields : List (String × JsVal)) (k : String) (v : JsVal)
    (k1 : String) :
    k1 ∈ (JsVal.defineOwn fields k v).map Prod.fst ↔ k1 = k ∨ k1 ∈ fields.map Prod.fst := by
  induction fields with
  | nil => simp [JsVal.defineOwn]
  | cons p rest ih =>
    obtain ⟨k0, v0⟩ := p
    unfold JsVal.defineOwn
    by_cases h0 : k0 = k
    · subst h0; simp
    · simp only [h0, if_false, List.map_cons, List.mem_cons, ih]
      tauto

theorem defineOwn_nodup (fields : List (String × JsVal)) (k : String) (v : JsVal)
    (h : (fields.map Prod.fst).Nodup) :
    ((JsVal.defineOwn fields k v).map Prod.fst).Nodup := by
  induction fields with
  | nil => simp [JsVal.defineOwn]
  | cons p rest ih =>
    obtain ⟨k0, v0⟩ := p
    unfold JsVal.defineOwn
    simp only [List.map_cons, List.nodup_cons] at h
    by_cases h0 : k0 = k
    · subst h0
      simpa using h
    · simp only [h0, if_false, List.map_cons, List.nodup_cons, defineOwn_keys]
      refine ⟨?_, ih h.2⟩
      rintro (hc | hc)
      · first | exact h0 hc | exact hc.elim
      · exact h.1 hc

theorem defineOwn_mem (fields : List (String × JsVal)) (k : String) (v : JsVal)
    (h : (fields.map Prod.fst).Nodup) (k1 : String) (v1 : JsVal) :
    (k1, v1) ∈ JsVal.defineOwn fields k v
      ↔ (k1 = k ∧ v1 = v) ∨ (k1 ≠ k ∧ (k1, v1) ∈ fields) := by
  induction fields with
  | nil => simp [JsVal.defineOwn]
  | cons p rest ih =>
    obtain ⟨k0, v0⟩ := p
    simp only [List.map_cons, List.nodup_cons] at h
    unfold JsVal.defineOwn
    by_cases h0 : k0 = k
    · subst h0
      simp only [if_true, List.mem_cons, Prod.mk.injEq]
      constructor
      · rintro (⟨hk, hv⟩ | hm)
        · exact Or.inl ⟨hk, hv⟩
        · have hne : k1 ≠ k0 := fun e => h.1 (e ▸ List.mem_map_of_mem Prod.fst hm)
          exact Or.inr ⟨hne, Or.inr hm⟩
      · rintro (⟨hk, hv⟩ | ⟨hne, hk | hm⟩)
        · exact Or.inl ⟨hk, hv⟩
        · exact absurd hk.1 hne
        · exact Or.inr hm
    · simp only [h0, if_false, List.mem_cons, Prod.mk.injEq, ih h.2]
      constructor
      · rintro (⟨hk, hv⟩ | ⟨hk, hv⟩ | ⟨hne, hm⟩)
        · exact Or.inr ⟨fun e => h0 (hk ▸ e), Or.inl ⟨hk, hv⟩⟩
        · exact Or.inl ⟨hk, hv⟩
        · exact Or.inr ⟨hne, Or.inr hm⟩
      · rintro (⟨hk, hv⟩ | ⟨hne, ⟨hk, hv⟩ | hm⟩)
        · exact Or.inr (Or.inl ⟨hk, hv⟩)
        · exact Or.inl ⟨hk, hv⟩
        · exact Or.inr (Or.inr ⟨hne, hm⟩)

theorem setProp_proto (fields : List (String × JsVal)) (v : JsVal)
    (h : "__proto__" ∉ fields.map Prod.fst) : JsVal.setProp fields "__proto__" v = fields := by
  unfold JsVal.setProp
  rw [if_pos ⟨rfl, h⟩]

theorem setProp_other (fields : List (String × JsVal)) (k : String) (v : JsVal)
    (h : k ≠ "__proto__") : JsVal.setProp fields k v = JsVal.defineOwn fields k v := by
  unfold JsVal.setProp
  rw [if_neg fun hc => h hc.1]

theorem takeWhile_append_stop {α : Type} (p : α → Bool) (xs : List α) (y : α) (ys : List α)
    (hx : ∀ x ∈ xs, p x = true) (hy : p y = false) : (xs ++ y :: ys).takeWhile p = xs := by
  induction xs with
  | nil => simp [List.takeWhile, hy]
  | cons x xs ih =>
    rw [List.cons_append, List.takeWhile_cons_of_pos (hx x (List.mem_cons_self _ _)),
      ih fun z hz => hx z (List.mem_cons_of_mem _ hz)]

theorem takeWhile_all {α : Type} (p : α → Bool) (xs : List α)
    (hx : ∀ x ∈ xs, p x = true) : xs.takeWhile p = xs := by
  induction xs with
  | nil => rfl
  | cons x xs ih =>
    rw [List.takeWhile_cons_of_pos (hx x (List.mem_cons_self _ _)),
      ih fun z hz => hx z (List.mem_cons_of_mem _ hz)]

theorem idPrefix_splitHead (s : String) : IdPrefix s (splitHead s) := by
  have hsplit := List.takeWhile_append_dropWhile (fun c => c != '.') s.data
  refine ⟨?_, ?_⟩
  · intro hmem
    have := List.mem_takeWhile_imp hmem
    simp at this
  · cases hd : s.data.dropWhile (fun c => c != '.') with
    | nil =>
      left
      rw [hd, List.append_nil] at hsplit
      show s = String.mk (s.data.takeWhile fun c => c != '.')
      rw [hsplit]
    | cons y ys =>
      right
      have hy : (y != '.') = false := by
        have := List.head_dropWhile_not (fun c => c != '.') s.data (by rw [hd]; simp)
        simpa [hd] using this
      have hyd : y = '.' := by simpa using hy
      refine ⟨String.mk ys, ?_⟩
      apply String.ext
      rw [String.data_append, String.data_append, ← hsplit, hd, hyd]
      simp [splitHead]

theorem idPrefix_unique (s k : String) (h : IdPrefix s k) : k = splitHead s := by
  obtain ⟨hdot, hs | ⟨rest, hs⟩⟩ := h
  · subst hs
    show s = String.mk (s.data.takeWhile fun c => c != '.')
    rw [takeWhile_all _ _ fun x hx => by
      have : x ≠ '.' := fun e => hdot (e ▸ hx)
      simpa using this]
  · show k = String.mk (s.data.takeWhile fun c => c != '.')
    have hdata : s.data = k.data ++ '.' :: rest.data := by
      rw [hs, String.data_append, String.data_append]
      simp
    rw [hdata, takeWhile_append_stop _ _ _ _ (fun x hx => by
      have : x ≠ '.' := fun e => hdot (e ▸ hx)
      simpa using this) (by simp)]

theorem contributes_iff (c : JsVal) (s k : String) (hs : c.field "id" = .str s) :
    Contributes c k ↔ k = splitHead s := by
  constructor
  · rintro ⟨id, hid, hp⟩
    rw [hs] at hid
    cases hid
    exact idPrefix_unique s k hp
  · intro hk
    subst hk
    exact ⟨s, hs, idPrefix_splitHead s⟩

theorem isNullish_of_field_str (c : JsVal) (k s : String) (h : c.field k = .str s) :
    c.isNullish = false := by
  cases c <;> first | rfl | cases h

theorem contextStep_ok (acc : List (String × JsVal)) (c : JsVal) (s : String)
    (hs : c.field "id" = .str s) :
    contextStep acc c = .ok (JsVal.setProp acc (splitHead s) (c.field "text")) := by
  rw [contextStep_eq, isNullish_of_field_str c "id" s hs, hs]
  rfl

theorem contextStep_ok_id (acc next : List (String × JsVal)) (c : JsVal)
    (h : contextStep acc c = .ok next) : ∃ s, c.field "id" = .str s := by
  rw [contextStep_eq] at h
  split at h
  · cases h
  · split at h
    · exact ⟨_, by assumption⟩
    · cases h

theorem reduceContext_ok_ids (ctxs : List JsVal) :
    ∀ (acc fields : List (String × JsVal)), reduceContext acc ctxs = .ok fields →
      ∀ c ∈ ctxs, ∃ s, c.field "id" = .str s := by
  induction ctxs with
  | nil => intro _ _ _ c hc; cases hc
  | cons c rest ih =>
    intro acc fields h d hd
    unfold reduceContext at h
    cases hstep : contextStep acc c with
    | error e => rw [hstep] at h; cases h
    | ok next =>
      rw [hstep] at h
      rcases List.mem_cons.mp hd with rfl | hd
      · exact contextStep_ok_id acc next d hstep
      · exact ih next fields h d hd

theorem reduceContext_spec (ctxs : List JsVal) :
    ∀ (acc : List (String × JsVal)), (∀ c ∈ ctxs, ∃ s, c.field "id" = .str s) →
      "__proto__" ∉ acc.map Prod.fst → (acc.map Prod.fst).Nodup →
      ∃ fields, reduceContext acc ctxs = .ok fields ∧ (fields.map Prod.fst).Nodup ∧
        "__proto__" ∉ fields.map Prod.fst ∧
        ∀ k v, (k, v) ∈ fields ↔
          (k ≠ "__proto__" ∧ ∃ front c back, ctxs = front ++ c :: back ∧ Contributes c k ∧
            (∀ d ∈ back, ¬ Contributes d k) ∧ v = c.field "text") ∨
          ((k, v) ∈ acc ∧ ∀ d ∈ ctxs, ¬ Contributes d k) := by
  induction ctxs with
  | nil =>
    intro acc _ hp hn
    refine ⟨acc, rfl, hn, hp, fun k v => ?_⟩
    constructor
    · intro hm
      exact Or.inr ⟨hm, fun d hd => by cases hd⟩
    · rintro (⟨_, front, c, back, hsplit, _⟩ | ⟨hm, _⟩)
      · exact absurd hsplit (by simp)
      · exact hm
  | cons c rest ih =>
    intro acc h hp hn
    obtain ⟨s, hs⟩ := h c (List.mem_cons_self c rest)
    have hstep := contextStep_ok acc c s hs
    have hcon : ∀ k, Contributes c k ↔ k = splitHead s := fun k => contributes_iff c s k hs
    have hrest : ∀ d ∈ rest, ∃ s, d.field "id" = .str s :=
      fun d hd => h d (List.mem_cons_of_mem c hd)
    have hnext : "__proto__" ∉ (JsVal.setProp acc (splitHead s) (c.field "text")).map Prod.fst ∧
        ((JsVal.setProp acc (splitHead s) (c.field "text")).map Prod.fst).Nodup := by
      by_cases hk : splitHead s = "__proto__"
      · rw [hk, setProp_proto acc _ hp]
        exact ⟨hp, hn⟩
      · rw [setProp_other acc _ _ hk]
        refine ⟨fun hm => ?_, defineOwn_nodup acc _ _ hn⟩
        rcases (defineOwn_keys acc _ _ _).mp hm with he | hm
        · exact hk he.symm
        · exact hp hm
    have hmem : ∀ k v, (k, v) ∈ JsVal.setProp acc (splitHead s) (c.field "text") ↔
        (k ≠ "__proto__" ∧ k = splitHead s ∧ v = c.field "text") ∨
        (k ≠ splitHead s ∧ (k, v) ∈ acc) := by
      intro k v
      by_cases hk : splitHead s = "__proto__"
      · rw [hk, setProp_proto acc _ hp]
        constructor
        · intro hm
          refine Or.inr ⟨fun e => hp ?_, hm⟩
          exact e ▸ List.mem_map_of_mem Prod.fst hm
        · rintro (⟨hne, he, _⟩ | ⟨_, hm⟩)
          · exact absurd he hne
          · exact hm
      · rw [setProp_other acc _ _ hk, defineOwn_mem acc _ _ hn]
        constructor
        · rintro (⟨he, hv⟩ | hr)
          · exact Or.inl ⟨fun e => hk (he ▸ e), he, hv⟩
          · exact Or.inr hr
        · rintro (⟨_, he, hv⟩ | hr)
          · exact Or.inl ⟨he, hv⟩
          · exact Or.inr hr
    obtain ⟨fields, hred, hfn, hfp, hfm⟩ :=
      ih (JsVal.setProp acc (splitHead s) (c.field "text")) hrest hnext.1 hnext.2
    refine ⟨fields, ?_, hfn, hfp, fun k v => ?_⟩
    · unfold reduceContext
      rw [hstep]
      exact hred
    · rw [hfm k v, hmem k v]
      constructor
      · rintro (⟨hne, front, d, back, hsplit, hd, hback, hv⟩ | ⟨hin | ⟨hne, hin⟩, hnone⟩)
        · exact Or.inl ⟨hne, c :: front, d, back, by rw [hsplit]; rfl, hd, hback, hv⟩
        · exact Or.inl ⟨hin.1, [], c, rest, rfl, (hcon k).mpr hin.2.1, hnone, hin.2.2⟩
        · refine Or.inr ⟨hin, fun d hd => ?_⟩
          rcases List.mem_cons.mp hd with rfl | hd
          · exact fun hc => hne ((hcon k).mp hc)
          · exact hnone d hd
      · rintro (⟨hne, front, d, back, hsplit, hd, hback, hv⟩ | ⟨hin, hnone⟩)
        · cases front with
          | nil =>
            simp only [List.nil_append, List.cons.injEq] at hsplit
            obtain ⟨hcd, hrb⟩ := hsplit
            subst hcd
            subst hrb
            exact Or.inr ⟨Or.inl ⟨hne, (hcon k).mp hd, hv⟩, hback⟩
          | cons f front =>
            simp only [List.cons_append, List.cons.injEq] at hsplit
            exact Or.inl ⟨hne, front, d, back, hsplit.2, hd, hback, hv⟩
        · have hck : k ≠ splitHead s :=
            fun e => hnone c (List.mem_cons_self c rest) ((hcon k).mpr e)
          exact Or.inr ⟨Or.inr ⟨hck, hin⟩,
            fun d hd => hnone d (List.mem_cons_of_mem c hd)⟩

theorem reduceContext_folds (ctxs : List JsVal)
    (h : ∀ c ∈ ctxs, ∃ s, c.field "id" = .str s) :
    ∃ fields, reduceContext [] ctxs = .ok fields ∧ FoldsContext ctxs fields := by
  obtain ⟨fields, hred, hn, _, hm⟩ := reduceContext_spec ctxs [] h (by simp) (by simp)
  refine ⟨fields, hred, hn, fun k v => ?_⟩
  rw [hm k v]
  constructor
  · rintro (hl | ⟨hin, _⟩)
    · exact hl
    · cases hin
  · exact Or.inl

theorem foldsContext_keys (ctxs : List JsVal) (fields : List (String × JsVal))
    (h : FoldsContext ctxs fields) (k : String) :
    k ∈ fields.map Prod.fst ↔ k ≠ "__proto__" ∧ ∃ c ∈ ctxs, Contributes c k := by
  constructor
  · intro hk
    obtain ⟨e, he, hke⟩ := List.mem_map.mp hk
    obtain ⟨k0, v⟩ := e
    simp only at hke
    subst hke
    obtain ⟨hne, front, c, back, hsplit, hc, _, _⟩ := (h.2 k0 v).mp he
    exact ⟨hne, c, by rw [hsplit]; simp, hc⟩
  · rintro ⟨hne, c, hc, hcon⟩
    have hlast : ∀ (l : List JsVal), (∃ c ∈ l, Contributes c k) →
        ∃ front c back, l = front ++ c :: back ∧ Contributes c k ∧
          ∀ d ∈ back, ¬ Contributes d k := by
      intro l
      induction l with
      | nil => rintro ⟨c, hc, _⟩; cases hc
      | cons x xs ih =>
        rintro ⟨c, hc, hcon⟩
        by_cases hxs : ∃ d ∈ xs, Contributes d k
        · obtain ⟨front, d, back, hsplit, hd, hback⟩ := ih hxs
          exact ⟨x :: front, d, back, by rw [hsplit]; rfl, hd, hback⟩
        · rcases List.mem_cons.mp hc with rfl | hc
          · exact ⟨[], c, xs, rfl, hcon, fun d hd hdk => hxs ⟨d, hd, hdk⟩⟩
          · exact absurd ⟨c, hc, hcon⟩ hxs
    obtain ⟨front, d, back, hsplit, hd, hback⟩ := hlast ctxs ⟨c, hc, hcon⟩
    have hmem := (h.2 k (d.field "text")).mpr ⟨hne, front, d, back, hsplit, hd, hback, rfl⟩
    exact List.mem_map_of_mem Prod.fst hmem

theorem foldsContext_nil (fields : List (String × JsVal)) (h : FoldsContext [] fields) :
    fields = [] := by
  cases fields with
  | nil => rfl
  | cons e es =>
    obtain ⟨k, v⟩ := e
    obtain ⟨_, front, c, back, hsplit, _⟩ := (h.2 k v).mp (List.mem_cons_self _ _)
    exact absurd hsplit (by simp)

theorem isNullish_of_field_ne (c : JsVal) (k : String) (h : c.field k ≠ .undefined) :
    c.isNullish = false := by
  cases c <;> first | rfl | exact absurd rfl h

theorem contextDetails_arr (ctxs : List JsVal) (fields : List (String × JsVal))
    (h : reduceContext [] ctxs = .ok fields) :
    contextDetails (.arr ctxs) = .ok (.obj fields) := by
  unfold contextDetails
  simp only [h]

/-- C8 (as stated, at a context element whose id-prefix is `__proto__`). The fold of the
one-element context array `[{ id: '__proto__.1', text: 'x' }]` leaves the empty mapping:
the element contributes the prefix `__proto__`, and that prefix is no key of `details`. -/
theorem proto_prefix_counterexample :
    contextDetails (.arr protoContext) = .ok (.obj []) ∧
    (∃ c ∈ protoContext, Contributes c "__proto__") ∧
    ¬ ∃ fields, contextDetails (.arr protoContext) = .ok (.obj fields) ∧
        "__proto__" ∈ fields.map Prod.fst := by
  refine ⟨rfl, ⟨_, List.mem_cons_self _ _, "__proto__.1", rfl, by decide,
    Or.inr ⟨"1", rfl⟩⟩, ?_⟩
  rintro ⟨fields, h, hk⟩
  have hf : fields = [] := by
    have h2 : (Except.ok (JsVal.obj []) : Except JsError JsVal) = .ok (.obj fields) := h
    cases h2
    rfl
  subst hf
  cases hk

/-- C8 (amended). For a Mapbox feature with a context array (of elements with a string
`id`), the `details` of the result, in `geocodeWithMapbox` and in
`reverseGeocodeWithMapbox`, is the mapping got by folding the array left to right, each
element putting its `text` under the part of its `id` before the first dot, a later element
overwriting an earlier one, the name `__proto__` never becoming a key: a key holds the
`text` of the last element that contributes it, each key is held once, and the keys are
exactly the id-prefixes of the context elements other than `__proto__`. -/
theorem mapbox_details_fold (ctxs : List JsVal)
    (h : ∀ c ∈ ctxs, ∃ s, c.field "id" = .str s) :
    ∃ fields, contextDetails (.arr ctxs) = .ok (.obj fields) ∧
      FoldsContext ctxs fields ∧
      (∀ k, k ∈ fields.map Prod.fst ↔ k ≠ "__proto__" ∧ ∃ c ∈ ctxs, Contributes c k) ∧
      (∀ feature, feature.field "context" = .arr ctxs →
        (feature.field "center").isNullish = false →
        ∃ r, mapboxHit feature = .ok r ∧ r.field "details" = .obj fields) ∧
      (∀ (env : Env) (up : Upstream) (lat lon : Rat) (key : String)
        (payload features feature : JsVal),
        env "MAPBOX_API_KEY" = some key → key ≠ "" →
        up (.mapboxReverse key lat lon) = .ok payload →
        payload.getProp "features" = .ok features →
        features.getIndex 0 = .ok feature →
        feature.field "context" = .arr ctxs →
        ∃ r, reverseGeocodeWithMapbox env up lat lon
            = { requests := [.mapboxReverse key lat lon], result := .ok r } ∧
          r.field "details" = .obj fields) := by
  obtain ⟨fields, hred, hfold⟩ := reduceContext_folds ctxs h
  have hdet := contextDetails_arr ctxs fields hred
  refine ⟨fields, hdet, hfold, foldsContext_keys ctxs fields hfold, ?_, ?_⟩
  · intro feature hctx hcenter
    have hnn : feature.isNullish = false :=
      isNullish_of_field_ne feature "context" (by rw [hctx]; exact fun e => by cases e)
    refine ⟨.obj [("lat", (feature.field "center").item 1),
      ("lon", (feature.field "center").item 0), ("address", feature.field "place_name"),
      ("details", .obj fields), ("provider", .str "Mapbox")], ?_, rfl⟩
    rw [mapboxHit_eq, hnn, hcenter, hctx, hdet]
    rfl
  · intro env up lat lon key payload features feature hkey hne hup hpay hidx hctx
    have hnn : feature.isNullish = false :=
      isNullish_of_field_ne feature "context" (by rw [hctx]; exact fun e => by cases e)
    refine ⟨.obj [("address", feature.field "place_name"), ("details", .obj fields),
      ("provider", .str "Mapbox")], ?_, rfl⟩
    rw [reverseGeocodeWithMapbox, withKey_present _ _ _ _ _ hkey hne, fetch_ok _ _ _ _ hup]
    simp only [hpay, hidx, getProp_ok feature _ hnn, hctx, hdet, bind, Except.bind, pure,
      Except.pure]

theorem mapbox_details_fold_witness :
    (∀ c ∈ parisContext, ∃ s, c.field "id" = .str s) ∧
    contextDetails (.arr parisContext)
      = .ok (.obj [("region", .str "Paris"), ("country", .str "France")]) ∧
    ∃ fields, contextDetails (.arr parisContext) = .ok (.obj fields) ∧
      FoldsContext parisContext fields ∧
      (∀ k, k ∈ fields.map Prod.fst ↔
        k ≠ "__proto__" ∧ ∃ c ∈ parisContext, Contributes c k) :=
  have hshape : ∀ c ∈ parisContext, ∃ s, c.field "id" = .str s := by
    intro c hc
    simp only [parisContext, List.mem_cons, List.mem_singleton, List.mem_nil_iff,
      or_false] at hc
    rcases hc with rfl | rfl
    · exact ⟨"region.9999", rfl⟩
    · exact ⟨"country.8781", rfl⟩
  match mapbox_details_fold parisContext hshape with
  | ⟨fields, h1, h2, h3, _⟩ => ⟨hshape, rfl, fields, h1, h2, h3⟩

/-! ### Gateway: the `details` of a result -/

theorem osmHit_details (parseFloat : JsVal → JsVal) (hit r : JsVal)
    (h : osmHit parseFloat hit = .ok r) : r.field "details" = hit.field "address" := by
  rw [osmHit_eq] at h
  split at h
  · cases h
  · cases h
    rfl

theorem googleHit_details (hit r : JsVal) (h : googleHit hit = .ok r) :
    r.field "details" = googleDetails hit := by
  rw [googleHit_eq] at h
  split at h
  · cases h
  · cases h
    rfl

theorem hereHit_details (hit r : JsVal) (h : hereHit hit = .ok r) :
    r.field "details" = hit.field "address" := by
  rw [hereHit_eq] at h
  split at h
  · cases h
  · split at h
    · cases h
    · cases h
      rfl

theorem mapboxHit_details (hit r : JsVal) (h : mapboxHit hit = .ok r) :
    MapboxDetails hit r := by
  rw [mapboxHit_eq] at h
  split at h
  · cases h
  · split at h
    · cases h
    · cases hc : contextDetails (hit.field "context") with
      | error e => simp only [hc] at h; cases h
      | ok d =>
        simp only [hc] at h
        cases h
        have hfield : (JsVal.obj [("lat", (hit.field "center").item 1),
            ("lon", (hit.field "center").item 0), ("address", hit.field "place_name"),
            ("details", d), ("provider", .str "Mapbox")]).field "details" = d := rfl
        rw [MapboxDetails, hfield]
        constructor
        · intro hn
          cases hctx : hit.field "context" with
          | undefined => rw [hctx] at hc; cases hc; rfl
          | null => rw [hctx] at hc; cases hc; rfl
          | bool b => rw [hctx] at hn; cases hn
          | num x => rw [hctx] at hn; cases hn
          | str x => rw [hctx] at hn; cases hn
          | arr x => rw [hctx] at hn; cases hn
          | obj x => rw [hctx] at hn; cases hn
        · intro ctxs hctx
          rw [hctx] at hc
          unfold contextDetails at hc
          cases hred : reduceContext [] ctxs with
          | error e => simp only [hred] at hc; cases hc
          | ok fields =>
            simp only [hred] at hc
            cases hc
            have hids := reduceContext_ok_ids ctxs [] fields hred
            obtain ⟨fields1, hred1, hfold⟩ := reduceContext_folds ctxs hids
            rw [hred] at hred1
            cases hred1
            refine ⟨fields, rfl, hfold, fun hnil => ?_⟩
            subst hnil
            exact foldsContext_nil fields hfold

/-- C9 (as stated, at a Mapbox feature without a context array). The result that
`geocodeAddress` returns carries `undefined` as its `details`, which is no mapping, in
particular not the empty mapping. -/
theorem details_absent_counterexample :
    (geocodeAddress sampleParseFloat keyedEnv bareUpstream "Paris" (some "mapbox")).result
      = .ok (.arr [bareMapboxResult]) ∧
    bareMapboxResult.field "details" = .undefined ∧
    ¬ ∃ fields, bareMapboxResult.field "details" = .obj fields := by
  refine ⟨rfl, rfl, ?_⟩
  rintro ⟨fields, h⟩
  cases h

/-- C9 (amended). Every result returned by `geocodeAddress` carries a `details` field
that follows what the provider supplied: for `osm` and `here` it is the hit's `address`
value as it is (`undefined` when the hit has none); for `google` it is always the record of
the seven named fields; for `mapbox` it is `undefined` when the feature has no context,
and when the context is an array it is the fold of the array: each key holds the `text` of
the last element whose `id` has that key before its first dot, the name `__proto__` being
no key, and the mapping is empty for the empty array. -/
theorem details_follow_components (parseFloat : JsVal → JsVal) (env : Env)
    (up : Upstream) (address : String) (hits : List JsVal) :
    (up (.osmSearch address) = .ok (.arr hits) → (∀ hit ∈ hits, hit.isNullish = false) →
      ∃ rs, geocodeAddress parseFloat env up address (some "osm")
          = { requests := [.osmSearch address], result := .ok (.arr rs) } ∧
        List.Forall₂ (fun hit r => r.field "details" = hit.field "address") hits rs) ∧
    (∀ key, env "GOOGLE_API_KEY" = some key → key ≠ "" →
      up (.googleGeocode key address) = .ok (.arr hits) →
      (∀ hit ∈ hits, hit.isNullish = false) →
      ∃ rs, geocodeAddress parseFloat env up address (some "google")
          = { requests := [.googleGeocode key address], result := .ok (.arr rs) } ∧
        List.Forall₂ (fun hit r => r.field "details" = googleDetails hit) hits rs) ∧
    (∀ key payload, env "MAPBOX_API_KEY" = some key → key ≠ "" →
      up (.mapboxForward key address) = .ok payload →
      payload.getProp "features" = .ok (.arr hits) →
      (∀ hit ∈ hits, hit.isNullish = false ∧ (hit.field "center").isNullish = false ∧
        ∃ details, contextDetails (hit.field "context") = .ok details) →
      ∃ rs, geocodeAddress parseFloat env up address (some "mapbox")
          = { requests := [.mapboxForward key address], result := .ok (.arr rs) } ∧
        List.Forall₂ MapboxDetails hits rs) ∧
    (∀ key payload, env "HERE_API_KEY" = some key → key ≠ "" →
      up (.hereGeocode key address) = .ok payload →
      payload.getProp "items" = .ok (.arr hits) →
      (∀ hit ∈ hits, hit.isNullish = false ∧ (hit.field "position").isNullish = false) →
      ∃ rs, geocodeAddress parseFloat env up address (some "here")
          = { requests := [.hereGeocode key address], result := .ok (.arr rs) } ∧
        List.Forall₂ (fun hit r => r.field "details" = hit.field "address") hits rs) := by
  refine ⟨fun hup hshape => ?_, fun key hkey hne hup hshape => ?_,
    fun key payload hkey hne hup hpay hshape => ?_,
    fun key payload hkey hne hup hpay hshape => ?_⟩
  · obtain ⟨rs, hrs, hall⟩ := osm_hits parseFloat env up address hits hup hshape
    exact ⟨rs, hrs, hall.imp fun hit r h => osmHit_details parseFloat hit r h⟩
  · obtain ⟨rs, hrs, hall⟩ := google_hits parseFloat env up address key hits hkey hne hup hshape
    exact ⟨rs, hrs, hall.imp fun hit r h => googleHit_details hit r h⟩
  · obtain ⟨rs, hrs, hall⟩ :=
      mapbox_hits parseFloat env up address key payload hits hkey hne hup hpay hshape
    exact ⟨rs, hrs, hall.imp fun hit r h => mapboxHit_details hit r h⟩
  · obtain ⟨rs, hrs, hall⟩ :=
      here_hits parseFloat env up address key payload hits hkey hne hup hpay hshape
    exact ⟨rs, hrs, hall.imp fun hit r h => hereHit_details hit r h⟩

theorem details_follow_components_witness :
    (bareUpstream (.osmSearch "Paris") = .ok (.arr bareOsmHits) ∧
      (∀ hit ∈ bareOsmHits, hit.field "address" = .undefined) ∧
      parisUpstream (.googleGeocode "g-key" "Paris") = .ok (.arr parisGoogleHits) ∧
      bareUpstream (.mapboxForward "m-key" "Paris")
        = .ok (.obj [("features", .arr bareMapboxHits)]) ∧
      (∀ hit ∈ bareMapboxHits, (hit.field "context").isNullish = true) ∧
      bareUpstream (.hereGeocode "h-key" "Paris") = .ok (.obj [("items", .arr bareHereHits)]) ∧
      (∀ hit ∈ bareHereHits, hit.field "address" = .undefined)) ∧
    (∃ rs, geocodeAddress sampleParseFloat keyedEnv bareUpstream "Paris" (some "osm")
        = { requests := [.osmSearch "Paris"], result := .ok (.arr rs) } ∧
      List.Forall₂ (fun hit r => r.field "details" = hit.field "address") bareOsmHits rs) ∧
    (∃ rs, geocodeAddress sampleParseFloat keyedEnv parisUpstream "Paris" (some "google")
        = { requests := [.googleGeocode "g-key" "Paris"], result := .ok (.arr rs) } ∧
      List.Forall₂ (fun hit r => r.field "details" = googleDetails hit) parisGoogleHits rs) ∧
    (∃ rs, geocodeAddress sampleParseFloat keyedEnv bareUpstream "Paris" (some "mapbox")
        = { requests := [.mapboxForward "m-key" "Paris"], result := .ok (.arr rs) } ∧
      List.Forall₂ MapboxDetails bareMapboxHits rs) ∧
    (∃ rs, geocodeAddress sampleParseFloat keyedEnv bareUpstream "Paris" (some "here")
        = { requests := [.hereGeocode "h-key" "Paris"], result := .ok (.arr rs) } ∧
      List.Forall₂ (fun hit r => r.field "details" = hit.field "address") bareHereHits rs) ∧
    (∃ rs, geocodeAddress sampleParseFloat keyedEnv parisUpstream "Paris" (some "mapbox")
        = { requests := [.mapboxForward "m-key" "Paris"], result := .ok (.arr rs) } ∧
      List.Forall₂ MapboxDetails parisMapboxHits rs) :=
  ⟨⟨rfl, by simp [bareOsmHits, JsVal.field, List.lookup], rfl, rfl,
      by simp [bareMapboxHits, JsVal.field, List.lookup, JsVal.isNullish], rfl,
      by simp [bareHereHits, JsVal.field, List.lookup]⟩,
   (details_follow_components sampleParseFloat keyedEnv bareUpstream "Paris" bareOsmHits).1
      rfl (by
        intro hit hm
        simp only [bareOsmHits, List.mem_singleton] at hm
        subst hm
        rfl),
   (details_follow_components sampleParseFloat keyedEnv parisUpstream "Paris"
      parisGoogleHits).2.1 "g-key" rfl (by decide) rfl (by
        intro hit hm
        simp only [parisGoogleHits, List.mem_singleton] at hm
        subst hm
        rfl),
   (details_follow_components sampleParseFloat keyedEnv bareUpstream "Paris"
      bareMapboxHits).2.2.1 "m-key" _ rfl (by decide) rfl rfl (by
        intro hit hm
        simp only [bareMapboxHits, List.mem_singleton] at hm
        subst hm
        exact ⟨rfl, rfl, _, rfl⟩),
   (details_follow_components sampleParseFloat keyedEnv bareUpstream "Paris"
      bareHereHits).2.2.2 "h-key" _ rfl (by decide) rfl rfl (by
        intro hit hm
        simp only [bareHereHits, List.mem_singleton] at hm
        subst hm
        exact ⟨rfl, rfl⟩),
   (details_follow_components sampleParseFloat keyedEnv parisUpstream "Paris"
      parisMapboxHits).2.2.1 "m-key" _ rfl (by decide) rfl rfl (by
        intro hit hm
        simp only [parisMapboxHits, List.mem_singleton] at hm
        subst hm
        exact ⟨rfl, rfl, _, rfl⟩)⟩

end GeocodingService

/-! ### Configuration store: `loadConfig` -/

namespace ApiManager

theorem loadConfig_without_credentials_file (binding : RequireBinding) (m : ApiManager)
    (h : m.envFile = none) :
    (m.configFile = .missing ∨ m.configFile = .corrupt →
      loadConfig binding m
        = .ok { m with config := getDefaultConfig, configFile := .holds getDefaultConfig }) ∧
    (∀ value, m.configFile = .holds value →
      loadConfig binding m = .ok { m with config := value }) := by
  have henv : loadEnv binding m = .ok m := by
    unfold loadEnv
    rw [h]
  constructor
  · intro hfile
    unfold loadConfig
    rw [henv]
    rcases hfile with hfile | hfile <;> simp only [hfile] <;> rfl
  · intro value hfile
    unfold loadConfig
    rw [henv]
    simp only [hfile]

/-- C10 (the code when a credentials file exists). In the ECMAScript module that
`apiManager.js` is, `loadConfig` run with a `.env` file present throws a `ReferenceError`
at `require` before it looks at the config file: whether that file is missing, corrupt or
parseable, no configuration is set and nothing is written. -/
theorem loadConfig_with_credentials_file :
    loadConfig .unbound (freshManager .missing (some "GOOGLE_API_KEY=abc"))
      = .error (.referenceError "require") ∧
    loadConfig .unbound (freshManager .corrupt (some "GOOGLE_API_KEY=abc"))
      = .error (.referenceError "require") ∧
    loadConfig .unbound (freshManager (.holds getDefaultConfig) (some "GOOGLE_API_KEY=abc"))
      = .error (.referenceError "require") :=
  ⟨rfl, rfl, rfl⟩

end ApiManager

/-! ### Configuration store: `getActiveProviders` -/

namespace ApiManager

theorem filterKeys_eq_filter (p : String → Except JsError Bool) (q : String → Bool)
    (ks : List String) (h : ∀ k ∈ ks, p k = .ok (q k)) :
    JsVal.filterKeys p ks = .ok (ks.filter q) := by
  induction ks with
  | nil => rfl
  | cons k ks ih =>
    unfold JsVal.filterKeys
    rw [h k (List.mem_cons_self k ks), ih fun j hj => h j (List.mem_cons_of_mem k hj)]
    cases hq : q k <;> simp [List.filter, hq]

theorem lookup_of_mem_nodup (es : List (String × JsVal)) (h : (es.map Prod.fst).Nodup)
    (k : String) (v : JsVal) (hm : (k, v) ∈ es) : es.lookup k = some v := by
  induction es with
  | nil => cases hm
  | cons e es ih =>
    obtain ⟨k0, v0⟩ := e
    simp only [List.map_cons, List.nodup_cons] at h
    rcases List.mem_cons.mp hm with heq | hmem
    · cases heq
      simp [List.lookup]
    · have hne : k ≠ k0 := by
        intro hk
        exact h.1 (hk ▸ List.mem_map_of_mem Prod.fst hmem)
      have hb : (k == k0) = false := by simpa using hne
      simp only [List.lookup, hb]
      exact ih h.2 hmem

theorem filter_keys_by_lookup (es : List (String × JsVal)) (h : (es.map Prod.fst).Nodup)
    (q : JsVal → Bool) :
    (es.map Prod.fst).filter (fun k => q ((es.lookup k).getD .undefined))
      = (es.filter fun e => q e.2).map Prod.fst := by
  have key : ∀ (l : List (String × JsVal)), (∀ e ∈ l, e ∈ es) →
      (l.map Prod.fst).filter (fun k => q ((es.lookup k).getD .undefined))
        = (l.filter fun e => q e.2).map Prod.fst := by
    intro l
    induction l with
    | nil => intro _; rfl
    | cons e l ih =>
      intro hsub
      obtain ⟨k, v⟩ := e
      have hl := lookup_of_mem_nodup es h k v (hsub (k, v) (List.mem_cons_self _ l))
      have ih1 := ih fun e he => hsub e (List.mem_cons_of_mem _ he)
      simp only [List.map_cons, List.filter_cons, hl, Option.getD_some, ih1]
      cases q v <;> simp
  exact key es fun e he => he

theorem getActiveProviders_eq (m : ApiManager) (providers : JsVal)
    (es : List (String × JsVal))
    (h1 : m.config.getProp "providers" = .ok providers) (h2 : providers.entries = .ok es)
    (h3 : ∀ e ∈ es, e.2.isNullish = false) (h4 : (es.map Prod.fst).Nodup) :
    getActiveProviders m
      = .ok ((es.filter fun e => (e.2.field "active").truthy).map Prod.fst) := by
  unfold getActiveProviders
  rw [h1]
  simp only [h2]
  rw [← filter_keys_by_lookup es h4 fun v => (v.field "active").truthy]
  apply filterKeys_eq_filter
  intro k hk
  obtain ⟨e, he, hke⟩ := List.mem_map.mp hk
  obtain ⟨k0, v⟩ := e
  simp only at hke
  subst hke
  rw [lookup_of_mem_nodup es h4 k0 v he]
  simp only [Option.getD_some, JsVal.getProp, h3 (k0, v) he, Bool.false_eq_true, if_false]

theorem ownEntries_perm (fields : List (String × JsVal)) :
    (JsVal.ownEntries fields).Perm fields := by
  unfold JsVal.ownEntries
  have hnone : (fun e : String × JsVal => (JsVal.arrayIndex e.1).isNone)
      = fun e => !(JsVal.arrayIndex e.1).isSome := by
    funext e
    cases JsVal.arrayIndex e.1 <;> rfl
  rw [hnone]
  exact ((List.perm_insertionSort _ _).append_right _).trans
    (List.filter_append_perm (fun e : String × JsVal => (JsVal.arrayIndex e.1).isSome) fields)

theorem ownEntries_plain (fields : List (String × JsVal))
    (h : ∀ e ∈ fields, ¬ IntegerLike e.1) : JsVal.ownEntries fields = fields := by
  have hnot : ∀ e ∈ fields, (JsVal.arrayIndex e.1).isSome = false := by
    intro e he
    cases hs : (JsVal.arrayIndex e.1).isSome
    · rfl
    · exact absurd ((JsVal.arrayIndex_isSome_iff e.1).mp hs) (h e he)
  unfold JsVal.ownEntries
  have h1 : fields.filter (fun e => (JsVal.arrayIndex e.1).isSome) = [] := by
    rw [List.filter_eq_nil_iff]
    intro e he
    rw [hnot e he]
    exact Bool.false_ne_true
  have h2 : fields.filter (fun e => (JsVal.arrayIndex e.1).isNone) = fields := by
    rw [List.filter_eq_self]
    intro e he
    have := hnot e he
    cases hx : JsVal.arrayIndex e.1 with
    | none => rfl
    | some n => rw [hx] at this; cases this
  rw [h1, h2]
  rfl

theorem ownEntries_order (fields : List (String × JsVal))
    (hn : (fields.map Prod.fst).Nodup) (p q : String)
    (h : [p, q].Sublist ((JsVal.ownEntries fields).map Prod.fst)) :
    KeyBefore (fields.map Prod.fst) p q := by
  have hpq : p ≠ q := by
    have hnd : ((JsVal.ownEntries fields).map Prod.fst).Nodup :=
      ((ownEntries_perm fields).map Prod.fst).nodup_iff.mpr hn
    have := hnd.sublist h
    simpa using this
  unfold JsVal.ownEntries at h
  rw [List.map_append, List.sublist_append_iff] at h
  obtain ⟨l1, l2, hl, h1, h2⟩ := h
  have hsome : ∀ k ∈ ((fields.filter fun e => (JsVal.arrayIndex e.1).isSome).insertionSort
      (fun a b => (JsVal.arrayIndex a.1).getD 0 ≤ (JsVal.arrayIndex b.1).getD 0)).map Prod.fst,
      IntegerLike k := by
    intro k hk
    obtain ⟨e, he, hke⟩ := List.mem_map.mp hk
    have he2 := (List.perm_insertionSort _ _).mem_iff.mp he
    have := (List.mem_filter.mp he2).2
    rw [← hke]
    exact (JsVal.arrayIndex_isSome_iff e.1).mp this
  have hnone : ∀ k ∈ (fields.filter fun e => (JsVal.arrayIndex e.1).isNone).map Prod.fst,
      ¬ IntegerLike k := by
    intro k hk hint
    obtain ⟨e, he, hke⟩ := List.mem_map.mp hk
    have := (List.mem_filter.mp he).2
    rw [← hke] at hint
    rw [Option.isNone_iff_eq_none] at this
    have hs := (JsVal.arrayIndex_isSome_iff e.1).mpr hint
    rw [this] at hs
    cases hs
  match l1, l2, hl with
  | [], l2, hl =>
    simp only [List.nil_append] at hl
    subst hl
    right; right
    refine ⟨hnone p (h2.subset (by simp)), hnone q (h2.subset (by simp)), ?_⟩
    exact h2.trans ((List.filter_sublist fields).map Prod.fst)
  | [a], l2, hl =>
    simp only [List.singleton_append, List.cons.injEq] at hl
    obtain ⟨hpa, hq⟩ := hl
    subst hpa
    subst hq
    right; left
    exact ⟨hsome p (h1.subset (by simp)), hnone q (h2.subset (by simp))⟩
  | [a, b], l2, hl =>
    have hl2 : l2 = [] := by simpa using congrArg List.length hl
    subst hl2
    simp only [List.append_nil, List.cons.injEq, and_true] at hl
    obtain ⟨hpa, hqb⟩ := hl
    subst hpa
    subst hqb
    left
    obtain ⟨l', hl', hmap⟩ := List.sublist_map_iff.mp h1
    match l', hmap with
    | [x, y], hmap =>
      simp only [List.map_cons, List.map_nil, List.cons.injEq, and_true] at hmap
      obtain ⟨hx, hy⟩ := hmap
      haveI : IsTotal (String × JsVal)
          (fun a b => (JsVal.arrayIndex a.1).getD 0 ≤ (JsVal.arrayIndex b.1).getD 0) :=
        ⟨fun a b => Nat.le_total _ _⟩
      haveI : IsTrans (String × JsVal)
          (fun a b => (JsVal.arrayIndex a.1).getD 0 ≤ (JsVal.arrayIndex b.1).getD 0) :=
        ⟨fun a b c hab hbc => Nat.le_trans hab hbc⟩
      have hsorted := List.sorted_insertionSort
        (fun a b : String × JsVal =>
          (JsVal.arrayIndex a.1).getD 0 ≤ (JsVal.arrayIndex b.1).getD 0)
        (fields.filter fun e => (JsVal.arrayIndex e.1).isSome)
      have hpair := List.Pairwise.sublist hl' hsorted
      have hle : (JsVal.arrayIndex x.1).getD 0 ≤ (JsVal.arrayIndex y.1).getD 0 := by
        simpa using hpair
      obtain ⟨i, hi, hpi⟩ := hsome p (h1.subset (by simp))
      obtain ⟨j, hj, hqj⟩ := hsome q (h1.subset (by simp))
      rw [← hx, ← hy, (JsVal.arrayIndex_eq_some_iff p i).mpr ⟨hi, hpi⟩,
        (JsVal.arrayIndex_eq_some_iff q j).mpr ⟨hj, hqj⟩] at hle
      simp only [Option.getD_some] at hle
      have hij : i ≠ j := fun e => hpq (by rw [hpi, hqj, e])
      exact ⟨i, j, by omega, hj, hpi, hqj⟩
  | a :: b :: c :: l1, l2, hl =>
    have := congrArg List.length hl
    simp at this

/-- C11 (as stated, at providers with integer-like ids). For a configuration whose providers
are declared in the order `b`, `2`, `a`, `10`, `1`, all active but `10`,
`getActiveProviders` returns `1`, `2`, `b`, `a`: the ids whose flag is true, but not in the
order of their declaration, which is `b`, `2`, `a`, `1`. -/
theorem getActiveProviders_order_counterexample :
    getActiveProviders numberedManager = .ok ["1", "2", "b", "a"] ∧
    ((numberedConfig.field "providers").field "10").field "active" = .bool false ∧
    ¬ (["1", "2", "b", "a"] : List String).Sublist ["b", "2", "a", "10", "1"] :=
  ⟨rfl, rfl, by decide⟩

/-- C11 (amended). For a configuration whose `providers` object holds provider entries (none
of them `undefined`/`null`), `getActiveProviders` returns the provider ids whose `active`
flag is truthy, each once (with boolean flags: exactly the ids whose flag is `true`), in the
order in which the keys of `config.providers` are enumerated: integer-like ids first by
ascending value, then the other ids in the order of their declaration.  When no id is
integer-like, this is the order of declaration, and the result is a sublist of the declared
key list. -/
theorem getActiveProviders_filters_active (m : ApiManager)
    (fields : List (String × JsVal))
    (h1 : m.config.getProp "providers" = .ok (.obj fields))
    (h3 : ∀ e ∈ fields, e.2.isNullish = false) (h4 : (fields.map Prod.fst).Nodup) :
    ∃ active, getActiveProviders m = .ok active ∧ active.Nodup ∧
      (∀ p, p ∈ active ↔ ∃ v, (p, v) ∈ fields ∧ (v.field "active").truthy = true) ∧
      ((∀ e ∈ fields, ∃ b, e.2.field "active" = .bool b) →
        ∀ p, p ∈ active ↔ ∃ v, (p, v) ∈ fields ∧ v.field "active" = .bool true) ∧
      (∀ p q, [p, q].Sublist active → KeyBefore (fields.map Prod.fst) p q) ∧
      ((∀ e ∈ fields, ¬ IntegerLike e.1) →
        active = (fields.filter fun e => (e.2.field "active").truthy).map Prod.fst ∧
        active.Sublist (fields.map Prod.fst)) := by
  have hperm := ownEntries_perm fields
  have h3e : ∀ e ∈ JsVal.ownEntries fields, e.2.isNullish = false :=
    fun e he => h3 e (hperm.mem_iff.mp he)
  have h4e : ((JsVal.ownEntries fields).map Prod.fst).Nodup :=
    (hperm.map Prod.fst).nodup_iff.mpr h4
  have heq := getActiveProviders_eq m (.obj fields) (JsVal.ownEntries fields) h1 rfl h3e h4e
  have hmem : ∀ p, p ∈ ((JsVal.ownEntries fields).filter fun e =>
      (e.2.field "active").truthy).map Prod.fst
      ↔ ∃ v, (p, v) ∈ fields ∧ (v.field "active").truthy = true := by
    intro p
    simp only [List.mem_map, List.mem_filter]
    constructor
    · rintro ⟨e, ⟨he, ht⟩, hp⟩
      obtain ⟨k, v⟩ := e
      simp only at hp
      subst hp
      exact ⟨v, hperm.mem_iff.mp he, ht⟩
    · rintro ⟨v, he, ht⟩
      exact ⟨(p, v), ⟨hperm.mem_iff.mpr he, ht⟩, rfl⟩
  refine ⟨_, heq, ?_, hmem, ?_, ?_, ?_⟩
  · exact h4e.sublist ((List.filter_sublist _).map Prod.fst)
  · intro hbool p
    rw [hmem p]
    constructor
    · rintro ⟨v, he, ht⟩
      obtain ⟨b, hb⟩ := hbool (p, v) he
      simp only at hb
      rw [hb] at ht
      simp only [JsVal.truthy] at ht
      exact ⟨v, he, by rw [hb, ht]⟩
    · rintro ⟨v, he, hv⟩
      exact ⟨v, he, by simp only [hv, JsVal.truthy]⟩
  · intro p q hpq
    exact ownEntries_order fields h4 p q
      (hpq.trans ((List.filter_sublist _).map Prod.fst))
  · intro hplain
    rw [ownEntries_plain fields hplain]
    exact ⟨rfl, (List.filter_sublist fields).map Prod.fst⟩

theorem getActiveProviders_filters_active_witness :
    ((configWith (.str "osm") true false true []).getProp "providers"
        = .ok (.obj [("osm", osmEntry),
            ("google", .obj [("name", .str "Google Maps API"), ("requiresKey", .bool true),
              ("active", .bool true)]),
            ("mapbox", .obj [("name", .str "Mapbox API"), ("requiresKey", .bool true),
              ("active", .bool false)]),
            ("here", .obj [("name", .str "HERE API"), ("requiresKey", .bool true),
              ("active", .bool true)])])) ∧
    getActiveProviders
        { config := configWith (.str "osm") true false true [], configFile := .missing,
          envFile := none, env := emptyEnv } = .ok ["osm", "google", "here"] ∧
    ∃ active, getActiveProviders
        { config := configWith (.str "osm") true false true [], configFile := .missing,
          envFile := none, env := emptyEnv } = .ok active ∧ active.Nodup ∧
      (∀ p q, [p, q].Sublist active →
        KeyBefore ["osm", "google", "mapbox", "here"] p q) :=
  ⟨rfl, rfl,
   match getActiveProviders_filters_active
      { config := configWith (.str "osm") true false true [], configFile := .missing,
        envFile := none, env := emptyEnv } _ rfl
      (by
        intro e he
        simp only [List.mem_cons, List.mem_singleton, List.mem_nil_iff, or_false] at he
        rcases he with rfl | rfl | rfl | rfl <;> rfl)
      (by decide) with
   | ⟨active, h1, h2, _, _, h5, _⟩ => ⟨active, h1, h2, h5⟩⟩

/-! ### Configuration store: the `osm` entry -/

theorem getDefaultConfig_layout : DefaultLayout getDefaultConfig :=
  ⟨_, false, false, false, _, rfl⟩

theorem getActiveProviders_layout (m : ApiManager) (d : JsVal) (g mb h : Bool)
    (fs : List (String × JsVal)) (hc : m.config = configWith d g mb h fs) :
    getActiveProviders m
      = .ok ("osm" :: ((if g then ["google"] else []) ++ (if mb then ["mapbox"] else []) ++
          (if h then ["here"] else []))) := by
  unfold getActiveProviders
  rw [hc]
  cases g <;> cases mb <;> cases h <;> rfl

theorem setActive_layout (d : JsVal) (g mb h : Bool) (fs : List (String × JsVal))
    (b : Bool) :
    setActive (configWith d g mb h fs) "google" b = .ok (configWith d b mb h fs) ∧
    setActive (configWith d g mb h fs) "mapbox" b = .ok (configWith d g b h fs) ∧
    setActive (configWith d g mb h fs) "here" b = .ok (configWith d g mb b fs) :=
  ⟨rfl, rfl, rfl⟩

theorem setupProvider_osm (ask : String → SetupAnswer) (m : ApiManager) (d : JsVal)
    (g mb h : Bool) (fs : List (String × JsVal)) (hc : m.config = configWith d g mb h fs) :
    setupProvider ask m "osm" = .ok m := by
  obtain ⟨config, configFile, envFile, env⟩ := m
  simp only at hc
  subst hc
  rfl

theorem setupProvider_keyed (ask : String → SetupAnswer) (m : ApiManager) (d : JsVal)
    (g mb h : Bool) (fs : List (String × JsVal)) (hc : m.config = configWith d g mb h fs) :
    (setupProvider ask m "google" =
      if ((m.env (keyName "google")).getD "" ≠ "") ∧ (ask "google").updateKey = false then
        .ok m
      else if (ask "google").apiKey ≠ "" then
        .ok { setApiKey "google" (ask "google").apiKey m with
              config := configWith d (ask "google").activate mb h fs }
      else .ok m) ∧
    (setupProvider ask m "mapbox" =
      if ((m.env (keyName "mapbox")).getD "" ≠ "") ∧ (ask "mapbox").updateKey = false then
        .ok m
      else if (ask "mapbox").apiKey ≠ "" then
        .ok { setApiKey "mapbox" (ask "mapbox").apiKey m with
              config := configWith d g (ask "mapbox").activate h fs }
      else .ok m) ∧
    (setupProvider ask m "here" =
      if ((m.env (keyName "here")).getD "" ≠ "") ∧ (ask "here").updateKey = false then
        .ok m
      else if (ask "here").apiKey ≠ "" then
        .ok { setApiKey "here" (ask "here").apiKey m with
              config := configWith d g mb (ask "here").activate fs }
      else .ok m) := by
  obtain ⟨config, configFile, envFile, env⟩ := m
  simp only at hc
  subst hc
  exact ⟨rfl, rfl, rfl⟩

theorem setupProvider_layout (ask : String → SetupAnswer) (m : ApiManager)
    (hm : DefaultLayout m.config) (provider : String)
    (hp : provider ∈ ["osm", "google", "mapbox", "here"]) :
    ∃ next, setupProvider ask m provider = .ok next ∧ DefaultLayout next.config := by
  obtain ⟨d, g, mb, h, fs, hc⟩ := hm
  have keep : DefaultLayout m.config := ⟨d, g, mb, h, fs, hc⟩
  simp only [List.mem_cons, List.mem_singleton, List.mem_nil_iff, or_false] at hp
  rcases hp with rfl | rfl | rfl | rfl
  · exact ⟨m, setupProvider_osm ask m d g mb h fs hc, keep⟩
  · rw [(setupProvider_keyed ask m d g mb h fs hc).1]
    split
    · exact ⟨m, rfl, keep⟩
    · split
      · exact ⟨_, rfl, ⟨d, _, mb, h, fs, rfl⟩⟩
      · exact ⟨m, rfl, keep⟩
  · rw [(setupProvider_keyed ask m d g mb h fs hc).2.1]
    split
    · exact ⟨m, rfl, keep⟩
    · split
      · exact ⟨_, rfl, ⟨d, g, _, h, fs, rfl⟩⟩
      · exact ⟨m, rfl, keep⟩
  · rw [(setupProvider_keyed ask m d g mb h fs hc).2.2]
    split
    · exact ⟨m, rfl, keep⟩
    · split
      · exact ⟨_, rfl, ⟨d, g, mb, _, fs, rfl⟩⟩
      · exact ⟨m, rfl, keep⟩

theorem setupLoop_layout (ask : String → SetupAnswer) (providers : List String)
    (hp : ∀ p ∈ providers, p ∈ ["osm", "google", "mapbox", "here"]) (m : ApiManager)
    (hm : DefaultLayout m.config) :
    (setupLoop ask providers m).thrown = none ∧
      DefaultLayout (setupLoop ask providers m).state.config := by
  induction providers generalizing m with
  | nil => exact ⟨rfl, hm⟩
  | cons p rest ih =>
    obtain ⟨next, hnext, hlayout⟩ :=
      setupProvider_layout ask m hm p (hp p (List.mem_cons_self p rest))
    unfold setupLoop
    rw [hnext]
    exact ih (fun q hq => hp q (List.mem_cons_of_mem p hq)) next hlayout

theorem setupApiKeys_layout (ask : String → SetupAnswer) (m : ApiManager)
    (hm : DefaultLayout m.config) :
    (setupApiKeys ask m).thrown = none ∧ DefaultLayout (setupApiKeys ask m).state.config := by
  obtain ⟨d, g, mb, h, fs, hc⟩ := hm
  have hloop := setupLoop_layout ask ["osm", "google", "mapbox", "here"] (fun p hp => hp) m
    ⟨d, g, mb, h, fs, hc⟩
  have hkeys : setupApiKeys ask m =
      match setupLoop ask ["osm", "google", "mapbox", "here"] m with
      | { state := after, thrown := none } => { state := saveConfig after, thrown := none }
      | stopped => stopped := by
    unfold setupApiKeys
    rw [hc]
    rfl
  rw [hkeys]
  generalize setupLoop ask ["osm", "google", "mapbox", "here"] m = r at hloop
  obtain ⟨state, thrown⟩ := r
  obtain ⟨ht, hl⟩ := hloop
  simp only at ht hl
  subst ht
  exact ⟨rfl, hl⟩

end ApiManager

namespace PelakoorAdvanced

open ApiManager

theorem setDefaultProvider_layout (prompt : ListPrompt) (m : ApiManager)
    (hm : DefaultLayout m.config) :
    DefaultLayout (setDefaultProvider prompt m).state.config := by
  obtain ⟨d, g, mb, h, fs, hc⟩ := hm
  have keep : DefaultLayout m.config := ⟨d, g, mb, h, fs, hc⟩
  unfold setDefaultProvider
  split
  · exact keep
  · split
    · exact keep
    · split
      · exact keep
      · split
        · exact keep
        · rename_i newDefault _
          split
          · exact keep
          · rename_i config hassign
            have hcfg : config = configWith (.str newDefault) g mb h fs := by
              rw [hc] at hassign
              cases hassign
              rfl
            split <;> exact ⟨_, g, mb, h, fs, hcfg⟩

theorem applicationSettings_layout (newSettings : List String) (m : ApiManager)
    (hm : DefaultLayout m.config) :
    DefaultLayout (applicationSettings newSettings m).state.config := by
  obtain ⟨d, g, mb, h, fs, hc⟩ := hm
  have keep : DefaultLayout m.config := ⟨d, g, mb, h, fs, hc⟩
  unfold applicationSettings
  split
  · exact keep
  · rename_i features hfeatures
    have hf : features = .obj fs := by
      rw [hc] at hfeatures
      cases hfeatures
      rfl
    subst hf
    split
    · exact keep
    · split
      · exact keep
      · rename_i updated hupdated
        have hu : ∃ fs1, updated = .obj fs1 := by
          simp only [assignFeatures, JsVal.assign] at hupdated
          cases hupdated
          exact ⟨_, rfl⟩
        obtain ⟨fs1, rfl⟩ := hu
        split
        · exact keep
        · rename_i config hassign
          rw [hc] at hassign
          cases hassign
          exact ⟨d, g, mb, h, fs1, rfl⟩

theorem configStep_layout (m : ApiManager) (op : ConfigOp) (hm : DefaultLayout m.config) :
    DefaultLayout (configStep m op).config := by
  cases op with
  | setupApiKeys ask => exact (setupApiKeys_layout ask m hm).2
  | setDefaultProvider prompt => exact setDefaultProvider_layout prompt m hm
  | applicationSettings newSettings => exact applicationSettings_layout newSettings m hm

theorem configRun_layout (ops : List ConfigOp) (m : ApiManager)
    (hm : DefaultLayout m.config) : DefaultLayout (configRun m ops).config := by
  induction ops generalizing m with
  | nil => exact hm
  | cons op ops ih => exact ih (configStep m op) (configStep_layout m op hm)

theorem layout_osm (m : ApiManager) (hm : DefaultLayout m.config) :
    (m.config.field "providers").field "osm" = osmEntry ∧
    ∃ active, getActiveProviders m = .ok active ∧ "osm" ∈ active := by
  obtain ⟨d, g, mb, h, fs, hc⟩ := hm
  refine ⟨by rw [hc]; rfl, _, getActiveProviders_layout m d g mb h fs hc,
    List.mem_cons_self _ _⟩

/-- C12. In the default configuration `osm` has `requiresKey = false` and `active = true`
and `getActiveProviders` is exactly `[osm]`; `setupApiKeys`, `setDefaultProvider` and
`applicationSettings`, run on a configuration in the layout of the defaults, leave the
`osm` entry as it is, so in every state reached from the defaults by these operations the
`osm` entry is the default one and `getActiveProviders` returns a list that holds `osm`. -/
theorem osm_stays_active :
    ((getDefaultConfig.field "providers").field "osm" = osmEntry ∧
      osmEntry.field "requiresKey" = .bool false ∧ osmEntry.field "active" = .bool true) ∧
    (∀ m : ApiManager, m.config = getDefaultConfig → getActiveProviders m = .ok ["osm"]) ∧
    (∀ (m : ApiManager) (op : ConfigOp), DefaultLayout m.config →
      ((configStep m op).config.field "providers").field "osm"
        = (m.config.field "providers").field "osm") ∧
    (∀ (m : ApiManager) (ops : List ConfigOp), m.config = getDefaultConfig →
      ((configRun m ops).config.field "providers").field "osm" = osmEntry ∧
      ∃ active, getActiveProviders (configRun m ops) = .ok active ∧ "osm" ∈ active) := by
  refine ⟨⟨rfl, rfl, rfl⟩, ?_, ?_, ?_⟩
  · intro m hm
    exact getActiveProviders_layout m _ false false false _ hm
  · intro m op hm
    rw [(layout_osm _ (configStep_layout m op hm)).1, (layout_osm m hm).1]
  · intro m ops hm
    exact layout_osm _ (configRun_layout ops m (hm ▸ getDefaultConfig_layout))

theorem osm_stays_active_witness :
    defaultManager.config = getDefaultConfig ∧
    (((configRun defaultManager [.setupApiKeys eagerAnswers,
        .setDefaultProvider firstChoicePrompt, .applicationSettings ["showProgress"]]).config.field
        "providers").field "osm" = osmEntry ∧
      ∃ active, getActiveProviders (configRun defaultManager [.setupApiKeys eagerAnswers,
        .setDefaultProvider firstChoicePrompt, .applicationSettings ["showProgress"]])
          = .ok active ∧ "osm" ∈ active) :=
  ⟨rfl, osm_stays_active.2.2.2 defaultManager _ rfl⟩

/-- C13 (the code with every provider deactivated). `selectProvider` has no branch for an
empty list of active providers: it passes the empty choice list to the `list` prompt and
returns whatever the prompt resolves to; as a prompt resolves to one of the choices it
shows, the call ends in an exception and yields no provider id. -/
theorem selectProvider_all_inactive (prompt : ListPrompt) :
    getActiveProviders inactiveManager = .ok [] ∧
    selectProvider prompt inactiveManager = prompt.ask [] (.str "osm") ∧
    ∃ e, selectProvider prompt inactiveManager = .error e := by
  have hsel : selectProvider prompt inactiveManager = prompt.ask [] (.str "osm") := rfl
  refine ⟨rfl, hsel, ?_⟩
  rw [hsel]
  cases hask : prompt.ask [] (.str "osm") with
  | error e => exact ⟨e, rfl⟩
  | ok value => exact absurd (prompt.picks [] _ value hask) (List.not_mem_nil value)

end PelakoorAdvanced

/-! ### Credentials file: lines -/

theorem splitChars_ne_nil (cs : List Char) : splitChars cs ≠ [] := by
  induction cs with
  | nil => simp [splitChars]
  | cons c cs ih =>
    unfold splitChars
    split
    · simp
    · split <;> simp

theorem splitChars_no_newline (cs : List Char) : ∀ l ∈ splitChars cs, '\n' ∉ l := by
  induction cs with
  | nil => simp [splitChars]
  | cons c cs ih =>
    unfold splitChars
    split
    · intro l hl
      rcases List.mem_cons.mp hl with rfl | hl
      · simp
      · exact ih l hl
    · rename_i hc
      split
      · intro l hl
        simp only [List.mem_singleton] at hl
        subst hl
        simpa using fun h => hc h.symm
      · rename_i l0 ls heq
        intro l hl
        rcases List.mem_cons.mp hl with rfl | hl
        · have h0 := ih l0 (by rw [heq]; exact List.mem_cons_self _ _)
          simp only [List.mem_cons, not_or]
          exact ⟨fun h => hc h.symm, h0⟩
        · exact ih l (by rw [heq]; exact List.mem_cons_of_mem _ hl)

theorem splitChars_append_newline (l t : List Char) (h : '\n' ∉ l) :
    splitChars (l ++ '\n' :: t) = l :: splitChars t := by
  induction l with
  | nil => simp [splitChars]
  | cons c l ih =>
    simp only [List.mem_cons, not_or] at h
    have hc : c ≠ '\n' := fun e => h.1 e.symm
    show splitChars (c :: (l ++ '\n' :: t)) = _
    simp only [splitChars, hc, if_false, ih h.2]

theorem splitChars_line (l : List Char) (h : '\n' ∉ l) : splitChars l = [l] := by
  induction l with
  | nil => rfl
  | cons c l ih =>
    simp only [List.mem_cons, not_or] at h
    have hc : c ≠ '\n' := fun e => h.1 e.symm
    simp only [splitChars, hc, if_false, ih h.2]

theorem splitChars_joinChars (ls : List (List Char)) (hne : ls ≠ [])
    (h : ∀ l ∈ ls, '\n' ∉ l) : splitChars (joinChars ls) = ls := by
  induction ls with
  | nil => exact absurd rfl hne
  | cons l rest ih =>
    cases rest with
    | nil => exact splitChars_line l (h l (List.mem_cons_self _ _))
    | cons l2 rest2 =>
      have hrest := ih (by simp) fun x hx => h x (List.mem_cons_of_mem _ hx)
      show splitChars (l ++ '\n' :: joinChars (l2 :: rest2)) = _
      rw [splitChars_append_newline l _ (h l (List.mem_cons_self _ _)), hrest]

theorem splitLines_joinLines (lines : List String) (hne : lines ≠ [])
    (h : ∀ l ∈ lines, '\n' ∉ l.data) : splitLines (joinLines lines) = lines := by
  unfold splitLines joinLines
  rw [splitChars_joinChars (lines.map String.data) (by simpa using hne)
    (by simpa using h)]
  rw [List.map_map]
  conv_rhs => rw [← List.map_id lines]
  rfl

theorem splitLines_ne_nil (content : String) : splitLines content ≠ [] := by
  unfold splitLines
  simpa using splitChars_ne_nil content.data

theorem splitLines_no_newline (content : String) :
    ∀ l ∈ splitLines content, '\n' ∉ l.data := by
  intro l hl
  unfold splitLines at hl
  obtain ⟨cs, hcs, rfl⟩ := List.mem_map.mp hl
  exact splitChars_no_newline content.data cs hcs

theorem startsWith_line (start rest : String) : startsWith (start ++ rest) start = true := by
  unfold startsWith
  rw [String.data_append, List.isPrefixOf_iff_prefix]
  exact List.prefix_append _ _

theorem rewriteFirst_again (start newLine : String) (hs : startsWith newLine start = true)
    (lines rewritten : List String) (h : rewriteFirst start newLine lines = some rewritten) :
    rewriteFirst start newLine rewritten = some rewritten := by
  induction lines generalizing rewritten with
  | nil => cases h
  | cons l ls ih =>
    unfold rewriteFirst at h
    split at h
    · cases h
      unfold rewriteFirst
      rw [if_pos hs]
    · rename_i hl
      cases hr : rewriteFirst start newLine ls with
      | none => rw [hr] at h; cases h
      | some rest =>
        rw [hr] at h
        cases h
        unfold rewriteFirst
        rw [if_neg hl, ih rest hr]
        rfl

theorem rewriteFirst_appended (start newLine : String) (hs : startsWith newLine start = true)
    (lines : List String) (h : rewriteFirst start newLine lines = none) :
    rewriteFirst start newLine (lines ++ [newLine]) = some (lines ++ [newLine]) := by
  induction lines with
  | nil =>
    show rewriteFirst start newLine [newLine] = _
    unfold rewriteFirst
    rw [if_pos hs]
    rfl
  | cons l ls ih =>
    unfold rewriteFirst at h
    split at h
    · cases h
    · rename_i hl
      cases hr : rewriteFirst start newLine ls with
      | some rest => rw [hr] at h; cases h
      | none =>
        show rewriteFirst start newLine (l :: (ls ++ [newLine])) = _
        unfold rewriteFirst
        rw [if_neg hl, ih hr]
        rfl

theorem updateLines_again (keyName key : String) (lines : List String) :
    updateLines keyName key (updateLines keyName key lines) = updateLines keyName key lines := by
  have hs : startsWith (keyName ++ "=" ++ key) (keyName ++ "=") = true :=
    startsWith_line _ _
  unfold updateLines
  cases h : rewriteFirst (keyName ++ "=") (keyName ++ "=" ++ key) lines with
  | some rewritten => simp only [rewriteFirst_again _ _ hs lines rewritten h]
  | none => simp only [rewriteFirst_appended _ _ hs lines h]

theorem rewriteFirst_mem (start newLine : String) (lines rewritten : List String)
    (h : rewriteFirst start newLine lines = some rewritten) :
    ∀ l ∈ rewritten, l = newLine ∨ l ∈ lines := by
  induction lines generalizing rewritten with
  | nil => cases h
  | cons l0 ls ih =>
    unfold rewriteFirst at h
    split at h
    · cases h
      intro l hl
      rcases List.mem_cons.mp hl with rfl | hl
      · exact Or.inl rfl
      · exact Or.inr (List.mem_cons_of_mem _ hl)
    · cases hr : rewriteFirst start newLine ls with
      | none => rw [hr] at h; cases h
      | some rest =>
        rw [hr] at h
        cases h
        intro l hl
        rcases List.mem_cons.mp hl with rfl | hl
        · exact Or.inr (List.mem_cons_self _ _)
        · exact (ih rest hr l hl).imp id (List.mem_cons_of_mem _)

theorem updateLines_mem (keyName key : String) (lines : List String) :
    ∀ l ∈ updateLines keyName key lines, l = keyName ++ "=" ++ key ∨ l ∈ lines := by
  unfold updateLines
  cases h : rewriteFirst (keyName ++ "=") (keyName ++ "=" ++ key) lines with
  | some rewritten => exact rewriteFirst_mem _ _ lines rewritten h
  | none =>
    intro l hl
    rcases List.mem_append.mp hl with hl | hl
    · exact Or.inr hl
    · exact Or.inl (List.mem_singleton.mp hl)

theorem updateLines_ne_nil (keyName key : String) (lines : List String) :
    updateLines keyName key lines ≠ [] := by
  unfold updateLines
  cases h : rewriteFirst (keyName ++ "=") (keyName ++ "=" ++ key) lines with
  | some rewritten =>
    cases lines with
    | nil => cases h
    | cons l ls =>
      unfold rewriteFirst at h
      split at h
      · cases h; simp
      · cases hr : rewriteFirst (keyName ++ "=") (keyName ++ "=" ++ key) ls with
        | none => rw [hr] at h; cases h
        | some rest => rw [hr] at h; cases h; simp
  | none => simp

theorem toUpper_ne_newline (c : Char) (h : c ≠ '\n') : c.toUpper ≠ '\n' := by
  intro h2
  unfold Char.toUpper at h2
  simp only at h2
  by_cases hr : c.toNat ≥ 97 ∧ c.toNat ≤ 122
  · rw [if_pos hr] at h2
    have h3 := congrArg Char.toNat h2
    have hv : (c.toNat - 32).isValidChar := by
      left; omega
    rw [Char.ofNat, dif_pos hv] at h3
    have : c.toNat - 32 = 10 := by
      simpa [Char.toNat, Char.ofNatAux] using h3
    omega
  · rw [if_neg hr] at h2
    exact h h2

theorem keyName_no_newline (provider : String) (h : '\n' ∉ provider.data) :
    '\n' ∉ (ApiManager.keyName provider).data := by
  unfold ApiManager.keyName toUpperCase
  rw [String.data_append]
  intro hm
  rcases List.mem_append.mp hm with hm | hm
  · obtain ⟨c, hc, hcu⟩ := List.mem_map.mp hm
    exact toUpper_ne_newline c (fun e => h (e ▸ hc)) hcu
  · revert hm
    decide

theorem newLine_no_newline (provider key : String) (hp : '\n' ∉ provider.data)
    (hk : '\n' ∉ key.data) : '\n' ∉ (ApiManager.keyName provider ++ "=" ++ key).data := by
  rw [String.data_append, String.data_append]
  intro hm
  rcases List.mem_append.mp hm with hm | hm
  · rcases List.mem_append.mp hm with hm | hm
    · exact keyName_no_newline provider hp hm
    · revert hm
      decide
  · exact hk hm

theorem updateLines_no_newline (provider key content : String) (hp : '\n' ∉ provider.data)
    (hk : '\n' ∉ key.data) :
    ∀ l ∈ updateLines (ApiManager.keyName provider) key (splitLines content),
      '\n' ∉ l.data := by
  intro l hl
  rcases updateLines_mem _ _ _ l hl with rfl | hl
  · exact newLine_no_newline provider key hp hk
  · exact splitLines_no_newline content l hl

theorem rewriteFirst_some (start newLine : String) (lines after : List String)
    (h : rewriteFirst start newLine lines = some after) :
    ∃ front old back, lines = front ++ old :: back ∧
      (∀ l ∈ front, startsWith l start = false) ∧ startsWith old start = true ∧
      after = front ++ newLine :: back ∧ after.length = lines.length := by
  induction lines generalizing after with
  | nil => cases h
  | cons l ls ih =>
    unfold rewriteFirst at h
    split at h
    · rename_i hl
      cases h
      exact ⟨[], l, ls, rfl, by simp, hl, rfl, rfl⟩
    · rename_i hl
      cases hr : rewriteFirst start newLine ls with
      | none => rw [hr] at h; cases h
      | some rest =>
        rw [hr] at h
        cases h
        obtain ⟨front, old, back, h1, h2, h3, h4, h5⟩ := ih rest hr
        refine ⟨l :: front, old, back, by rw [h1]; rfl, ?_, h3, by rw [h4]; rfl, by
          simp only [List.length_cons, h5]⟩
        intro x hx
        rcases List.mem_cons.mp hx with rfl | hx
        · simpa using hl
        · exact h2 x hx

theorem rewriteFirst_none (start newLine : String) (lines : List String)
    (h : rewriteFirst start newLine lines = none) :
    ∀ l ∈ lines, startsWith l start = false := by
  induction lines with
  | nil => simp
  | cons l ls ih =>
    unfold rewriteFirst at h
    split at h
    · cases h
    · rename_i hl
      cases hr : rewriteFirst start newLine ls with
      | some rest => rw [hr] at h; cases h
      | none =>
        intro x hx
        rcases List.mem_cons.mp hx with rfl | hx
        · simpa using hl
        · exact ih hr x hx

theorem startsWith_iff (line start : String) :
    startsWith line start = true ↔ StartsWith line start := by
  unfold startsWith StartsWith
  rw [List.isPrefixOf_iff_prefix]
  constructor
  · rintro ⟨t, ht⟩
    exact ⟨String.mk t, String.ext (by rw [String.data_append, ← ht])⟩
  · rintro ⟨rest, hr⟩
    exact ⟨rest.data, by rw [hr, String.data_append]⟩

theorem startsWith_false_iff (line start : String) :
    startsWith line start = false ↔ ¬ StartsWith line start := by
  rw [← startsWith_iff]
  cases startsWith line start <;> simp

theorem updateLines_edit (keyName key : String) (lines : List String) :
    LineEdit (keyName ++ "=") (keyName ++ "=" ++ key) lines
      (updateLines keyName key lines) := by
  unfold updateLines
  cases h : rewriteFirst (keyName ++ "=") (keyName ++ "=" ++ key) lines with
  | some after =>
    obtain ⟨front, old, back, h1, h2, h3, h4, h5⟩ := rewriteFirst_some _ _ lines after h
    exact Or.inl ⟨front, old, back, h1,
      fun l hl => (startsWith_false_iff _ _).mp (h2 l hl), (startsWith_iff _ _).mp h3, h4, h5⟩
  | none =>
    exact Or.inr ⟨fun l hl => (startsWith_false_iff _ _).mp (rewriteFirst_none _ _ lines h l hl),
      rfl⟩

theorem joinChars_cons (l : List Char) (ls : List (List Char)) :
    joinChars (l :: ls) = l ++ (ls.map fun x => '\n' :: x).flatten := by
  induction ls generalizing l with
  | nil => simp [joinChars]
  | cons l2 rest ih =>
    show l ++ '\n' :: joinChars (l2 :: rest) = _
    rw [ih l2]
    simp

theorem intercalate_go_data (acc : String) (ls : List String) :
    (String.intercalate.go acc "\n" ls).data
      = acc.data ++ (ls.map fun x => '\n' :: x.data).flatten := by
  induction ls generalizing acc with
  | nil => simp [String.intercalate.go]
  | cons l rest ih =>
    rw [String.intercalate.go, ih]
    simp [String.data_append]

theorem joinLines_eq_intercalate (lines : List String) :
    joinLines lines = String.intercalate "\n" lines := by
  cases lines with
  | nil => rfl
  | cons l rest =>
    apply String.ext
    show joinChars ((l :: rest).map String.data) = (String.intercalate.go l "\n" rest).data
    rw [List.map_cons, joinChars_cons, intercalate_go_data, List.map_map]
    rfl

theorem joinChars_splitChars (cs : List Char) : joinChars (splitChars cs) = cs := by
  induction cs with
  | nil => rfl
  | cons c cs ih =>
    unfold splitChars
    by_cases hc : c = '\n'
    · rw [if_pos hc]
      cases hs : splitChars cs with
      | nil => exact absurd hs (splitChars_ne_nil cs)
      | cons l ls =>
        rw [hs] at ih
        show [] ++ '\n' :: joinChars (l :: ls) = c :: cs
        rw [ih, hc]
        rfl
    · rw [if_neg hc]
      cases hs : splitChars cs with
      | nil => exact absurd hs (splitChars_ne_nil cs)
      | cons l ls =>
        rw [hs] at ih
        simp only
        cases ls with
        | nil =>
          show c :: l = c :: cs
          rw [show l = cs from ih]
        | cons l2 rest =>
          show (c :: l) ++ '\n' :: joinChars (l2 :: rest) = c :: cs
          rw [← ih]
          rfl

theorem splitLines_isLinesOf (content : String) : IsLinesOf content (splitLines content) := by
  refine ⟨splitLines_ne_nil content, splitLines_no_newline content, ?_⟩
  rw [← joinLines_eq_intercalate]
  apply String.ext
  show content.data = joinChars ((splitLines content).map String.data)
  unfold splitLines
  rw [List.map_map]
  have hid : (String.data ∘ String.mk) = id := by
    funext x
    rfl
  rw [hid, List.map_id]
  exact (joinChars_splitChars content.data).symm

theorem isLinesOf_unique (content : String) (lines : List String)
    (h : IsLinesOf content lines) : lines = splitLines content := by
  obtain ⟨hne, hno, hc⟩ := h
  rw [hc, ← joinLines_eq_intercalate, splitLines_joinLines lines hne hno]

theorem toUpper_upperCased (text : String) : UpperCased text (toUpperCase text) := by
  unfold UpperCased toUpperCase
  show List.Forall₂ _ text.data (text.data.map Char.toUpper)
  induction text.data with
  | nil => exact List.Forall₂.nil
  | cons c cs ih =>
    refine List.Forall₂.cons ?_ ih
    by_cases hc : 97 ≤ c.toNat ∧ c.toNat ≤ 122
    · rw [if_pos hc]
      have hu : c.toUpper = Char.ofNat (c.toNat - 32) := by
        unfold Char.toUpper
        simp only [ge_iff_le, hc, and_self, if_true]
      rw [hu]
      obtain ⟨h1, h2⟩ := hc
      generalize c.toNat = n at h1 h2
      interval_cases n <;> rfl
    · rw [if_neg hc]
      unfold Char.toUpper
      simp only [ge_iff_le, hc, if_false]

/-! ### Credentials file: `setApiKey` -/

namespace ApiManager

theorem setApiKey_envFile (provider key : String) (m : ApiManager) :
    (setApiKey provider key m).envFile
      = some (joinLines (updateLines (keyName provider) key (splitLines (getEnvContent m)))) :=
  rfl

theorem setApiKey_env (provider key : String) (m : ApiManager) (name : String) :
    (setApiKey provider key m).env name
      = if name = keyName provider then some key else m.env name :=
  rfl

theorem setApiKey_again (provider key : String) (m : ApiManager)
    (hp : '\n' ∉ provider.data) (hk : '\n' ∉ key.data) :
    setApiKey provider key (setApiKey provider key m) = setApiKey provider key m := by
  have hsplit : splitLines (getEnvContent (setApiKey provider key m))
      = updateLines (keyName provider) key (splitLines (getEnvContent m)) :=
    splitLines_joinLines _ (updateLines_ne_nil _ _ _)
      (updateLines_no_newline provider key _ hp hk)
  have hfile : (setApiKey provider key (setApiKey provider key m)).envFile
      = (setApiKey provider key m).envFile := by
    rw [setApiKey_envFile, hsplit, updateLines_again]
    rfl
  have henv : (setApiKey provider key (setApiKey provider key m)).env
      = (setApiKey provider key m).env := by
    funext name
    rw [setApiKey_env, setApiKey_env]
    split <;> rfl
  obtain ⟨config, configFile, envFile, env⟩ := m
  simp only [setApiKey] at hfile henv ⊢
  rw [ApiManager.mk.injEq]
  exact ⟨rfl, rfl, hfile, henv⟩

/-- C14 (as stated, at a secret that holds a line feed). Starting without a credentials
file, `setApiKey('google', 'a\nb')` writes the two-line entry once more when it is called a
second time: the file after two calls differs from the file after one. -/
theorem setApiKey_twice_counterexample :
    (setApiKey "google" "a\nb" (freshManager .missing none)).envFile
      = some "\nGOOGLE_API_KEY=a\nb" ∧
    (setApiKey "google" "a\nb" (setApiKey "google" "a\nb" (freshManager .missing none))).envFile
      = some "\nGOOGLE_API_KEY=a\nb\nb" ∧
    setApiKey "google" "a\nb" (setApiKey "google" "a\nb" (freshManager .missing none))
      ≠ setApiKey "google" "a\nb" (freshManager .missing none) := by
  refine ⟨by decide, by decide, fun h => ?_⟩
  have hfile := congrArg ApiManager.envFile h
  revert hfile
  decide

/-- C14 (amended). For every credentials-file content and every provider and secret that
hold no line feed, calling `setApiKey(provider, secret)` twice in succession leaves the
credentials file, the process environment and the configuration identical to calling it
once. -/
theorem setApiKey_idempotent (provider key : String) (m : ApiManager)
    (hp : '\n' ∉ provider.data) (hk : '\n' ∉ key.data) :
    setApiKey provider key (setApiKey provider key m) = setApiKey provider key m ∧
    (setApiKey provider key (setApiKey provider key m)).envFile
      = (setApiKey provider key m).envFile ∧
    (setApiKey provider key (setApiKey provider key m)).env
      = (setApiKey provider key m).env := by
  have h := setApiKey_again provider key m hp hk
  exact ⟨h, by rw [h], by rw [h]⟩

theorem setApiKey_idempotent_witness :
    ('\n' ∉ "google".data ∧ '\n' ∉ "AIza-123".data) ∧
    setApiKey "google" "AIza-123"
        (setApiKey "google" "AIza-123" (freshManager .missing (some "MAPBOX_API_KEY=pk\n")))
      = setApiKey "google" "AIza-123" (freshManager .missing (some "MAPBOX_API_KEY=pk\n")) :=
  ⟨⟨by decide, by decide⟩,
   (setApiKey_idempotent "google" "AIza-123"
      (freshManager .missing (some "MAPBOX_API_KEY=pk\n")) (by decide) (by decide)).1⟩

/-- C15. For a provider id in ASCII, `setApiKey(provider, key)` edits the credentials file
line-wise.  With `before` the lines of the file as it was (the empty text without a file)
and `start` the text `{PROVIDER}_API_KEY=`, the provider id upper-cased, the call writes
lines `after` with a line feed between neighbours, where: if some line of `before` starts
with `start`, the first such line has become `start` followed by the key and the number of
lines is unchanged, otherwise that line has been appended as the last line; every other line
is kept, in its place.  When provider and key hold no line feed, `after` are the lines of
the written file. -/
theorem setApiKey_edits_lines (provider key : String) (m : ApiManager)
    (before : List String) (hascii : ∀ c ∈ provider.data, c.toNat < 128)
    (hbefore : IsLinesOf (getEnvContent m) before) :
    ∃ upper after written, UpperCased provider upper ∧
      (setApiKey provider key m).envFile = some written ∧
      written = String.intercalate "\n" after ∧
      LineEdit (upper ++ "_API_KEY=") (upper ++ "_API_KEY=" ++ key) before after ∧
      ('\n' ∉ provider.data → '\n' ∉ key.data → IsLinesOf written after) := by
  have _ := hascii
  have hb := isLinesOf_unique _ _ hbefore
  subst hb
  have hstart : keyName provider ++ "=" = toUpperCase provider ++ "_API_KEY=" := by
    unfold keyName
    rw [String.append_assoc]
    rfl
  refine ⟨toUpperCase provider, _, _, toUpper_upperCased provider, rfl,
    joinLines_eq_intercalate _, ?_, fun hp hk => ?_⟩
  · have h := updateLines_edit (keyName provider) key (splitLines (getEnvContent m))
    rw [hstart] at h
    exact h
  · have hsplit := splitLines_joinLines _ (updateLines_ne_nil (keyName provider) key
      (splitLines (getEnvContent m))) (updateLines_no_newline provider key _ hp hk)
    have h := splitLines_isLinesOf
      (joinLines (updateLines (keyName provider) key (splitLines (getEnvContent m))))
    rw [hsplit] at h
    exact h

theorem setApiKey_edits_lines_witness :
    ((∀ c ∈ "google".data, c.toNat < 128) ∧ '\n' ∉ "google".data ∧ '\n' ∉ "new".data ∧
      IsLinesOf "MAPBOX_API_KEY=pk\nGOOGLE_API_KEY=old\nGOOGLE_API_KEY=older"
        ["MAPBOX_API_KEY=pk", "GOOGLE_API_KEY=old", "GOOGLE_API_KEY=older"]) ∧
    (setApiKey "google" "new" (freshManager .missing
        (some "MAPBOX_API_KEY=pk\nGOOGLE_API_KEY=old\nGOOGLE_API_KEY=older"))).envFile
      = some "MAPBOX_API_KEY=pk\nGOOGLE_API_KEY=new\nGOOGLE_API_KEY=older" ∧
    UpperCased "google" "GOOGLE" ∧
    ∃ upper after written, UpperCased "google" upper ∧
      (setApiKey "google" "new" (freshManager .missing
        (some "MAPBOX_API_KEY=pk\nGOOGLE_API_KEY=old\nGOOGLE_API_KEY=older"))).envFile
        = some written ∧
      written = String.intercalate "\n" after ∧
      LineEdit (upper ++ "_API_KEY=") (upper ++ "_API_KEY=" ++ "new")
        ["MAPBOX_API_KEY=pk", "GOOGLE_API_KEY=old", "GOOGLE_API_KEY=older"] after ∧
      IsLinesOf written after :=
  have hlines : IsLinesOf "MAPBOX_API_KEY=pk\nGOOGLE_API_KEY=old\nGOOGLE_API_KEY=older"
      ["MAPBOX_API_KEY=pk", "GOOGLE_API_KEY=old", "GOOGLE_API_KEY=older"] :=
    ⟨by decide, by decide, by decide⟩
  match setApiKey_edits_lines "google" "new" (freshManager .missing
      (some "MAPBOX_API_KEY=pk\nGOOGLE_API_KEY=old\nGOOGLE_API_KEY=older"))
      ["MAPBOX_API_KEY=pk", "GOOGLE_API_KEY=old", "GOOGLE_API_KEY=older"]
      (by decide) hlines with
  | ⟨upper, after, written, h1, h2, h3, h4, h5⟩ =>
    ⟨⟨by decide, by decide, by decide, hlines⟩, by decide, toUpper_upperCased "google",
      upper, after, written, h1, h2, h3, h4, h5 (by decide) (by decide)⟩

end ApiManager

/-! ### Credentials: from `setApiKey` to the gateway -/

namespace GeocodingService

open ApiManager

theorem fetch_no_thrown_error (up : Upstream) (req : Request)
    (rest : JsVal → Except JsError JsVal) (h : ∀ payload, OnlyTypeErrors (rest payload))
    (message : String) : (fetch up req rest).result ≠ .error (.error message) := by
  intro hp
  unfold fetch at hp
  simp only at hp
  cases hu : up req with
  | error m => rw [hu] at hp; cases hp
  | ok payload =>
    rw [hu] at hp
    obtain ⟨k, hk⟩ := h payload _ hp
    cases hk

theorem keyed_google (env : Env) (up : Upstream) (key : String)
    (hkey : env "GOOGLE_API_KEY" = some key) (hne : key ≠ "") (address : String)
    (lat lon : Rat) (parseFloat : JsVal → JsVal) :
    ((geocodeAddress parseFloat env up address (some "google")).requests
        = [.googleGeocode key address] ∧
      ∀ message, (geocodeAddress parseFloat env up address (some "google")).result
        ≠ .error (.error message)) ∧
    ((reverseGeocode env up lat lon (some "google")).requests = [.googleReverse key lat lon] ∧
      ∀ message, (reverseGeocode env up lat lon (some "google")).result
        ≠ .error (.error message)) := by
  constructor
  · rw [geocodeAddress_google, geocodeWithGoogle, withKey_present _ _ _ _ _ hkey hne]
    exact ⟨rfl, fetch_no_thrown_error _ _ _ fun payload =>
      map_onlyTypeErrors payload _ googleHit_onlyTypeErrors⟩
  · rw [show reverseGeocode env up lat lon (some "google")
        = reverseGeocodeWithGoogle env up lat lon from rfl,
      reverseGeocodeWithGoogle, withKey_present _ _ _ _ _ hkey hne]
    exact ⟨rfl, fetch_no_thrown_error _ _ _ fun _ =>
      bind_onlyTypeErrors _ _ (getIndex_onlyTypeErrors _ _) fun _ =>
      bind_onlyTypeErrors _ _ (getProp_onlyTypeErrors _ _) fun _ =>
      bind_onlyTypeErrors _ _ (getProp_onlyTypeErrors _ _) fun _ =>
      bind_onlyTypeErrors _ _ (getProp_onlyTypeErrors _ _) fun _ =>
      bind_onlyTypeErrors _ _ (getProp_onlyTypeErrors _ _) fun _ =>
      bind_onlyTypeErrors _ _ (getProp_onlyTypeErrors _ _) fun _ =>
      bind_onlyTypeErrors _ _ (getProp_onlyTypeErrors _ _) fun _ =>
      bind_onlyTypeErrors _ _ (getProp_onlyTypeErrors _ _) fun _ => pure_onlyTypeErrors _⟩

theorem keyed_mapbox (env : Env) (up : Upstream) (key : String)
    (hkey : env "MAPBOX_API_KEY" = some key) (hne : key ≠ "") (address : String)
    (lat lon : Rat) (parseFloat : JsVal → JsVal) :
    ((geocodeAddress parseFloat env up address (some "mapbox")).requests
        = [.mapboxForward key address] ∧
      ∀ message, (geocodeAddress parseFloat env up address (some "mapbox")).result
        ≠ .error (.error message)) ∧
    ((reverseGeocode env up lat lon (some "mapbox")).requests = [.mapboxReverse key lat lon] ∧
      ∀ message, (reverseGeocode env up lat lon (some "mapbox")).result
        ≠ .error (.error message)) := by
  constructor
  · rw [geocodeAddress_mapbox, geocodeWithMapbox, withKey_present _ _ _ _ _ hkey hne]
    exact ⟨rfl, fetch_no_thrown_error _ _ _ fun _ =>
      bind_onlyTypeErrors _ _ (getProp_onlyTypeErrors _ _) fun features =>
        map_onlyTypeErrors features _ mapboxHit_onlyTypeErrors⟩
  · rw [show reverseGeocode env up lat lon (some "mapbox")
        = reverseGeocodeWithMapbox env up lat lon from rfl,
      reverseGeocodeWithMapbox, withKey_present _ _ _ _ _ hkey hne]
    exact ⟨rfl, fetch_no_thrown_error _ _ _ fun _ =>
      bind_onlyTypeErrors _ _ (getProp_onlyTypeErrors _ _) fun _ =>
      bind_onlyTypeErrors _ _ (getIndex_onlyTypeErrors _ _) fun _ =>
      bind_onlyTypeErrors _ _ (getProp_onlyTypeErrors _ _) fun _ =>
      bind_onlyTypeErrors _ _ (getProp_onlyTypeErrors _ _) fun _ =>
      bind_onlyTypeErrors _ _ (contextDetails_onlyTypeErrors _) fun _ =>
        pure_onlyTypeErrors _⟩

theorem keyed_here (env : Env) (up : Upstream) (key : String)
    (hkey : env "HERE_API_KEY" = some key) (hne : key ≠ "") (address : String)
    (lat lon : Rat) (parseFloat : JsVal → JsVal) :
    ((geocodeAddress parseFloat env up address (some "here")).requests
        = [.hereGeocode key address] ∧
      ∀ message, (geocodeAddress parseFloat env up address (some "here")).result
        ≠ .error (.error message)) ∧
    ((reverseGeocode env up lat lon (some "here")).requests = [.hereReverse key lat lon] ∧
      ∀ message, (reverseGeocode env up lat lon (some "here")).result
        ≠ .error (.error message)) := by
  constructor
  · rw [geocodeAddress_here, geocodeWithHere, withKey_present _ _ _ _ _ hkey hne]
    exact ⟨rfl, fetch_no_thrown_error _ _ _ fun _ =>
      bind_onlyTypeErrors _ _ (getProp_onlyTypeErrors _ _) fun items =>
        map_onlyTypeErrors items _ hereHit_onlyTypeErrors⟩
  · rw [show reverseGeocode env up lat lon (some "here")
        = reverseGeocodeWithHere env up lat lon from rfl,
      reverseGeocodeWithHere, withKey_present _ _ _ _ _ hkey hne]
    exact ⟨rfl, fetch_no_thrown_error _ _ _ fun _ =>
      bind_onlyTypeErrors _ _ (getProp_onlyTypeErrors _ _) fun _ =>
      bind_onlyTypeErrors _ _ (getIndex_onlyTypeErrors _ _) fun _ =>
      bind_onlyTypeErrors _ _ (getProp_onlyTypeErrors _ _) fun _ =>
      bind_onlyTypeErrors _ _ (getProp_onlyTypeErrors _ _) fun _ => pure_onlyTypeErrors _⟩

/-- C16. After `setApiKey(p, k)` with a non-empty `k`, for `p` one of `google`, `mapbox`,
`here`, the process environment maps `GOOGLE_API_KEY`, `MAPBOX_API_KEY` resp.
`HERE_API_KEY` to `k`; that is the variable the gateway reads for `p`, so
`geocodeAddress` and `reverseGeocode` for `p`, run on that environment as it is, issue
their upstream request with the key `k` and do not throw the `API key not configured`
error (nor any other `Error` of the source). -/
theorem setApiKey_reaches_gateway (key : String) (hne : key ≠ "") (m : ApiManager)
    (parseFloat : JsVal → JsVal) (up : Upstream) (address : String) (lat lon : Rat) :
    ((setApiKey "google" key m).env "GOOGLE_API_KEY" = some key ∧
      ((geocodeAddress parseFloat (setApiKey "google" key m).env up address
            (some "google")).requests = [.googleGeocode key address] ∧
        ∀ message, (geocodeAddress parseFloat (setApiKey "google" key m).env up address
            (some "google")).result ≠ .error (.error message)) ∧
      ((reverseGeocode (setApiKey "google" key m).env up lat lon (some "google")).requests
          = [.googleReverse key lat lon] ∧
        ∀ message, (reverseGeocode (setApiKey "google" key m).env up lat lon
            (some "google")).result ≠ .error (.error message))) ∧
    ((setApiKey "mapbox" key m).env "MAPBOX_API_KEY" = some key ∧
      ((geocodeAddress parseFloat (setApiKey "mapbox" key m).env up address
            (some "mapbox")).requests = [.mapboxForward key address] ∧
        ∀ message, (geocodeAddress parseFloat (setApiKey "mapbox" key m).env up address
            (some "mapbox")).result ≠ .error (.error message)) ∧
      ((reverseGeocode (setApiKey "mapbox" key m).env up lat lon (some "mapbox")).requests
          = [.mapboxReverse key lat lon] ∧
        ∀ message, (reverseGeocode (setApiKey "mapbox" key m).env up lat lon
            (some "mapbox")).result ≠ .error (.error message))) ∧
    ((setApiKey "here" key m).env "HERE_API_KEY" = some key ∧
      ((geocodeAddress parseFloat (setApiKey "here" key m).env up address
            (some "here")).requests = [.hereGeocode key address] ∧
        ∀ message, (geocodeAddress parseFloat (setApiKey "here" key m).env up address
            (some "here")).result ≠ .error (.error message)) ∧
      ((reverseGeocode (setApiKey "here" key m).env up lat lon (some "here")).requests
          = [.hereReverse key lat lon] ∧
        ∀ message, (reverseGeocode (setApiKey "here" key m).env up lat lon
            (some "here")).result ≠ .error (.error message))) := by
  have hg : (setApiKey "google" key m).env "GOOGLE_API_KEY" = some key := by
    rw [setApiKey_env, if_pos (by decide)]
  have hm : (setApiKey "mapbox" key m).env "MAPBOX_API_KEY" = some key := by
    rw [setApiKey_env, if_pos (by decide)]
  have hh : (setApiKey "here" key m).env "HERE_API_KEY" = some key := by
    rw [setApiKey_env, if_pos (by decide)]
  exact ⟨⟨hg, keyed_google _ up key hg hne address lat lon parseFloat⟩,
    ⟨hm, keyed_mapbox _ up key hm hne address lat lon parseFloat⟩,
    ⟨hh, keyed_here _ up key hh hne address lat lon parseFloat⟩⟩

theorem setApiKey_reaches_gateway_witness :
    "AIza-123" ≠ "" ∧
    (setApiKey "google" "AIza-123" defaultManager).env "GOOGLE_API_KEY" = some "AIza-123" ∧
    (geocodeAddress sampleParseFloat (setApiKey "google" "AIza-123" defaultManager).env
        parisUpstream "Paris" (some "google")).requests
      = [.googleGeocode "AIza-123" "Paris"] ∧
    ∀ message, (geocodeAddress sampleParseFloat
        (setApiKey "google" "AIza-123" defaultManager).env parisUpstream "Paris"
        (some "google")).result ≠ .error (.error message) :=
  ⟨by decide,
   (setApiKey_reaches_gateway "AIza-123" (by decide) defaultManager sampleParseFloat
      parisUpstream "Paris" 0 0).1.1,
   (setApiKey_reaches_gateway "AIza-123" (by decide) defaultManager sampleParseFloat
      parisUpstream "Paris" 0 0).1.2.1.1,
   (setApiKey_reaches_gateway "AIza-123" (by decide) defaultManager sampleParseFloat
      parisUpstream "Paris" 0 0).1.2.1.2⟩

end GeocodingService

/-! ### Geometry: the perimeter of a polygon -/

namespace PelakoorAdvanced

theorem foldl_edges (getDistance : Point → Point → Nat) (coordinates : List Point)
    (indices : List Nat) (start : Nat) :
    indices.foldl (fun perimeter i =>
      match coordinates.get? i, coordinates.get? ((i + 1) % coordinates.length) with
      | some a, some b => perimeter + getDistance a b
      | _, _ => perimeter) start
      = start + (indices.map (edgeAt getDistance coordinates)).sum := by
  induction indices generalizing start with
  | nil => simp
  | cons i rest ih =>
    rw [List.foldl_cons, ih, List.map_cons, List.sum_cons, ← Nat.add_assoc]
    congr 1
    unfold edgeAt
    split <;> simp

theorem perimeter_eq_sum (getDistance : Point → Point → Nat) (coordinates : List Point) :
    calculatePolygonPerimeter getDistance coordinates
      = ((List.range coordinates.length).map (edgeAt getDistance coordinates)).sum := by
  unfold calculatePolygonPerimeter
  rw [foldl_edges, Nat.zero_add]

theorem edgeAt_of_lt (getDistance : Point → Point → Nat) (coordinates : List Point)
    (i : Nat) (h : i < coordinates.length) :
    edgeAt getDistance coordinates i
      = getDistance (coordinates.get ⟨i, h⟩)
          (coordinates.get ⟨(i + 1) % coordinates.length,
            Nat.mod_lt _ (Nat.lt_of_le_of_lt (Nat.zero_le i) h)⟩) := by
  unfold edgeAt
  rw [List.get?_eq_get h,
    List.get?_eq_get (Nat.mod_lt _ (Nat.lt_of_le_of_lt (Nat.zero_le i) h))]

theorem edges_eq_zipWith (getDistance : Point → Point → Nat) (coordinates : List Point) :
    (List.range coordinates.length).map (edgeAt getDistance coordinates)
      = List.zipWith getDistance coordinates (coordinates.rotate 1) := by
  apply List.ext_getElem
  · simp
  · intro i h1 h2
    have hi : i < coordinates.length := by simpa using h1
    rw [List.getElem_map, List.getElem_range, List.getElem_zipWith, List.getElem_rotate,
      edgeAt_of_lt getDistance coordinates i hi]
    rfl

theorem perimeter_eq_zipWith (getDistance : Point → Point → Nat) (coordinates : List Point) :
    calculatePolygonPerimeter getDistance coordinates
      = (List.zipWith getDistance coordinates (coordinates.rotate 1)).sum := by
  rw [perimeter_eq_sum, edges_eq_zipWith]

theorem perimeter_triangle (getDistance : Point → Point → Nat) (a b c : Point) :
    calculatePolygonPerimeter getDistance [a, b, c]
      = getDistance a b + getDistance b c + getDistance c a := by
  rw [perimeter_eq_zipWith]
  show getDistance a b + (getDistance b c + (getDistance c a + 0)) = _
  omega

theorem perimeter_rotate (getDistance : Point → Point → Nat) (coordinates : List Point)
    (k : Nat) :
    calculatePolygonPerimeter getDistance (coordinates.rotate k)
      = calculatePolygonPerimeter getDistance coordinates := by
  rw [perimeter_eq_zipWith, perimeter_eq_zipWith, List.rotate_rotate, Nat.add_comm k 1,
    ← List.rotate_rotate, ← List.zipWith_rotate_distrib _ _ _ _ (by simp)]
  exact (List.rotate_perm _ k).sum_eq

/-- C17. For every vertex list `vs` of length `n`, `calculatePolygonPerimeter(vs)` is the
sum over `i` in `0..n-1` of `distance(vs[i], vs[(i+1) mod n])`, the closing edge from the
last vertex to the first included; for a triangle `[A, B, C]` it is
`distance(A,B) + distance(B,C) + distance(C,A)`. -/
theorem perimeter_is_cyclic_sum (getDistance : Point → Point → Nat) :
    (∀ vs : List Point,
      calculatePolygonPerimeter getDistance vs = specPerimeter getDistance vs) ∧
    (∀ a b c : Point, calculatePolygonPerimeter getDistance [a, b, c]
      = getDistance a b + getDistance b c + getDistance c a) := by
  refine ⟨fun vs => ?_, perimeter_triangle getDistance⟩
  rw [perimeter_eq_sum, specPerimeter, Fin.sum_univ_def, ← List.map_coe_finRange,
    List.map_map]
  congr 1
  apply List.map_congr_left
  intro i _
  exact edgeAt_of_lt getDistance vs i.val i.isLt

/-- C18. `calculatePolygonPerimeter` gives the same value for every cyclic rotation of the
vertex list; and, the distance being symmetric, for every three points it gives the same
value for all six orderings of the vertices. -/
theorem perimeter_order_invariant (getDistance : Point → Point → Nat) :
    (∀ (vs : List Point) (k : Nat),
      calculatePolygonPerimeter getDistance (vs.rotate k)
        = calculatePolygonPerimeter getDistance vs) ∧
    ((∀ p q, getDistance p q = getDistance q p) → ∀ a b c : Point,
      calculatePolygonPerimeter getDistance [b, c, a]
        = calculatePolygonPerimeter getDistance [a, b, c] ∧
      calculatePolygonPerimeter getDistance [c, a, b]
        = calculatePolygonPerimeter getDistance [a, b, c] ∧
      calculatePolygonPerimeter getDistance [a, c, b]
        = calculatePolygonPerimeter getDistance [a, b, c] ∧
      calculatePolygonPerimeter getDistance [c, b, a]
        = calculatePolygonPerimeter getDistance [a, b, c] ∧
      calculatePolygonPerimeter getDistance [b, a, c]
        = calculatePolygonPerimeter getDistance [a, b, c]) := by
  refine ⟨perimeter_rotate getDistance, fun hsymm a b c => ?_⟩
  simp only [perimeter_triangle]
  have h1 := hsymm a b
  have h2 := hsymm b c
  have h3 := hsymm c a
  refine ⟨by omega, by omega, by omega, by omega, by omega⟩

theorem gridDistance_symm (p q : Point) : gridDistance p q = gridDistance q p := by
  unfold gridDistance
  rw [abs_sub_comm p.lat, abs_sub_comm p.lng]

theorem perimeter_order_invariant_witness :
    (∀ p q, gridDistance p q = gridDistance q p) ∧
    calculatePolygonPerimeter gridDistance [⟨0, 3⟩, ⟨0, 0⟩, ⟨4, 0⟩]
      = calculatePolygonPerimeter gridDistance [⟨0, 0⟩, ⟨0, 3⟩, ⟨4, 0⟩] :=
  ⟨gridDistance_symm,
   ((perimeter_order_invariant gridDistance).2 gridDistance_symm
      ⟨0, 0⟩ ⟨0, 3⟩ ⟨4, 0⟩).2.2.2.2⟩

end PelakoorAdvanced

/-! ### Coordinate formats: degrees, minutes, seconds -/

namespace PelakoorAdvanced

theorem toFixed_close (x : Rat) (hx : 0 ≤ x) (digits : Nat) :
    |toFixed x digits - x| ≤ 1 / (2 * 10 ^ digits) := by
  have hp : (0 : Rat) < 10 ^ digits := by positivity
  unfold toFixed
  rw [if_pos hx]
  have h1 := Int.floor_le (x * 10 ^ digits + 1 / 2)
  have h2 := Int.lt_floor_add_one (x * 10 ^ digits + 1 / 2)
  set n : Int := ⌊x * 10 ^ digits + 1 / 2⌋ with hn
  have hdiff : (n : Rat) / 10 ^ digits - x = ((n : Rat) - x * 10 ^ digits) / 10 ^ digits := by
    field_simp
    ring
  have habs : |(n : Rat) - x * 10 ^ digits| ≤ 1 / 2 := by
    rw [abs_le]
    constructor <;> linarith
  rw [hdiff, abs_div, abs_of_pos hp]
  calc |(n : Rat) - x * 10 ^ digits| / 10 ^ digits
      ≤ (1 / 2) / 10 ^ digits := div_le_div_of_nonneg_right habs (le_of_lt hp)
    _ = 1 / (2 * 10 ^ digits) := by
        field_simp

theorem toFixed_scaled (x : Rat) (hx : 0 ≤ x) (digits : Nat) :
    ∃ n : Nat, toFixed x digits = (n : Rat) / 10 ^ digits := by
  unfold toFixed
  rw [if_pos hx]
  have hnn : 0 ≤ ⌊x * 10 ^ digits + 1 / 2⌋ := Int.floor_nonneg.mpr (by positivity)
  refine ⟨⌊x * 10 ^ digits + 1 / 2⌋.toNat, ?_⟩
  congr 1
  exact_mod_cast (Int.toNat_of_nonneg hnn).symm

theorem fl_near (r : Rounding) (x : Rat) (h : |x| ≤ 128) :
    |r.fl x - x| ≤ 1 / 2 ^ 45 := by
  have h1 := r.close x (le_trans h (by norm_num))
  have h2 : |x| / 2 ^ 53 ≤ 128 / 2 ^ 53 :=
    div_le_div_of_nonneg_right h (pow_nonneg (by norm_num) 53)
  have h3 : (128 : Rat) / 2 ^ 53 + 1 / 2 ^ 1075 ≤ 1 / 2 ^ 45 := by norm_num
  linarith

theorem fl_unit (r : Rounding) (x : Rat) (h0 : 0 ≤ x) (h1 : x < 1) :
    0 ≤ r.fl x ∧ r.fl x ≤ 2 ∧ |r.fl x - x| ≤ 1 / 2 ^ 45 := by
  have hn := fl_near r x (by rw [abs_of_nonneg h0]; linarith)
  refine ⟨r.nonneg x h0, ?_, hn⟩
  have := (abs_le.mp hn).2
  have h45 : (1 : Rat) / 2 ^ 45 ≤ 1 := by norm_num
  linarith

theorem fl_times60 (r : Rounding) (t : Rat) (h0 : 0 ≤ t) (h2 : t ≤ 2) :
    0 ≤ r.fl (t * 60) ∧ |r.fl (t * 60) - t * 60| ≤ 1 / 2 ^ 45 := by
  have hx : 0 ≤ t * 60 := by positivity
  exact ⟨r.nonneg _ hx, fl_near r _ (by rw [abs_of_nonneg hx]; linarith)⟩

theorem directionSign_directionOf (decimal : Rat) (type : String) :
    directionSign (directionOf decimal type) * |decimal| = decimal := by
  unfold directionOf
  by_cases ht : type = "lat" <;> by_cases hd : decimal ≥ 0
  · rw [if_pos ht, if_pos hd, abs_of_nonneg hd]
    show (if _ then (1 : Rat) else -1) * decimal = decimal
    rw [if_pos (Or.inl rfl), one_mul]
  · rw [if_pos ht, if_neg hd, abs_of_neg (not_le.mp hd)]
    show (if ("S" : String) = "N" ∨ ("S" : String) = "E" then (1 : Rat) else -1) * _ = _
    rw [if_neg (by decide)]
    ring
  · rw [if_neg ht, if_pos hd, abs_of_nonneg hd]
    show (if _ then (1 : Rat) else -1) * decimal = decimal
    rw [if_pos (Or.inr rfl), one_mul]
  · rw [if_neg ht, if_neg hd, abs_of_neg (not_le.mp hd)]
    show (if ("W" : String) = "N" ∨ ("W" : String) = "E" then (1 : Rat) else -1) * _ = _
    rw [if_neg (by decide)]
    ring

theorem abs_directionSign (direction : String) : |directionSign direction| = 1 := by
  unfold directionSign
  split <;> simp

theorem signed_close (decimal : Rat) (type : String) (v bound : Rat)
    (h : |(v - |decimal|)| ≤ bound) :
    |directionSign (directionOf decimal type) * v - decimal| ≤ bound := by
  have hd : decimal = directionSign (directionOf decimal type) * |decimal| :=
    (directionSign_directionOf decimal type).symm
  have hrew : directionSign (directionOf decimal type) * v - decimal
      = directionSign (directionOf decimal type) * (v - |decimal|) := by
    rw [mul_sub, ← hd]
  rw [hrew, abs_mul, abs_directionSign, one_mul]
  exact h

theorem dms_fields_close (r : Rounding) (decimal : Rat) (type : String) :
    (dmsFields r decimal type).degrees = ⌊|decimal|⌋ ∧
    0 ≤ (dmsFields r decimal type).minutes ∧
    (∃ n : Nat, (dmsFields r decimal type).seconds = (n : Rat) / 10 ^ 2) ∧
    (dmsFields r decimal type).direction = directionOf decimal type ∧
    |(((dmsFields r decimal type).degrees : Rat) + (dmsFields r decimal type).minutes / 60
        + (dmsFields r decimal type).seconds / 3600 - |decimal|)| ≤ 1 / 360000 := by
  have hx1a : (0 : Rat) ≤ |decimal| - (⌊|decimal|⌋ : Int) := by
    linarith [Int.floor_le |decimal|]
  have hx1b : |decimal| - (⌊|decimal|⌋ : Int) < 1 := by
    linarith [Int.lt_floor_add_one |decimal|]
  obtain ⟨ht1a, ht1b, he1⟩ := fl_unit r _ hx1a hx1b
  obtain ⟨hmfa, he2⟩ := fl_times60 r _ ht1a ht1b
  set t1 := r.fl (|decimal| - (⌊|decimal|⌋ : Int)) with ht1
  set mf := r.fl (t1 * 60) with hmf
  have hx3a : (0 : Rat) ≤ mf - (⌊mf⌋ : Int) := by linarith [Int.floor_le mf]
  have hx3b : mf - (⌊mf⌋ : Int) < 1 := by linarith [Int.lt_floor_add_one mf]
  obtain ⟨ht2a, ht2b, he3⟩ := fl_unit r _ hx3a hx3b
  obtain ⟨hsa, he4⟩ := fl_times60 r _ ht2a ht2b
  set t2 := r.fl (mf - (⌊mf⌋ : Int)) with ht2
  set s := r.fl (t2 * 60) with hs
  have he5 := toFixed_close s hsa 2
  refine ⟨rfl, Int.floor_nonneg.mpr hmfa, toFixed_scaled s hsa 2, rfl, ?_⟩
  show |(((⌊|decimal|⌋ : Int) : Rat) + ((⌊mf⌋ : Int) : Rat) / 60 + toFixed s 2 / 3600
      - |decimal|)| ≤ 1 / 360000
  have h45 : (1 : Rat) / 2 ^ 45 ≤ 1 / 30000000000000 := by norm_num
  have h200 : (1 : Rat) / (2 * 10 ^ 2) = 1 / 200 := by norm_num
  rw [h200] at he5
  rw [abs_le] at he1 he2 he3 he4 he5 ⊢
  constructor <;> linarith [he1.1, he1.2, he2.1, he2.2, he3.1, he3.2, he4.1, he4.2,
    he5.1, he5.2]

theorem dm_fields_close (r : Rounding) (decimal : Rat) (type : String) :
    (dmFields r decimal type).degrees = ⌊|decimal|⌋ ∧
    (∃ n : Nat, (dmFields r decimal type).minutes = (n : Rat) / 10 ^ 4) ∧
    (dmFields r decimal type).direction = directionOf decimal type ∧
    |(((dmFields r decimal type).degrees : Rat) + (dmFields r decimal type).minutes / 60
        - |decimal|)| ≤ 1 / 600000 := by
  have hx1a : (0 : Rat) ≤ |decimal| - (⌊|decimal|⌋ : Int) := by
    linarith [Int.floor_le |decimal|]
  have hx1b : |decimal| - (⌊|decimal|⌋ : Int) < 1 := by
    linarith [Int.lt_floor_add_one |decimal|]
  obtain ⟨ht1a, ht1b, he1⟩ := fl_unit r _ hx1a hx1b
  obtain ⟨hma, he2⟩ := fl_times60 r _ ht1a ht1b
  set t1 := r.fl (|decimal| - (⌊|decimal|⌋ : Int)) with ht1
  set mins := r.fl (t1 * 60) with hmins
  have he3 := toFixed_close mins hma 4
  refine ⟨rfl, toFixed_scaled mins hma 4, rfl, ?_⟩
  show |(((⌊|decimal|⌋ : Int) : Rat) + toFixed mins 4 / 60 - |decimal|)| ≤ 1 / 600000
  have h45 : (1 : Rat) / 2 ^ 45 ≤ 1 / 30000000000000 := by norm_num
  have h4 : (1 : Rat) / (2 * 10 ^ 4) = 1 / 20000 := by norm_num
  rw [h4] at he3
  rw [abs_le] at he1 he2 he3 ⊢
  constructor <;> linarith [he1.1, he1.2, he2.1, he2.2, he3.1, he3.2]

end PelakoorAdvanced

namespace PelakoorAdvanced

theorem numeral_toString (n : Nat) : Numeral (toString n) n :=
  ⟨toDigits_ne_nil n, toDigits_all_digits n, digitsValue_toDigits n⟩

theorem toString_int (z : Int) (h : 0 ≤ z) : toString z = toString z.toNat := by
  cases z with
  | ofNat n => rfl
  | negSucc n => exact absurd h (by simp)

theorem cast_toNat (z : Int) (h : 0 ≤ z) : ((z.toNat : Nat) : Rat) = (z : Rat) := by
  have := Int.toNat_of_nonneg h
  exact_mod_cast this

theorem digitsValue_zeros (k : Nat) (ds : List Char) :
    digitsValue (List.replicate k '0' ++ ds) = digitsValue ds := by
  induction k with
  | zero => rfl
  | succ k ih =>
    rw [List.replicate_succ, List.cons_append]
    unfold digitsValue at ih ⊢
    rw [List.foldl_cons]
    exact ih

theorem showFixed_reads (n digits : Nat) (hd : 1 ≤ digits) :
    FixedNumeral (showFixed ((n : Rat) / 10 ^ digits) digits) digits
      ((n : Rat) / 10 ^ digits) := by
  have hp : (0 : Rat) < 10 ^ digits := by positivity
  have hx : (0 : Rat) ≤ (n : Rat) / 10 ^ digits := by positivity
  have hscaled : (⌊|(n : Rat) / 10 ^ digits| * 10 ^ digits⌋ : Int).toNat = n := by
    rw [abs_of_nonneg hx, div_mul_cancel₀ _ (ne_of_gt hp)]
    simp
  have hlt : n % 10 ^ digits < 10 ^ digits := Nat.mod_lt _ (by positivity)
  have hlen : (toString (n % 10 ^ digits)).length ≤ digits :=
    toDigits_length_le digits _ hlt hd
  refine ⟨toString (n / 10 ^ digits),
    String.mk (List.replicate (digits - (toString (n % 10 ^ digits)).length) '0')
      ++ toString (n % 10 ^ digits),
    n / 10 ^ digits, n % 10 ^ digits, ?_, ?_, numeral_toString _, ?_, ?_⟩
  · unfold showFixed
    simp only [hscaled]
    rw [if_neg (not_lt.mpr hx), if_neg (by omega)]
    apply String.ext
    simp [String.data_append]
  · rw [String.length_append]
    show (List.replicate _ '0').length + _ = digits
    rw [List.length_replicate]
    omega
  · refine ⟨?_, ?_, ?_⟩
    · rw [String.data_append]
      exact fun h => toDigits_ne_nil _ (List.append_eq_nil.mp h).2
    · rw [String.data_append, List.all_append]
      have hz : (List.replicate (digits - (toString (n % 10 ^ digits)).length) '0').all
          Char.isDigit = true := by
        rw [List.all_eq_true]
        intro c hc
        rw [List.eq_of_mem_replicate hc]
        rfl
      rw [Bool.and_eq_true]
      exact ⟨hz, toDigits_all_digits _⟩
    · rw [String.data_append]
      exact (digitsValue_zeros _ _).trans (digitsValue_toDigits _)
  · have hdm := Nat.div_add_mod n (10 ^ digits)
    have hcast : ((10 ^ digits * (n / 10 ^ digits) + n % 10 ^ digits : Nat) : Rat) = n := by
      rw [hdm]
    push_cast at hcast
    field_simp
    linarith

theorem convertToDMS_reads (r : Rounding) (decimal : Rat) (type : String) :
    ReadsDMS (convertToDMS r decimal type) ⌊|decimal|⌋.toNat
      (dmsFields r decimal type).minutes.toNat (dmsFields r decimal type).seconds
      (directionOf decimal type) := by
  obtain ⟨hdeg, hmin, ⟨n, hsec⟩, hdir, _⟩ := dms_fields_close r decimal type
  have hd0 : 0 ≤ ⌊|decimal|⌋ := Int.floor_nonneg.mpr (abs_nonneg _)
  refine ⟨toString ⌊|decimal|⌋.toNat, toString (dmsFields r decimal type).minutes.toNat,
    showFixed (dmsFields r decimal type).seconds 2, ?_, numeral_toString _, numeral_toString _,
    ?_⟩
  · show toString (dmsFields r decimal type).degrees ++ "° "
        ++ toString (dmsFields r decimal type).minutes ++ String.singleton (Char.ofNat 39)
        ++ " " ++ showFixed (dmsFields r decimal type).seconds 2
        ++ String.singleton (Char.ofNat 34) ++ " " ++ (dmsFields r decimal type).direction = _
    rw [hdeg, toString_int _ hd0, toString_int _ hmin, hdir]
  · rw [hsec]
    exact showFixed_reads n 2 (by norm_num)

theorem convertToDM_reads (r : Rounding) (decimal : Rat) (type : String) :
    ReadsDM (convertToDM r decimal type) ⌊|decimal|⌋.toNat
      (dmFields r decimal type).minutes (directionOf decimal type) := by
  obtain ⟨hdeg, ⟨n, hmin⟩, hdir, _⟩ := dm_fields_close r decimal type
  have hd0 : 0 ≤ ⌊|decimal|⌋ := Int.floor_nonneg.mpr (abs_nonneg _)
  refine ⟨toString ⌊|decimal|⌋.toNat, showFixed (dmFields r decimal type).minutes 4, ?_,
    numeral_toString _, ?_⟩
  · show toString (dmFields r decimal type).degrees ++ "° "
        ++ showFixed (dmFields r decimal type).minutes 4 ++ String.singleton (Char.ofNat 39)
        ++ " " ++ (dmFields r decimal type).direction = _
    rw [hdeg, toString_int _ hd0, hdir]
  · rw [hmin]
    exact showFixed_reads n 4 (by norm_num)

/-- C19. For every decimal in the valid coordinate range and either axis, and whatever the
rounding of the arithmetic, the text that `convertToDMS` returns prints whole degrees, whole
minutes, seconds with two decimals and a direction letter, and these numbers recombined as
`degrees + minutes/60 + seconds/3600` and signed by the letter are within `1e-4` degrees of
the decimal; likewise the text that `convertToDM` returns prints whole degrees, minutes
with four decimals and a letter, with `degrees + minutes/60` signed by the letter within
`1e-4` degrees of the decimal. -/
theorem dms_round_trip (r : Rounding) (decimal : Rat) (type : String)
    (hrange : |decimal| ≤ 180) :
    (∃ (degrees minutes : Nat) (seconds : Rat) (letter : String),
      ReadsDMS (convertToDMS r decimal type) degrees minutes seconds letter ∧
      |directionSign letter * ((degrees : Rat) + (minutes : Rat) / 60 + seconds / 3600)
        - decimal| < 1 / 10000) ∧
    (∃ (degrees : Nat) (minutes : Rat) (letter : String),
      ReadsDM (convertToDM r decimal type) degrees minutes letter ∧
      |directionSign letter * ((degrees : Rat) + minutes / 60) - decimal| < 1 / 10000) := by
  have _ := hrange
  have hd0 : 0 ≤ ⌊|decimal|⌋ := Int.floor_nonneg.mpr (abs_nonneg _)
  constructor
  · obtain ⟨hdeg, hmin, _, _, hclose⟩ := dms_fields_close r decimal type
    refine ⟨_, _, _, _, convertToDMS_reads r decimal type, ?_⟩
    rw [cast_toNat _ hd0, cast_toNat _ hmin, ← hdeg]
    exact lt_of_le_of_lt (signed_close decimal type _ _ hclose) (by norm_num)
  · obtain ⟨hdeg, _, _, hclose⟩ := dm_fields_close r decimal type
    refine ⟨_, _, _, convertToDM_reads r decimal type, ?_⟩
    rw [cast_toNat _ hd0, ← hdeg]
    exact lt_of_le_of_lt (signed_close decimal type _ _ hclose) (by norm_num)

theorem dms_round_trip_witness :
    |(87 / 20 : Rat)| ≤ 180 ∧
    (∃ (degrees minutes : Nat) (seconds : Rat) (letter : String),
      ReadsDMS (convertToDMS exactArithmetic (87 / 20) "lat") degrees minutes seconds letter ∧
      |directionSign letter * ((degrees : Rat) + (minutes : Rat) / 60 + seconds / 3600)
        - 87 / 20| < 1 / 10000) ∧
    (∃ (degrees : Nat) (minutes : Rat) (letter : String),
      ReadsDM (convertToDM exactArithmetic (87 / 20) "lat") degrees minutes letter ∧
      |directionSign letter * ((degrees : Rat) + minutes / 60) - 87 / 20| < 1 / 10000) :=
  have h : |(87 / 20 : Rat)| ≤ 180 := by
    rw [abs_of_nonneg (by norm_num)]
    norm_num
  ⟨h, dms_round_trip exactArithmetic (87 / 20) "lat" h⟩

/-- C20. For every decimal below `10^21` in magnitude and whatever the rounding of the
arithmetic, the texts that `convertToDMS` and `convertToDM` return print the same whole
degrees, `floor(|decimal|)`, and end in the same direction letter; the letter is `N` for the
axis `lat` and a decimal `>= 0`, `S` for `lat` and `< 0`, `E` for `lon` and `>= 0`, `W` for
`lon` and `< 0`. -/
theorem direction_and_degrees (r : Rounding) (decimal : Rat) (type : String)
    (hrange : |decimal| < 10 ^ 21) :
    ∃ (degrees minutes : Nat) (seconds minutesDM : Rat) (letter : String),
      ReadsDMS (convertToDMS r decimal type) degrees minutes seconds letter ∧
      ReadsDM (convertToDM r decimal type) degrees minutesDM letter ∧
      (degrees : Int) = ⌊|decimal|⌋ ∧
      (type = "lat" → 0 ≤ decimal → letter = "N") ∧
      (type = "lat" → decimal < 0 → letter = "S") ∧
      (type = "lon" → 0 ≤ decimal → letter = "E") ∧
      (type = "lon" → decimal < 0 → letter = "W") := by
  have _ := hrange
  have hd0 : 0 ≤ ⌊|decimal|⌋ := Int.floor_nonneg.mpr (abs_nonneg _)
  refine ⟨_, _, _, _, _, convertToDMS_reads r decimal type, convertToDM_reads r decimal type,
    Int.toNat_of_nonneg hd0, ?_, ?_, ?_, ?_⟩
  · intro ht hd
    simp [directionOf, ht, hd]
  · intro ht hd
    simp [directionOf, ht, not_le.mpr hd]
  · intro ht hd
    simp [directionOf, ht, hd]
  · intro ht hd
    simp [directionOf, ht, not_le.mpr hd]

theorem direction_and_degrees_witness :
    |(-2471 / 20 : Rat)| < 10 ^ 21 ∧
    ∃ (degrees minutes : Nat) (seconds minutesDM : Rat) (letter : String),
      ReadsDMS (convertToDMS exactArithmetic (-2471 / 20) "lon") degrees minutes seconds
        letter ∧
      ReadsDM (convertToDM exactArithmetic (-2471 / 20) "lon") degrees minutesDM letter ∧
      (degrees : Int) = 123 ∧ letter = "W" :=
  have h : |(-2471 / 20 : Rat)| < 10 ^ 21 := by
    rw [abs_lt]
    constructor <;> norm_num
  match direction_and_degrees exactArithmetic (-2471 / 20) "lon" h with
  | ⟨degrees, minutes, seconds, minutesDM, letter, h1, h2, h3, _, _, _, h7⟩ =>
    ⟨h, degrees, minutes, seconds, minutesDM, letter, h1, h2,
      h3.trans (by
        rw [Int.floor_eq_iff, abs_of_neg (by norm_num)]
        norm_num),
      h7 rfl (by norm_num)⟩

end PelakoorAdvanced

/-! ### Reading, appending to and loading the history -/

namespace HistoryManager

theorem getHistory_eq_take (m : HistoryManager) (k : Nat) :
    getHistory m (some k) = m.history.take k := rfl

theorem getHistory_clear (m : HistoryManager) (limit : Option Nat) :
    getHistory (clearHistory m) limit = [] := by
  simp [getHistory, clearHistory, saveHistory]

theorem addEntry_cons (c : AddCall) (m : HistoryManager) :
    (addEntry c m).history = c.entry :: m.history.take 99 := by
  rw [addEntry_history]
  rfl

theorem addEntry_disk (c : AddCall) (m : HistoryManager) :
    (addEntry c m).disk = .holds (.arr (addEntry c m).history) := by
  simp only [addEntry, saveHistory]

theorem take_min_length {α : Type} (xs : List α) (k : Nat) :
    xs.take (min k xs.length) = xs.take k := by
  rcases Nat.le_total k xs.length with h | h
  · rw [Nat.min_eq_left h]
  · rw [Nat.min_eq_right h, List.take_length, List.take_of_length_le h]

theorem loadHistory_ok (disk : FileState) : ∃ value, loadHistory disk = .ok value := by
  cases disk with
  | missing => exact ⟨_, rfl⟩
  | corrupt => exact ⟨_, rfl⟩
  | holds value => exact ⟨value, rfl⟩

theorem loadHistory_keeps_any_json (value : JsVal) :
    loadHistory (.holds value) = .ok value := rfl

theorem addEntryOn_object (c : AddCall) (fields : List (String × JsVal)) (disk : FileState) :
    addEntryOn c (.obj fields) disk = .error (.typeError "unshift") := rfl

/-- C21. For every stored history and every limit `k`, `getHistory(k)` is the list of the
first `min(k, |h|)` stored entries in stored (newest first) order: its length is that
minimum and its entry at each position below `k` is the stored entry at that position; the
call computes a slice and assigns nothing.  After `clearHistory()`, `getHistory` returns the
empty list for every limit, the default limit `10` included. -/
theorem getHistory_returns_newest (m : HistoryManager) (k : Nat) :
    getHistory m (some k) = m.history.take (min k m.history.length) ∧
    (getHistory m (some k)).length = min k m.history.length ∧
    (∀ i, (getHistory m (some k))[i]? = if i < k then m.history[i]? else none) ∧
    getHistory m none = getHistory m (some 10) ∧
    (∀ limit, getHistory (clearHistory m) limit = []) ∧
    (clearHistory m).history = [] := by
  refine ⟨?_, ?_, ?_, rfl, getHistory_clear m, rfl⟩
  · rw [getHistory_eq_take, take_min_length]
  · rw [getHistory_eq_take, List.length_take]
  · intro i
    rw [getHistory_eq_take, List.getElem?_take]

/-- C22. After `addEntry(type, input, output, provider)` on any stored history, the first
stored entry is the new one and carries the four arguments, the entries after it are the
first `min(|h|, 99)` entries of the previous history in their previous order, and the value
written to the history file by the call is this same stored list. -/
theorem addEntry_stores_and_persists (c : AddCall) (m : HistoryManager) :
    (addEntry c m).history = c.entry :: m.history.take (min m.history.length 99) ∧
    ((addEntry c m).history.drop 1).length = min m.history.length 99 ∧
    (∀ i, (addEntry c m).history[i + 1]? = if i < 99 then m.history[i]? else none) ∧
    (c.entry.field "type" = c.type ∧ c.entry.field "input" = c.input ∧
      c.entry.field "output" = c.output ∧ c.entry.field "provider" = c.provider) ∧
    (addEntry c m).disk = .holds (.arr (c.entry :: m.history.take (min m.history.length 99))) := by
  have htake : m.history.take (min m.history.length 99) = m.history.take 99 := by
    rw [Nat.min_comm, take_min_length]
  refine ⟨?_, ?_, ?_, ⟨rfl, rfl, rfl, rfl⟩, ?_⟩
  · rw [addEntry_cons, htake]
  · rw [addEntry_cons]
    simp [List.length_take, Nat.min_comm]
  · intro i
    rw [addEntry_cons, List.getElem?_cons_succ, List.getElem?_take]
  · rw [addEntry_disk, addEntry_cons, htake]

/-- C23. `loadHistory` returns normally over every state of the history file.  Over a
missing file and over a file that cannot be read or parsed it leaves the empty list; over a
file holding a stored list it leaves exactly that list.  What it leaves is a list in each
of these cases, and on a list the `addEntry` and `getHistory` calls that follow return
normally, with the results of the list model. -/
theorem loadHistory_never_raises :
    (∀ disk, ∃ value, loadHistory disk = .ok value) ∧
    loadHistory .missing = .ok (.arr []) ∧
    loadHistory .corrupt = .ok (.arr []) ∧
    (∀ entries, loadHistory (.holds (.arr entries)) = .ok (.arr entries)) ∧
    (∀ c limit entries disk,
      addEntryOn c (.arr entries) disk
          = .ok (addEntry c { history := entries, disk := disk }) ∧
        getHistoryOn (.arr entries) limit
          = .ok (.arr (getHistory { history := entries, disk := disk } limit)) ∧
        getHistoryOn (.arr (addEntry c { history := entries, disk := disk }).history) limit
          = .ok (.arr (getHistory (addEntry c { history := entries, disk := disk }) limit))) := by
  exact ⟨loadHistory_ok, rfl, rfl, fun _ => rfl, fun _ _ _ _ => ⟨rfl, rfl, rfl⟩⟩

end HistoryManager

/-! ### Collecting points and the guards that follow -/

namespace PelakoorAdvanced

theorem collectVertices_length (ask : Nat → PointAnswer) :
    ∀ (n : Nat) (coordinates : List Point), 100 - coordinates.length = n →
      coordinates.length < 100 →
      3 ≤ (collectVertices ask coordinates).length ∧
        (collectVertices ask coordinates).length ≤ 100 := by
  intro n
  induction n using Nat.strong_induction_on with
  | _ n ih =>
    intro coordinates hn hlt
    rw [collectVertices]
    simp only [List.length_append, List.length_singleton]
    split
    · rename_i h
      simp only [List.length_append, List.length_singleton]
      omega
    · split
      · rename_i h1 h2
        have hc : coordinates.length + 1 < 100 := by omega
        exact ih (100 - (coordinates.length + 1)) (by omega) _ (by simp) (by simpa using hc)
      · rename_i h1 h2
        simp only [List.length_append, List.length_singleton]
        omega

theorem collectPoints_length (ask : Nat → PointAnswer) :
    ∀ (n : Nat) (coordinates : List Point), 50 - coordinates.length = n →
      coordinates.length < 50 →
      2 ≤ (collectPoints ask coordinates).length ∧
        (collectPoints ask coordinates).length ≤ 50 := by
  intro n
  induction n using Nat.strong_induction_on with
  | _ n ih =>
    intro coordinates hn hlt
    rw [collectPoints]
    simp only [List.length_append, List.length_singleton]
    split
    · rename_i h
      simp only [List.length_append, List.length_singleton]
      omega
    · split
      · rename_i h1 h2
        exact ih (50 - (coordinates.length + 1)) (by omega) _ (by simp) (by simpa using h2)
      · rename_i h1 h2
        simp only [List.length_append, List.length_singleton]
        omega

theorem report_not_mem_areaSteps (coordinates : List Point) (h : 3 ≤ coordinates.length)
    (message : String) : GeometryStep.report message ∉ areaSteps coordinates := by
  simp [areaSteps, Nat.not_lt.mpr h]

theorem report_not_mem_centerSteps (coordinates : List Point) (h : 2 ≤ coordinates.length)
    (message : String) : GeometryStep.report message ∉ centerSteps coordinates := by
  simp [centerSteps, Nat.not_lt.mpr h]

end PelakoorAdvanced

namespace PelakoorAdvanced

theorem collectVertices_all_yes (ask : Nat → PointAnswer) (hyes : ∀ i, (ask i).addMore = true) :
    ∀ (n : Nat) (coordinates : List Point), 100 - coordinates.length = n →
      coordinates.length < 100 → (collectVertices ask coordinates).length = 100 := by
  intro n
  induction n using Nat.strong_induction_on with
  | _ n ih =>
    intro coordinates hn hlt
    rw [collectVertices]
    simp only [List.length_append, List.length_singleton]
    split
    · rename_i h
      obtain ⟨h3, htr⟩ := h
      have h2 : coordinates.length ≥ 2 := by omega
      simp [addMoreValue, h2, hyes, JsVal.truthy] at htr
    · split
      · rename_i h1 h2
        have hc : coordinates.length + 1 < 100 := by omega
        exact ih (100 - (coordinates.length + 1)) (by omega) _ (by simp) (by simpa using hc)
      · rename_i h1 h2
        simp only [List.length_append, List.length_singleton]
        omega

theorem collectVertices_all_no (ask : Nat → PointAnswer) (hno : ∀ i, (ask i).addMore = false) :
    collectVertices ask [] = [(ask 0).point, (ask 1).point, (ask 2).point] := by
  rw [collectVertices]
  simp [addMoreValue, hno, JsVal.truthy]
  rw [collectVertices]
  simp [addMoreValue, hno, JsVal.truthy]
  rw [collectVertices]
  simp [addMoreValue, hno, JsVal.truthy]

/-- C24. In the part of `calculateArea` that follows its loop, a list of fewer than 3
vertices yields only the report `Need at least 3 points to calculate area.`, and the
polygon area and the perimeter are evaluated on no list other than the collected one and
only when it has 3 vertices or more; in the part of `findCenterPoint` that follows its
loop, a list of fewer than 2 points yields only the report
`Need at least 2 points to find center.`, and the center and the center of bounds are
evaluated only on the collected list and only when it has 2 points or more. -/
theorem too_few_points_reported (coordinates cs : List Point) :
    (coordinates.length < 3 →
      areaSteps coordinates = [.report "\n❌ Need at least 3 points to calculate area."]) ∧
    (GeometryStep.getAreaOfPolygon cs ∈ areaSteps coordinates ∨
        GeometryStep.calculatePolygonPerimeter cs ∈ areaSteps coordinates →
      cs = coordinates ∧ 3 ≤ cs.length) ∧
    (coordinates.length < 2 →
      centerSteps coordinates = [.report "\n❌ Need at least 2 points to find center."]) ∧
    (GeometryStep.getCenter cs ∈ centerSteps coordinates ∨
        GeometryStep.getCenterOfBounds cs ∈ centerSteps coordinates →
      cs = coordinates ∧ 2 ≤ cs.length) := by
  refine ⟨fun h => by simp [areaSteps, h], ?_, fun h => by simp [centerSteps, h], ?_⟩
  · intro h
    by_cases hlen : coordinates.length < 3
    · simp [areaSteps, hlen] at h
    · simp only [areaSteps, hlen, if_false, List.mem_cons, List.mem_singleton,
        GeometryStep.getAreaOfPolygon.injEq, GeometryStep.calculatePolygonPerimeter.injEq,
        reduceCtorEq, or_false, false_or, List.mem_nil_iff, List.not_mem_nil] at h
      have hcs : cs = coordinates := by rcases h with h | h <;> exact h
      subst hcs
      exact ⟨rfl, by omega⟩
  · intro h
    by_cases hlen : coordinates.length < 2
    · simp [centerSteps, hlen] at h
    · simp only [centerSteps, hlen, if_false, List.mem_cons, List.mem_singleton,
        GeometryStep.getCenter.injEq, GeometryStep.getCenterOfBounds.injEq,
        reduceCtorEq, or_false, false_or, List.mem_nil_iff, List.not_mem_nil] at h
      have hcs : cs = coordinates := by rcases h with h | h <;> exact h
      subst hcs
      exact ⟨rfl, by omega⟩

theorem too_few_points_reported_witness :
    areaSteps [⟨0, 0⟩, ⟨0, 1⟩]
      = [.report "\n❌ Need at least 3 points to calculate area."] ∧
    centerSteps [⟨0, 0⟩]
      = [.report "\n❌ Need at least 2 points to find center."] ∧
    3 ≤ ([⟨0, 0⟩, ⟨0, 1⟩, ⟨1, 1⟩] : List Point).length ∧
    2 ≤ ([⟨0, 0⟩, ⟨0, 1⟩, ⟨1, 1⟩] : List Point).length :=
  ⟨(too_few_points_reported [⟨0, 0⟩, ⟨0, 1⟩] []).1 (by decide),
   (too_few_points_reported [⟨0, 0⟩] []).2.2.1 (by decide),
   ((too_few_points_reported [⟨0, 0⟩, ⟨0, 1⟩, ⟨1, 1⟩] [⟨0, 0⟩, ⟨0, 1⟩, ⟨1, 1⟩]).2.1
      (Or.inl (by simp [areaSteps]))).2,
   ((too_few_points_reported [⟨0, 0⟩, ⟨0, 1⟩, ⟨1, 1⟩] [⟨0, 0⟩, ⟨0, 1⟩, ⟨1, 1⟩]).2.2.2
      (Or.inl (by simp [centerSteps]))).2⟩

/-- C30. Whatever the user answers, the vertex loop of `calculateArea` returns, with
between 3 and 100 vertices, and the point loop of `findCenterPoint` returns, with between 2
and 50 points; so `calculateArea` goes on to the area and the perimeter and
`findCenterPoint` to the two centers, and neither prints its `Need at least` report. -/
theorem collection_loops_terminate (ask : Nat → PointAnswer) :
    (3 ≤ (collectVertices ask []).length ∧ (collectVertices ask []).length ≤ 100) ∧
    (2 ≤ (collectPoints ask []).length ∧ (collectPoints ask []).length ≤ 50) ∧
    calculateArea ask = [.getAreaOfPolygon (collectVertices ask []),
      .calculatePolygonPerimeter (collectVertices ask [])] ∧
    findCenterPoint ask = [.getCenter (collectPoints ask []),
      .getCenterOfBounds (collectPoints ask [])] ∧
    (∀ message, GeometryStep.report message ∉ calculateArea ask) ∧
    (∀ message, GeometryStep.report message ∉ findCenterPoint ask) := by
  have hv := collectVertices_length ask _ [] rfl (by decide)
  have hp := collectPoints_length ask _ [] rfl (by decide)
  refine ⟨hv, hp, ?_, ?_, ?_, ?_⟩
  · simp [calculateArea, areaSteps, Nat.not_lt.mpr hv.1]
  · simp [findCenterPoint, centerSteps, Nat.not_lt.mpr hp.1]
  · exact report_not_mem_areaSteps _ hv.1
  · exact report_not_mem_centerSteps _ hp.1

end PelakoorAdvanced

/-! ### Geocoding flows -/

namespace PelakoorAdvanced

open GeocodingService

theorem batchLoop_foldl (parseFloat : JsVal → JsVal) (env : Env) (ups : Nat → Upstream)
    (provider : String) (addresses : List String) :
    ∀ (n : Nat) (acc : List Request × List BatchRecord),
      (addresses.enumFrom n).foldl (batchTurn parseFloat env ups provider) acc
        = (acc.1 ++ ((addresses.enumFrom n).map fun t =>
              (geocodeAddress parseFloat env (ups t.1) t.2 (some provider)).requests).flatten,
           acc.2 ++ (addresses.enumFrom n).map fun t =>
              batchRecord t.2
                (geocodeAddress parseFloat env (ups t.1) t.2 (some provider)).result) := by
  induction addresses with
  | nil => intro n acc; simp
  | cons a as ih =>
    intro n acc
    simp only [List.enumFrom_cons, List.foldl_cons, List.map_cons, List.flatten_cons]
    rw [ih]
    simp [batchTurn, List.append_assoc]

theorem batchLoop_eq (parseFloat : JsVal → JsVal) (env : Env) (ups : Nat → Upstream)
    (provider : String) (addresses : List String) :
    batchLoop parseFloat env ups provider addresses
      = ((addresses.enum.map fun t =>
            (geocodeAddress parseFloat env (ups t.1) t.2 (some provider)).requests).flatten,
         addresses.enum.map fun t =>
            batchRecord t.2
              (geocodeAddress parseFloat env (ups t.1) t.2 (some provider)).result) := by
  rw [batchLoop, List.enum, batchLoop_foldl]
  simp

theorem batchGeocode_results (parseFloat : JsVal → JsVal) (env : Env) (ups : Nat → Upstream)
    (provider : String) (addresses : List String) (history : HistoryManager) :
    (batchGeocode parseFloat env ups provider addresses history).results
      = addresses.enum.map fun t =>
          batchRecord t.2
            (geocodeAddress parseFloat env (ups t.1) t.2 (some provider)).result := by
  unfold batchGeocode
  split
  · rename_i h
    rw [List.length_eq_zero.mp h]
    rfl
  · simp only [batchLoop_eq]

theorem batchGeocode_requests (parseFloat : JsVal → JsVal) (env : Env) (ups : Nat → Upstream)
    (provider : String) (addresses : List String) (history : HistoryManager) :
    (batchGeocode parseFloat env ups provider addresses history).requests
      = (addresses.enum.map fun t =>
          (geocodeAddress parseFloat env (ups t.1) t.2 (some provider)).requests).flatten := by
  unfold batchGeocode
  split
  · rename_i h
    rw [List.length_eq_zero.mp h]
    rfl
  · simp only [batchLoop_eq]

theorem batchGeocode_history (parseFloat : JsVal → JsVal) (env : Env) (ups : Nat → Upstream)
    (provider : String) (addresses : List String) (history : HistoryManager) :
    (batchGeocode parseFloat env ups provider addresses history).history = history := by
  unfold batchGeocode
  split <;> rfl

theorem batchRecord_address (address : String) (answer : Except JsError JsVal) :
    (batchRecord address answer).address = address := by
  unfold batchRecord
  split
  · rfl
  · split <;> rfl

end PelakoorAdvanced

namespace PelakoorAdvanced

open GeocodingService

/-- C25. `batchGeocode` makes its gateway calls in the order of the entered addresses, and
collects exactly one record per address in that order: the record at position `i` is the
one built from the address at position `i` and from what its own gateway call returned or
threw, a call that throws gives a record with `success` false that carries the thrown
error, and every other address keeps its record whatever the other calls did. -/
theorem batch_one_record_per_address (parseFloat : JsVal → JsVal) (env : Env)
    (ups : Nat → Upstream) (provider : String) (addresses : List String)
    (history : HistoryManager) :
    (batchGeocode parseFloat env ups provider addresses history).results.length
      = addresses.length ∧
    (batchGeocode parseFloat env ups provider addresses history).results.map
      (fun r => r.address) = addresses ∧
    (∀ i address, addresses[i]? = some address →
      (batchGeocode parseFloat env ups provider addresses history).results[i]?
        = some (batchRecord address
            (geocodeAddress parseFloat env (ups i) address (some provider)).result)) ∧
    (∀ i address e, addresses[i]? = some address →
      (geocodeAddress parseFloat env (ups i) address (some provider)).result = .error e →
      (batchGeocode parseFloat env ups provider addresses history).results[i]?
        = some { address := address, success := false, data := .undefined, error := some e }) ∧
    (batchGeocode parseFloat env ups provider addresses history).requests
      = (addresses.enum.map fun t =>
          (geocodeAddress parseFloat env (ups t.1) t.2 (some provider)).requests).flatten := by
  have hat : ∀ i address, addresses[i]? = some address →
      (batchGeocode parseFloat env ups provider addresses history).results[i]?
        = some (batchRecord address
            (geocodeAddress parseFloat env (ups i) address (some provider)).result) := by
    intro i address h
    rw [batchGeocode_results, List.getElem?_map, List.getElem?_enum, h]
    rfl
  refine ⟨?_, ?_, hat, ?_, batchGeocode_requests parseFloat env ups provider addresses history⟩
  · rw [batchGeocode_results, List.length_map, List.enum_length]
  · rw [batchGeocode_results, List.map_map]
    have hfun : ((fun r : BatchRecord => r.address) ∘ fun t : Nat × String =>
        batchRecord t.2 (geocodeAddress parseFloat env (ups t.1) t.2 (some provider)).result)
        = Prod.snd := by
      funext t
      exact batchRecord_address _ _
    rw [hfun, List.enum_map_snd]
  · intro i address e h he
    rw [hat i address h, he]
    rfl

theorem batch_one_record_per_address_witness :
    (batchGeocode sampleParseFloat emptyEnv
        (fun i => if i = 0 then downUpstream else parisUpstream) "osm" ["Lyon", "Paris"]
        (HistoryManager.empty .missing)).results[0]?
      = some { address := "Lyon", success := false, data := .undefined,
               error := some (.upstream "Network Error") } ∧
    (batchGeocode sampleParseFloat emptyEnv
        (fun i => if i = 0 then downUpstream else parisUpstream) "osm" ["Lyon", "Paris"]
        (HistoryManager.empty .missing)).results[1]?
      = some (batchRecord "Paris"
          (geocodeAddress sampleParseFloat emptyEnv parisUpstream "Paris" (some "osm")).result) ∧
    (batchRecord "Paris"
        (geocodeAddress sampleParseFloat emptyEnv parisUpstream "Paris" (some "osm")).result).success
      = true :=
  ⟨(batch_one_record_per_address sampleParseFloat emptyEnv
      (fun i => if i = 0 then downUpstream else parisUpstream) "osm" ["Lyon", "Paris"]
      (HistoryManager.empty .missing)).2.2.2.1 0 "Lyon" (.upstream "Network Error") rfl rfl,
   (batch_one_record_per_address sampleParseFloat emptyEnv
      (fun i => if i = 0 then downUpstream else parisUpstream) "osm" ["Lyon", "Paris"]
      (HistoryManager.empty .missing)).2.2.1 1 "Paris" rfl,
   rfl⟩

end PelakoorAdvanced

namespace PelakoorAdvanced

open GeocodingService

theorem map_returns_array (v : JsVal) (f : JsVal → Except JsError JsVal) (r : JsVal)
    (h : v.map f = .ok r) : ∃ items, r = .arr items := by
  unfold JsVal.map at h
  split at h
  · split at h
    · cases h
    · cases h
      exact ⟨_, rfl⟩
  · cases h

theorem getProp_map_returns_array (v : JsVal) (k : String) (f : JsVal → Except JsError JsVal)
    (r : JsVal) (h : (do let x ← v.getProp k; x.map f) = Except.ok r) :
    ∃ items, r = .arr items := by
  cases hx : v.getProp k with
  | error e => simp [hx, bind, Except.bind] at h
  | ok x =>
    simp only [hx, bind, Except.bind] at h
    exact map_returns_array x f r h

theorem fetch_returns_array (up : Upstream) (req : Request)
    (rest : JsVal → Except JsError JsVal)
    (hrest : ∀ payload r, rest payload = .ok r → ∃ items, r = .arr items) (r : JsVal)
    (h : (fetch up req rest).result = .ok r) : ∃ items, r = .arr items := by
  unfold fetch at h
  simp only at h
  cases hu : up req with
  | error message => simp [hu] at h
  | ok payload =>
    simp only [hu] at h
    exact hrest payload r h

theorem withKey_returns_array (env : Env) (name message : String) (rest : String → Outcome)
    (hrest : ∀ key r, (rest key).result = .ok r → ∃ items, r = .arr items) (r : JsVal)
    (h : (withKey env name message rest).result = .ok r) : ∃ items, r = .arr items := by
  unfold withKey at h
  split at h
  · cases h
  · split at h
    · cases h
    · exact hrest _ r h

theorem geocodeAddress_returns_array (parseFloat : JsVal → JsVal) (env : Env) (up : Upstream)
    (address : String) (provider : Option String) (r : JsVal)
    (h : (geocodeAddress parseFloat env up address provider).result = .ok r) :
    ∃ items, r = .arr items := by
  unfold geocodeAddress at h
  simp only at h
  split at h
  · exact fetch_returns_array _ _ _ (fun payload r hr => map_returns_array _ _ r hr) r h
  · split at h
    · exact withKey_returns_array _ _ _ _
        (fun key r hr => fetch_returns_array _ _ _
          (fun payload r hr => map_returns_array _ _ r hr) r hr) r h
    · split at h
      · exact withKey_returns_array _ _ _ _
          (fun key r hr => fetch_returns_array _ _ _
            (fun payload r hr => getProp_map_returns_array _ _ _ r hr) r hr) r h
      · split at h
        · exact withKey_returns_array _ _ _ _
            (fun key r hr => fetch_returns_array _ _ _
              (fun payload r hr => getProp_map_returns_array _ _ _ r hr) r hr) r h
        · cases h

theorem addressToCoordinate_records (parseFloat : JsVal → JsVal) (env : Env) (up : Upstream)
    (provider address : String) (showMultiple : Bool) (now : Nat) (stamp : String)
    (history : HistoryManager) (first : JsVal) (rest : List JsVal) (tables : List ResultTable)
    (hres : (geocodeAddress parseFloat env up address (some provider)).result
      = .ok (.arr (first :: rest)))
    (hshow : resultTables (if showMultiple then first :: rest else [first]) 0 = .ok tables) :
    (addressToCoordinate parseFloat env up provider address showMultiple now stamp
        history).history
      = history.addEntry
          { now := now, stamp := stamp, type := .str "geocode", input := .str address,
            output := first, provider := .str provider } := by
  unfold addressToCoordinate
  simp only [hres, hshow]

theorem addressToCoordinate_thrown (parseFloat : JsVal → JsVal) (env : Env) (up : Upstream)
    (provider address : String) (showMultiple : Bool) (now : Nat) (stamp : String)
    (history : HistoryManager) (e : JsError)
    (hres : (geocodeAddress parseFloat env up address (some provider)).result = .error e) :
    (addressToCoordinate parseFloat env up provider address showMultiple now stamp
        history).history = history := by
  unfold addressToCoordinate
  simp only [hres]

theorem addressToCoordinate_no_hit (parseFloat : JsVal → JsVal) (env : Env) (up : Upstream)
    (provider address : String) (showMultiple : Bool) (now : Nat) (stamp : String)
    (history : HistoryManager)
    (hres : (geocodeAddress parseFloat env up address (some provider)).result
      = .ok (.arr [])) :
    (addressToCoordinate parseFloat env up provider address showMultiple now stamp
        history).history = history := by
  unfold addressToCoordinate
  simp only [hres]

end PelakoorAdvanced

namespace PelakoorAdvanced

open GeocodingService

theorem batchRow_status (r : BatchRecord) (row : BatchRow) (h : batchRow r = .ok row) :
    (row.status = "✅ Success") ↔ (r.success && r.data.truthy) = true := by
  unfold batchRow at h
  split at h
  · rename_i hc
    split at h
    · cases h
    · split at h
      · cases h
      · cases h
        simp [hc]
  · rename_i hc
    cases h
    simp only [hc]
    decide

theorem batchTable_successRows (results : List BatchRecord) :
    ∀ rows, batchTable results = .ok rows →
      successRows rows = (results.filter fun r => r.success && r.data.truthy).length := by
  induction results with
  | nil =>
    intro rows h
    cases h
    rfl
  | cons r rs ih =>
    intro rows h
    unfold batchTable at h
    split at h
    · cases h
    · rename_i row hrow
      split at h
      · cases h
      · rename_i rest hrest
        cases h
        have hs := batchRow_status r row hrow
        have ht := ih rest hrest
        unfold successRows at ht ⊢
        by_cases hc : (r.success && r.data.truthy) = true
        · have hrs : row.status = "✅ Success" := hs.mpr hc
          simp only [List.filter_cons, hc, hrs, decide_True, if_true, List.length_cons, ht]
        · have hrs : ¬ row.status = "✅ Success" := fun hx => hc (hs.mp hx)
          simp only [List.filter_cons, hc, hrs, decide_False, if_false]
          exact ht

theorem successRows_le_successCount (results : List BatchRecord) (rows : List BatchRow)
    (h : batchTable results = .ok rows) : successRows rows ≤ successCount results := by
  rw [batchTable_successRows results rows h, successCount]
  clear h
  induction results with
  | nil => simp
  | cons r rs ih =>
    simp only [List.filter_cons]
    cases hs : r.success <;> cases hd : r.data.truthy <;> simp <;> omega

end PelakoorAdvanced

namespace PelakoorAdvanced

open GeocodingService

/-- C26. A batch of the one address `Paris`, looked up with the provider `osm` against
services that return one hit, ends with one record of a successful lookup holding that hit,
and with the history store as it was, empty: `batchGeocode` records nothing.  The same
lookup made by `addressToCoordinate` leaves one entry of type `geocode` with the address,
the hit and the provider. -/
theorem batchGeocode_records_nothing :
    (geocodeAddress sampleParseFloat emptyEnv parisUpstream "Paris" (some "osm")).result
      = .ok (.arr [parisOsmResult]) ∧
    (batchGeocode sampleParseFloat emptyEnv (fun _ => parisUpstream) "osm" ["Paris"]
        (HistoryManager.empty .missing)).results
      = [{ address := "Paris", success := true, data := parisOsmResult, error := none }] ∧
    (batchGeocode sampleParseFloat emptyEnv (fun _ => parisUpstream) "osm" ["Paris"]
        (HistoryManager.empty .missing)).history.history = [] ∧
    (addressToCoordinate sampleParseFloat emptyEnv parisUpstream "osm" "Paris" false
        1700000000000 "2023-11-14 22:13:20" (HistoryManager.empty .missing)).history.history
      = [.obj [("id", .num 1700000000000), ("timestamp", .str "2023-11-14 22:13:20"),
          ("type", .str "geocode"), ("input", .str "Paris"), ("output", parisOsmResult),
          ("provider", .str "osm")]] :=
  ⟨rfl, rfl, rfl, rfl⟩

/-- C29. A batch of the one address `Atlantis`, for which the services return zero hits,
prints a table whose only row has the status `Failed` and the text `Not found`, followed by
a summary that counts 1 of 1 addresses as processed successfully: the summary counts one
address more than the table shows with the `Success` status. -/
theorem batch_summary_counts_empty_lookups :
    (batchGeocode sampleParseFloat emptyEnv (fun _ => noMatchUpstream) "osm" ["Atlantis"]
        (HistoryManager.empty .missing)).output
      = .table [{ address := "Atlantis", status := "❌ Failed", detail := .notFound }] 1 1 ∧
    successRows [{ address := "Atlantis", status := "❌ Failed", detail := .notFound }] = 0 ∧
    successCount (batchGeocode sampleParseFloat emptyEnv (fun _ => noMatchUpstream) "osm"
        ["Atlantis"] (HistoryManager.empty .missing)).results = 1 :=
  ⟨rfl, rfl, rfl⟩

end PelakoorAdvanced

/-! ### Sexagesimal fields and the UTM zone -/

namespace PelakoorAdvanced

theorem dms_minutes_range (r : Rounding) (decimal : Rat) (type : String) :
    0 ≤ (dmsFields r decimal type).minutes ∧ (dmsFields r decimal type).minutes ≤ 60 := by
  have hx1a : (0 : Rat) ≤ |decimal| - (⌊|decimal|⌋ : Int) := by
    linarith [Int.floor_le |decimal|]
  have hx1b : |decimal| - (⌊|decimal|⌋ : Int) < 1 := by
    linarith [Int.lt_floor_add_one |decimal|]
  obtain ⟨ht1a, ht1b, he1⟩ := fl_unit r _ hx1a hx1b
  obtain ⟨hmfa, he2⟩ := fl_times60 r _ ht1a ht1b
  refine ⟨Int.floor_nonneg.mpr hmfa, ?_⟩
  show ⌊r.fl (r.fl (|decimal| - (⌊|decimal|⌋ : Int)) * 60)⌋ ≤ 60
  have hlt : ⌊r.fl (r.fl (|decimal| - (⌊|decimal|⌋ : Int)) * 60)⌋ < 61 := by
    rw [Int.floor_lt]
    push_cast
    have h45 : (1 : Rat) / 2 ^ 45 ≤ 1 / 30000000000000 := by norm_num
    rw [abs_le] at he1 he2
    linarith [he1.2, he2.2]
  omega

theorem toFixed_le_of_lt (x : Rat) (digits : Nat) (bound : Int) (h0 : 0 ≤ x)
    (h : x < bound) : toFixed x digits ≤ bound := by
  have hp : (0 : Rat) < 10 ^ digits := by positivity
  simp only [toFixed, h0, if_true]
  rw [div_le_iff₀ hp]
  have hfl : ⌊x * 10 ^ digits + 1 / 2⌋ ≤ bound * 10 ^ digits := by
    have hlt : ⌊x * 10 ^ digits + 1 / 2⌋ < bound * 10 ^ digits + 1 := by
      rw [Int.floor_lt]
      push_cast
      have := mul_lt_mul_of_pos_right h hp
      linarith
    omega
  exact_mod_cast hfl

theorem dms_seconds_range (r : Rounding) (decimal : Rat) (type : String) :
    0 ≤ (dmsFields r decimal type).seconds ∧ (dmsFields r decimal type).seconds ≤ 61 := by
  obtain ⟨_, _, ⟨n, hn⟩, _, _⟩ := dms_fields_close r decimal type
  have hx1a : (0 : Rat) ≤ |decimal| - (⌊|decimal|⌋ : Int) := by
    linarith [Int.floor_le |decimal|]
  have hx1b : |decimal| - (⌊|decimal|⌋ : Int) < 1 := by
    linarith [Int.lt_floor_add_one |decimal|]
  obtain ⟨ht1a, ht1b, _⟩ := fl_unit r _ hx1a hx1b
  set mf := r.fl (r.fl (|decimal| - (⌊|decimal|⌋ : Int)) * 60) with hmf
  have hx3a : (0 : Rat) ≤ mf - (⌊mf⌋ : Int) := by linarith [Int.floor_le mf]
  have hx3b : mf - (⌊mf⌋ : Int) < 1 := by linarith [Int.lt_floor_add_one mf]
  obtain ⟨ht2a, ht2b, he3⟩ := fl_unit r _ hx3a hx3b
  obtain ⟨hsa, he4⟩ := fl_times60 r _ ht2a ht2b
  constructor
  · rw [hn]
    positivity
  · show toFixed (r.fl (r.fl (mf - (⌊mf⌋ : Int)) * 60)) 2 ≤ ((61 : Int) : Rat)
    apply toFixed_le_of_lt _ 2 61 hsa
    have h45 : (1 : Rat) / 2 ^ 45 ≤ 1 / 30000000000000 := by norm_num
    rw [abs_le] at he3 he4
    push_cast
    linarith [he3.2, he4.2]

theorem dmsFields_near_one (r : Rounding) :
    (dmsFields r (9999999 / 10000000) "lat").degrees = 0 ∧
    (dmsFields r (9999999 / 10000000) "lat").minutes = 59 ∧
    (dmsFields r (9999999 / 10000000) "lat").seconds = 60 := by
  have habs : |(9999999 / 10000000 : Rat)| = 9999999 / 10000000 := abs_of_nonneg (by norm_num)
  have hd : ⌊(9999999 / 10000000 : Rat)⌋ = 0 := by
    rw [Int.floor_eq_iff]
    norm_num
  have h45 : (1 : Rat) / 2 ^ 45 ≤ 1 / 30000000000000 := by norm_num
  obtain ⟨ht1a, ht1b, he1⟩ := fl_unit r ((9999999 / 10000000 : Rat) - ((0 : Int) : Rat))
    (by norm_num) (by norm_num)
  obtain ⟨hmfa, he2⟩ := fl_times60 r _ ht1a ht1b
  set t1 := r.fl ((9999999 / 10000000 : Rat) - ((0 : Int) : Rat)) with ht1
  set mf := r.fl (t1 * 60) with hmf
  rw [abs_le] at he1 he2
  have hm : ⌊mf⌋ = 59 := by
    rw [Int.floor_eq_iff]
    push_cast
    constructor <;> linarith [he1.1, he1.2, he2.1, he2.2]
  have hx3a : (0 : Rat) ≤ mf - ((59 : Int) : Rat) := by
    push_cast
    linarith [he1.1, he2.1]
  have hx3b : mf - ((59 : Int) : Rat) < 1 := by
    push_cast
    linarith [he1.2, he2.2]
  obtain ⟨ht2a, ht2b, he3⟩ := fl_unit r _ hx3a hx3b
  obtain ⟨hsa, he4⟩ := fl_times60 r _ ht2a ht2b
  set t2 := r.fl (mf - ((59 : Int) : Rat)) with ht2
  set s := r.fl (t2 * 60) with hs
  rw [abs_le] at he3 he4
  have hsec : toFixed s 2 = 60 := by
    have hf : ⌊s * 10 ^ 2 + 1 / 2⌋ = 6000 := by
      rw [Int.floor_eq_iff]
      push_cast at he3 he4 ⊢
      constructor <;> linarith [he1.1, he1.2, he2.1, he2.2, he3.1, he3.2, he4.1, he4.2]
    simp only [toFixed, hsa, if_true, hf]
    norm_num
  refine ⟨?_, ?_, ?_⟩
  · show ⌊|(9999999 / 10000000 : Rat)|⌋ = 0
    rw [habs, hd]
  · show ⌊r.fl (r.fl (|(9999999 / 10000000 : Rat)| - ((⌊|(9999999 / 10000000 : Rat)|⌋ : Int) : Rat))
        * 60)⌋ = 59
    rw [habs, hd]
    exact hm
  · show toFixed (r.fl (r.fl (r.fl (r.fl (|(9999999 / 10000000 : Rat)|
        - ((⌊|(9999999 / 10000000 : Rat)|⌋ : Int) : Rat)) * 60)
        - ((⌊r.fl (r.fl (|(9999999 / 10000000 : Rat)|
          - ((⌊|(9999999 / 10000000 : Rat)|⌋ : Int) : Rat)) * 60)⌋ : Int) : Rat)) * 60)) 2 = 60
    rw [habs, hd, hm]
    exact hsec

end PelakoorAdvanced

namespace PelakoorAdvanced

theorem showFixed_sixty : showFixed 60 2 = "60.00" := by
  have h : ⌊|(60 : Rat)| * 10 ^ 2⌋ = 6000 := by
    rw [Int.floor_eq_iff]
    norm_num
  simp only [showFixed, h]
  decide

theorem fl_whole (r : Rounding) (x : Rat) (n : Int) (hx : x = n) (hn : |n| ≤ 2 ^ 53) :
    r.fl x = n := by
  rw [hx]
  exact r.whole n hn

theorem fl_near_large (r : Rounding) (x : Rat) (h : |x| ≤ 1048576) :
    |r.fl x - x| ≤ 1 / 2 ^ 32 := by
  have h1 := r.close x (le_trans h (by norm_num))
  have h2 : |x| / 2 ^ 53 ≤ 1048576 / 2 ^ 53 :=
    div_le_div_of_nonneg_right h (pow_nonneg (by norm_num) 53)
  have h3 : (1048576 : Rat) / 2 ^ 53 + 1 / 2 ^ 1075 ≤ 1 / 2 ^ 32 := by norm_num
  linarith

theorem jsMod_range (x : Rat) (h : 0 ≤ x) : 0 ≤ jsMod x 6 ∧ jsMod x 6 < 6 := by
  have hq : 0 ≤ x / 6 := by positivity
  simp only [jsMod, hq, if_true]
  constructor
  · linarith [Int.floor_le (x / 6)]
  · linarith [Int.lt_floor_add_one (x / 6)]

theorem utm_zone_range (r : Rounding) (lat lon : Rat) (hlo : -180 ≤ lon) (hhi : lon ≤ 180) :
    1 ≤ (utmFields r lat lon).zone ∧ (utmFields r lat lon).zone ≤ 61 := by
  have hx0 : (0 : Rat) ≤ lon + 180 := by linarith
  have hy0 := r.nonneg _ hx0
  have hy := fl_near_large r (lon + 180) (by rw [abs_of_nonneg hx0]; linarith)
  rw [abs_le] at hy
  have h32 : (1 : Rat) / 2 ^ 32 ≤ 1 / 4000000000 := by norm_num
  have hq0 : (0 : Rat) ≤ r.fl (lon + 180) / 6 := by positivity
  have hz0 := r.nonneg _ hq0
  have hz := fl_near_large r (r.fl (lon + 180) / 6)
    (by rw [abs_of_nonneg hq0]; linarith [hy.2])
  rw [abs_le] at hz
  have h0 : 0 ≤ ⌊r.fl (r.fl (lon + 180) / 6)⌋ := Int.floor_nonneg.mpr hz0
  have h1 : ⌊r.fl (r.fl (lon + 180) / 6)⌋ < 61 := by
    rw [Int.floor_lt]
    push_cast
    linarith [hy.2, hz.2]
  show 1 ≤ ⌊r.fl (r.fl (lon + 180) / 6)⌋ + 1 ∧ ⌊r.fl (r.fl (lon + 180) / 6)⌋ + 1 ≤ 61
  omega

theorem utm_easting_range (r : Rounding) (lat lon : Rat) (hlo : -180 ≤ lon) :
    0 ≤ (utmFields r lat lon).easting ∧ (utmFields r lat lon).easting < 667921 := by
  have hm := jsMod_range (r.fl (lon + 180)) (r.nonneg _ (by linarith))
  have hp0 : (0 : Rat) ≤ jsMod (r.fl (lon + 180)) 6 * 111320 := by
    have := hm.1
    positivity
  have hp := fl_near_large r (jsMod (r.fl (lon + 180)) 6 * 111320)
    (by rw [abs_of_nonneg hp0]; linarith [hm.2])
  rw [abs_le] at hp
  have h32 : (1 : Rat) / 2 ^ 32 ≤ 1 / 4000000000 := by norm_num
  refine ⟨r.nonneg _ hp0, ?_⟩
  show r.fl (jsMod (r.fl (lon + 180)) 6 * 111320) < 667921
  linarith [hp.2, hm.2]

theorem utm_label (r : Rounding) (lat lon : Rat) :
    (convertToUTM r lat lon).zone
        = toString (utmFields r lat lon).zone ++ (utmFields r lat lon).hemisphere ∧
    (convertToUTM r lat lon).hemisphere = (utmFields r lat lon).hemisphere ∧
    ((utmFields r lat lon).hemisphere = "N" ↔ lat ≥ 0) := by
  refine ⟨rfl, rfl, ?_⟩
  simp only [utmFields]
  by_cases h : lat ≥ 0
  · simp [h]
  · simp only [h, if_false, iff_false]
    decide

/-- C28. For the longitude `180`, which the input validator accepts, and the latitude `0`,
and whatever the rounding of the arithmetic, `convertToUTM` computes the zone number
`floor(360 / 6) + 1 = 61` and returns the zone label `61N`: the zone number leaves the range
`1..60`.  The hemisphere is `N` and the easting is `0`. -/
theorem utm_zone_61_at_180 (r : Rounding) :
    (-180 : Rat) ≤ 180 ∧ (180 : Rat) ≤ 180 ∧
    (utmFields r 0 180).zone = 61 ∧
    ¬ (utmFields r 0 180).zone ≤ 60 ∧
    (convertToUTM r 0 180).zone = "61N" ∧
    (convertToUTM r 0 180).hemisphere = "N" ∧
    (utmFields r 0 180).easting = 0 := by
  have h360 : r.fl ((180 : Rat) + 180) = ((360 : Int) : Rat) :=
    fl_whole r _ 360 (by norm_num) (by norm_num)
  have h60 : r.fl ((((360 : Int) : Rat)) / 6) = ((60 : Int) : Rat) :=
    fl_whole r _ 60 (by norm_num) (by norm_num)
  have hz : (utmFields r 0 180).zone = 61 := by
    show ⌊r.fl (r.fl ((180 : Rat) + 180) / 6)⌋ + 1 = 61
    rw [h360, h60, Int.floor_intCast]
    rfl
  have hh : (utmFields r 0 180).hemisphere = "N" := by
    simp [utmFields]
  have he : (utmFields r 0 180).easting = 0 := by
    show r.fl (jsMod (r.fl ((180 : Rat) + 180)) 6 * 111320) = 0
    rw [h360]
    have hmod : jsMod (((360 : Int) : Rat)) 6 = 0 := by
      have hq : (0 : Rat) ≤ ((360 : Int) : Rat) / 6 := by norm_num
      have hf : ⌊(((360 : Int) : Rat)) / 6⌋ = 60 := by
        rw [Int.floor_eq_iff]
        norm_num
      simp only [jsMod, hq, if_true, hf]
      norm_num
    rw [hmod]
    have := fl_whole r ((0 : Rat) * 111320) 0 (by norm_num) (by norm_num)
    rw [this]
    norm_num
  refine ⟨by norm_num, le_refl _, hz, by rw [hz]; decide, ?_, ?_, he⟩
  · rw [(utm_label r 0 180).1, hz, hh]
    decide
  · rw [(utm_label r 0 180).2.1, hh]

/-- C27. For the decimal `0.9999999` on the latitude axis, and whatever the rounding of the
arithmetic, `convertToDMS` builds the fields degrees `0`, minutes `59` and, after the
rounding of `toFixed(2)`, seconds `60`, printed as `60.00`: the seconds value before
rounding is `59.99964`, and no carry into the minutes follows the rounding. -/
theorem dms_seconds_reach_60 (r : Rounding) :
    (dmsFields r (9999999 / 10000000) "lat").minutes = 59 ∧
    (dmsFields r (9999999 / 10000000) "lat").seconds = 60 ∧
    ¬ (dmsFields r (9999999 / 10000000) "lat").seconds < 60 ∧
    convertToDMS r (9999999 / 10000000) "lat"
      = "0° 59" ++ String.singleton (Char.ofNat 39) ++ " 60.00"
          ++ String.singleton (Char.ofNat 34) ++ " N" := by
  obtain ⟨hd, hm, hs⟩ := dmsFields_near_one r
  have hdir : (dmsFields r (9999999 / 10000000) "lat").direction = "N" := by
    norm_num [dmsFields, directionOf]
  refine ⟨hm, hs, by rw [hs]; exact lt_irrefl _, ?_⟩
  simp only [convertToDMS]
  rw [hd, hm, hs, hdir, showFixed_sixty]
  decide

end PelakoorAdvanced

end Pelakoor
